import Mathlib

/-!
# Body adjacency models of the planner (grid and lattice)

A shallow embedding of `GridBasedBodyAdjacency.cpp`, `LatticeBasedBodyAdjacency.cpp`
and `MotorPrimitives.cpp`.

Conventions of the embedding

* `double` values are exact rationals (`ℚ`); `cos` and `sin` are parameters (`Libm`).
  The one division of the sources by a number that can be zero,
  `terrain_cost /= stance_areas_.size()`, is in addition embedded with its result
  kept as a `Double` (finite, infinite or NaN): the definitions named `...Double`.
* A `Vertex` is an unsigned integer handle, modelled by `Nat`.
* A method that may fail to return normally yields an `Option`: `none` stands for a
  sampling loop that has not finished within the given fuel, or for a cost lookup
  of a vertex that is absent from the terrain map.
* The classes `SpaceDiscretization`, `TerrainMap`, `Robot` and `Feature` are used by
  the sources but are not part of them: they appear as records of functions.
-/

namespace dwl

/-! ## Data model -/

/-- Vertex handle (`typedef` of an unsigned integer in the sources). -/
abbrev Vertex := Nat

/-- Edge weight (`double`). -/
abbrev Weight := ℚ

/-- The pair `Edge(target, weight)`. -/
abbrev Edge := Vertex × Weight

/-- Modelled from the spec: the `Key` type is not declared in the sources; the spec
describes keys as signed integer indices, one per axis. Only the plane indices
`x` and `y` are read or written by the code under study. -/
structure Key where
  x : Int
  y : Int
deriving DecidableEq, Repr

/-- Value of `Eigen::Vector2d`: components `(0)` and `(1)`. -/
structure Vector2d where
  c0 : ℚ
  c1 : ℚ
deriving DecidableEq

/-- Value of `Eigen::Vector3d`: components `(0)`, `(1)` and `(2)`. -/
structure Vector3d where
  c0 : ℚ
  c1 : ℚ
  c2 : ℚ
deriving DecidableEq

/-- Componentwise difference of two `Eigen::Vector3d`. -/
def Vector3d.sub (a b : Vector3d) : Vector3d :=
  ⟨a.c0 - b.c0, a.c1 - b.c1, a.c2 - b.c2⟩

/-- The vector `Eigen::Vector3d::Zero()`. -/
def Vector3d.zero : Vector3d := ⟨0, 0, 0⟩

/-- The first two components, `head(2)`. -/
def Vector3d.head2 (a : Vector3d) : Vector2d := ⟨a.c0, a.c1⟩

/-- State representations (`TypeOfState`); the sources use `XY` and `XY_Y`. -/
inductive TypeOfState where
  | XY
  | XY_Y
deriving DecidableEq

/-- Rectangle in the body frame with a sampling resolution. -/
structure SearchArea where
  min_x : ℚ
  max_x : ℚ
  min_y : ℚ
  max_y : ℚ
  resolution : ℚ

/-- Planar pose with a yaw angle. -/
structure Pose3d where
  position : Vector2d
  orientation : ℚ

/-- Candidate body action: absolute pose and traversal cost. -/
structure Action3d where
  pose : Pose3d
  cost : Weight

/-- Terrain cell payload. -/
structure TerrainData where
  cost : Weight
  height : ℚ

/-- The map `TerrainDataMap` (a `std::map` from vertex to cell data), kept as the
list of its entries in iteration order; a lookup returns the first entry of the
key. -/
abbrev TerrainDataMap := List (Vertex × TerrainData)

/-- The map `ObstacleMap` (vertex to blocked flag), as the list of its entries. -/
abbrev ObstacleMap := List (Vertex × Bool)

/-- Height map handed over to the features. -/
abbrev HeightMap := List (Vertex × ℚ)

/-- The map `AdjacencyMap` (vertex to the sequence of its outgoing edges), as the
list of its entries, a new key going to the end; the edges of a key are read with
`edgesOf`, which does not depend on the order of the keys. -/
abbrev AdjacencyMap := List (Vertex × List Edge)

/-- Context record given to a feature. -/
structure RobotAndTerrain where
  body_action : Vector3d
  pose : Pose3d
  height_map : HeightMap
  resolution : ℚ

/-- A feature, seen through `computeCost` and `getWeight`. -/
structure Feature where
  computeCost : RobotAndTerrain → ℚ
  getWeight : ℚ

/-- The functions `cos` and `sin` of the C library. -/
structure Libm where
  cos : ℚ → ℚ
  sin : ℚ → ℚ

/-- The space discretisation returned by `getTerrainSpaceModel()` and
`getObstacleSpaceModel()`. The class is outside the sources; each member function
that the adjacency models call is a field. The flag of `stateToKey`, `keyToState`,
`vertexToKey` and `keyToVertex` selects the plane (true) or the yaw axis (false). -/
structure SpaceModel where
  vertexToState : Vertex → Vector3d
  vertexToState2d : Vertex → Vector2d
  stateToVertex : Vector3d → Vertex
  stateToKey : ℚ → Bool → Int
  keyToState : Int → Bool → ℚ
  vertexToKey : Vertex → Bool → Key
  keyToVertex : Key → Bool → Vertex
  vertexToCoord : Vertex → Vector2d
  coordToVertex : Vector2d → Vertex
  stateVertexToEnvironmentVertex : Vertex → TypeOfState → Vertex

/-- The terrain object (`environment::TerrainMap`), seen through its getters. -/
structure TerrainMap where
  isTerrainInformation : Bool
  isObstacleInformation : Bool
  getTerrainDataMap : TerrainDataMap
  getObstacleMap : ObstacleMap
  getAverageCostOfTerrain : ℚ
  getTerrainHeightMap : HeightMap
  getResolution : Bool → ℚ
  getObstacleResolution : ℚ
  getTerrainSpaceModel : SpaceModel
  getObstacleSpaceModel : SpaceModel

/-- The robot object (`robot::Robot`), seen through its getters; the body motor
primitive is represented by its `generateActions`, which appends to the action
vector it is given. -/
structure Robot where
  getFootstepSearchAreas : Vector3d → List SearchArea
  getPredefinedBodyWorkspace : SearchArea
  generateActions : List Action3d → Pose3d → List Action3d

/-- The lookup `terrain_map.find(v)`: the first entry stored under `v`. -/
def TerrainMap.find (t : TerrainMap) (v : Vertex) : Option TerrainData :=
  (t.getTerrainDataMap.find? (fun e => e.1 == v)).map (fun e => e.2)

/-- The number `terrain_map.count(v)`, which is 0 or 1 for a `std::map`. -/
def TerrainMap.count (t : TerrainMap) (v : Vertex) : Nat :=
  if (t.find v).isSome then 1 else 0

/-- Modelled from the spec: `getTerrainCost` belongs to the terrain class, which is
outside the sources; the spec gives it as the cost stored for the vertex, with no
normal return when the vertex is absent. -/
def TerrainMap.getTerrainCost (t : TerrainMap) (v : Vertex) : Option Weight :=
  (t.find v).map (fun d => d.cost)

/-! ## Grid-based body adjacency -/

/-- Member variables of `GridBasedBodyAdjacency` once `reset` has bound the robot
and the terrain. -/
structure GridBasedBodyAdjacency where
  robot_ : Robot
  terrain_ : TerrainMap
  features_ : List Feature
  is_stance_adjacency_ : Bool
  stance_areas_ : List SearchArea
  neighboring_definition_ : Int
  number_top_cost_ : Int
  uncertainty_factor_ : ℚ
  libm : Libm

/-- The constructor, the registration of the features and `reset(robot, environment)`:
default configuration and no cached stance areas. -/
def GridBasedBodyAdjacency.reset (robot : Robot) (environment : TerrainMap)
    (features : List Feature) (m : Libm) : GridBasedBodyAdjacency :=
  { robot_ := robot, terrain_ := environment, features_ := features,
    is_stance_adjacency_ := true, stance_areas_ := [],
    neighboring_definition_ := 3, number_top_cost_ := 5,
    uncertainty_factor_ := 115 / 100, libm := m }

/-- The accessor `isStanceAdjacency()`. -/
def GridBasedBodyAdjacency.isStanceAdjacency (g : GridBasedBodyAdjacency) : Bool :=
  g.is_stance_adjacency_

/-- The eight probes of one ring, in the order of the source: `+x`, `-x`, `+y`,
`-y`, `+x+y`, `-x-y`, `-x+y`, `+x-y`. A probe at ring `r` looks at the key
`(terrain_key.x + dx * r, terrain_key.y + dy * r)`. -/
def directions : List (Int × Int) :=
  [(1, 0), (-1, 0), (0, 1), (0, -1), (1, 1), (-1, -1), (-1, 1), (1, -1)]

/-- Local state of `searchNeighbors`: the eight `is_found_neighbor_*` flags, indexed
by the position of their direction in `directions`, and the output vector. -/
structure SearchState where
  is_found_neighbor : Nat → Bool
  neighbor_states : List Vertex

/-- The key probed at ring `r` in direction `d`. -/
def searchingKey (terrain_key : Key) (r : Int) (d : Int × Int) : Key :=
  ⟨terrain_key.x + d.1 * r, terrain_key.y + d.2 * r⟩

/-- The state vertex built for a probed key: its coordinates come from
`keyToState` on each plane index and on the yaw key, then `stateToVertex`. -/
def neighborStateVertex (sm : SpaceModel) (key_yaw : Int) (searching_key : Key) : Vertex :=
  let x := sm.keyToState searching_key.x true
  let y := sm.keyToState searching_key.y true
  let yaw := sm.keyToState key_yaw false
  sm.stateToVertex ⟨x, y, yaw⟩

/-- One of the eight blocks of the ring body: probe direction number `i`, `d`. -/
def probeDirection (t : TerrainMap) (terrain_key : Key) (key_yaw : Int) (r : Int)
    (st : SearchState) (i : Nat) (d : Int × Int) : SearchState :=
  let searching_key := searchingKey terrain_key r d
  let neighbor_vertex := t.getTerrainSpaceModel.keyToVertex searching_key true
  if decide (t.count neighbor_vertex > 0) && !st.is_found_neighbor i then
    { is_found_neighbor := Function.update st.is_found_neighbor i true,
      neighbor_states := st.neighbor_states ++
        [neighborStateVertex t.getTerrainSpaceModel key_yaw searching_key] }
  else st

/-- The eight blocks from position `i` on. -/
def probeFrom (t : TerrainMap) (terrain_key : Key) (key_yaw : Int) (r : Int) :
    Nat → List (Int × Int) → SearchState → SearchState
  | _, [], st => st
  | i, d :: ds, st =>
    probeFrom t terrain_key key_yaw r (i + 1) ds (probeDirection t terrain_key key_yaw r st i d)

/-- Body of the loop over `r`: the eight blocks in source order. -/
def searchRing (t : TerrainMap) (terrain_key : Key) (key_yaw : Int) (st : SearchState)
    (r : Int) : SearchState :=
  probeFrom t terrain_key key_yaw r 0 directions st

/-- The values taken by `r` in `for (int r = 1; r <= neighboring_definition_; r++)`:
`1, ..., neighboring_definition_`, none when the bound is below 1. -/
def rings (neighboring_definition : Int) : List Int :=
  (List.range neighboring_definition.toNat).map (fun (i : Nat) => (i : Int) + 1)

/-- The method `searchNeighbors(neighbor_states, state_vertex)`; the result is the
vector `neighbor_states` after the call. -/
def GridBasedBodyAdjacency.searchNeighbors (g : GridBasedBodyAdjacency)
    (neighbor_states : List Vertex) (state_vertex : Vertex) : List Vertex :=
  let sm := g.terrain_.getTerrainSpaceModel
  let state := sm.vertexToState state_vertex
  let key_yaw := sm.stateToKey state.c2 false
  let terrain_vertex := sm.stateVertexToEnvironmentVertex state_vertex TypeOfState.XY_Y
  let terrain_key := sm.vertexToKey terrain_vertex true
  if g.terrain_.isTerrainInformation then
    ((rings g.neighboring_definition_).foldl
      (searchRing g.terrain_ terrain_key key_yaw)
      { is_found_neighbor := fun _ => false, neighbor_states := neighbor_states }).neighbor_states
  else neighbor_states

/-! ### Stance cost -/

/-- The loop `for (double v = lo; v <= hi; v += step) body`, started at `v` on the
state `s` and bounded by a fuel; `none` when the fuel is used up before the loop
condition fails, or when the body does not return. -/
def forLoop {σ : Type} (body : ℚ → σ → Option σ) (hi step : ℚ) : Nat → ℚ → σ → Option σ
  | 0, _, _ => none
  | fuel + 1, v, s =>
    if v ≤ hi then (body v s).bind (forLoop body hi step fuel (v + step)) else some s

/-- Modelled from the spec: the comparator `pair_first_less` is declared outside the
sources; the set is ordered by cost ascending, so the comparator is `<` on the first
component of the pair. -/
def pair_first_less (a b : Weight × Vertex) : Bool := decide (a.1 < b.1)

/-- The call `stance_cost_queue.insert(e)` on a `std::set` ordered by
`pair_first_less`: the entries stay in ascending order and an entry equivalent to
one already present (neither is less than the other) is not inserted. -/
def setInsert : List (Weight × Vertex) → Weight × Vertex → List (Weight × Vertex)
  | [], e => [e]
  | h :: t, e =>
    if pair_first_less e h then e :: h :: t
    else if pair_first_less h e then h :: setInsert t e
    else h :: t

/-- The sample `(x, y)` rotated by the yaw `state(2)` about `(state(0), state(1))`. -/
def rotatedPoint (m : Libm) (state : Vector3d) (x y : ℚ) : Vector2d :=
  ⟨(x - state.c0) * m.cos state.c2 - (y - state.c1) * m.sin state.c2 + state.c0,
   (x - state.c0) * m.sin state.c2 + (y - state.c1) * m.cos state.c2 + state.c1⟩

/-- Body of the inner sampling loop: the cell under the rotated sample is pushed
with its cost when it is a key of the terrain map. -/
def sampleCell (t : TerrainMap) (m : Libm) (state : Vector3d) (y x : ℚ)
    (stance_cost_queue : List (Weight × Vertex)) : Option (List (Weight × Vertex)) :=
  let point_position := rotatedPoint m state x y
  let current_2d_vertex := t.getTerrainSpaceModel.coordToVertex point_position
  if t.count current_2d_vertex > 0 then
    (t.getTerrainCost current_2d_vertex).map
      (fun c => setInsert stance_cost_queue (c, current_2d_vertex))
  else some stance_cost_queue

/-- The two nested sampling loops over one stance area, from an empty queue. -/
def stanceCostQueue (t : TerrainMap) (m : Libm) (state : Vector3d) (area : SearchArea)
    (fuel : Nat) : Option (List (Weight × Vertex)) :=
  let boundary_min0 := area.min_x + state.c0
  let boundary_min1 := area.min_y + state.c1
  let boundary_max0 := area.max_x + state.c0
  let boundary_max1 := area.max_y + state.c1
  let resolution := area.resolution
  forLoop
    (fun y q => forLoop (fun x q1 => sampleCell t m state y x q1)
      boundary_max0 resolution fuel boundary_min0 q)
    boundary_max1 resolution fuel boundary_min1 []

/-- The loop `for (i = 0; i < n; i++) { stance_cost += begin()->first; erase(begin()); }`
started with `stance_cost = acc`. -/
def sumLowest : Nat → List (Weight × Vertex) → ℚ → ℚ
  | 0, _, acc => acc
  | _ + 1, [], acc => acc
  | n + 1, h :: t, acc => sumLowest n t (acc + h.1)

/-- The value of `unsigned int number_top_cost = number_top_cost_` (32 bits). -/
def toUnsigned (number_top_cost_ : Int) : Nat := (number_top_cost_ % 2 ^ 32).toNat

/-- The averaging step on a filled queue: the contribution `stance_cost` of one
stance area. -/
def averageLowest (number_top_cost_ : Int) (uncertainty_factor average_cost : ℚ)
    (stance_cost_queue : List (Weight × Vertex)) : ℚ :=
  let number_top_cost := toUnsigned number_top_cost_
  let number_top_cost :=
    if stance_cost_queue.length < number_top_cost then stance_cost_queue.length
    else number_top_cost
  if number_top_cost = 0 then 0 + uncertainty_factor * average_cost
  else sumLowest number_top_cost stance_cost_queue 0 / (number_top_cost : ℚ)

/-- Contribution `stance_cost` of one stance area: sampling, then averaging. -/
def stanceCost (t : TerrainMap) (m : Libm) (number_top_cost_ : Int) (uncertainty_factor : ℚ)
    (state : Vector3d) (area : SearchArea) (fuel : Nat) : Option ℚ :=
  (stanceCostQueue t m state area fuel).map
    (averageLowest number_top_cost_ uncertainty_factor t.getAverageCostOfTerrain)

/-- The loop over the stance areas: `terrain_cost += stance_cost` for each area. -/
def sumStanceCosts (t : TerrainMap) (m : Libm) (number_top_cost_ : Int)
    (uncertainty_factor : ℚ) (state : Vector3d) (fuel : Nat) :
    List SearchArea → ℚ → Option ℚ
  | [], terrain_cost => some terrain_cost
  | area :: rest, terrain_cost =>
    (stanceCost t m number_top_cost_ uncertainty_factor state area fuel).bind
      (fun stance_cost =>
        sumStanceCosts t m number_top_cost_ uncertainty_factor state fuel rest
          (terrain_cost + stance_cost))

/-- The statement `terrain_cost /= stance_areas_.size()` after the loop over the
areas, read in exact arithmetic: the value the source computes whenever the list of
stance areas is not empty. With no area the source divides by zero and the rational
quotient (0 by convention) is not what it computes; `meanStanceCostDouble` keeps the
quotient as a double and agrees with this definition on every non-empty list
(`meanStanceCostDouble_of_ne_nil`). -/
def meanStanceCost (t : TerrainMap) (m : Libm) (number_top_cost_ : Int)
    (uncertainty_factor : ℚ) (state : Vector3d) (stance_areas : List SearchArea)
    (fuel : Nat) : Option ℚ :=
  (sumStanceCosts t m number_top_cost_ uncertainty_factor state fuel stance_areas 0).map
    (fun terrain_cost => terrain_cost / (stance_areas.length : ℚ))

/-- The loop over the features: `cost += weight * feature_cost`. -/
def addFeatureCosts (features : List Feature) (info : RobotAndTerrain) (cost : ℚ) : ℚ :=
  features.foldl (fun c f => c + f.getWeight * f.computeCost info) cost

/-- The method `GridBasedBodyAdjacency::computeBodyCost(cost, state_vertex)`; the
result is the value written to `cost`. The stance areas are the cached member
`stance_areas_`; the feature context carries the action `(1, 0, 0)`. -/
def GridBasedBodyAdjacency.computeBodyCost (g : GridBasedBodyAdjacency) (fuel : Nat)
    (state_vertex : Vertex) : Option ℚ :=
  let state := g.terrain_.getTerrainSpaceModel.vertexToState state_vertex
  (meanStanceCost g.terrain_ g.libm g.number_top_cost_ g.uncertainty_factor_ state
      g.stance_areas_ fuel).map
    (fun terrain_cost =>
      let info : RobotAndTerrain :=
        { body_action := ⟨1, 0, 0⟩,
          pose := { position := state.head2, orientation := state.c2 },
          height_map := g.terrain_.getTerrainHeightMap,
          resolution := g.terrain_.getResolution true }
      addFeatureCosts g.features_ info terrain_cost)

/-! ### Successors -/

/-- The loop of `getSuccessors` over the neighbour vertices. -/
def GridBasedBodyAdjacency.successorsLoop (g : GridBasedBodyAdjacency) (fuel : Nat) :
    List Vertex → List Edge → Option (List Edge)
  | [], successors => some successors
  | n :: rest, successors =>
    let terrain_vertex :=
      g.terrain_.getTerrainSpaceModel.stateVertexToEnvironmentVertex n TypeOfState.XY_Y
    if !g.isStanceAdjacency then
      (g.terrain_.getTerrainCost terrain_vertex).bind
        (fun terrain_cost => g.successorsLoop fuel rest (successors ++ [(n, terrain_cost)]))
    else
      (g.computeBodyCost fuel n).bind
        (fun body_cost => g.successorsLoop fuel rest (successors ++ [(n, body_cost)]))

/-- The method `GridBasedBodyAdjacency::getSuccessors(successors, state_vertex)`;
the result is the list `successors` after the call. -/
def GridBasedBodyAdjacency.getSuccessors (g : GridBasedBodyAdjacency) (fuel : Nat)
    (successors : List Edge) (state_vertex : Vertex) : Option (List Edge) :=
  let neighbor_actions := g.searchNeighbors [] state_vertex
  if g.terrain_.isTerrainInformation then
    g.successorsLoop fuel neighbor_actions successors
  else some successors

/-! ### Start and goal snapping -/

/-- Squared Euclidean distance of two planar points. The source compares the norms
`(a - b).norm()`; two norms compare as their squares do. -/
def squaredDistance (a b : Vector2d) : ℚ :=
  (a.c0 - b.c0) * (a.c0 - b.c0) + (a.c1 - b.c1) * (a.c1 - b.c1)

/-- The test `distant < closest_distant`, where `none` is the initial value
`std::numeric_limits<double>::max()` of the running minimum. -/
def closerThan (distant : ℚ) (closest_distant : Option ℚ) : Bool :=
  match closest_distant with
  | none => true
  | some c => decide (distant < c)

/-- Local state of the first loop of `getTheClosestStartAndGoalVertex`. -/
structure PresenceState where
  is_there_start_vertex : Bool
  is_there_goal_vertex : Bool
  closest_source : Vertex
  closest_target : Vertex
  vertex_map : List Vertex

/-- The first loop of `getTheClosestStartAndGoalVertex` over the terrain entries;
`Sum.inr` is the early `return` with the current output values. -/
def presenceLoop (source target : Vertex) :
    List (Vertex × TerrainData) → PresenceState → PresenceState ⊕ (Vertex × Vertex)
  | [], st => Sum.inl st
  | e :: rest, st =>
    let current_vertex := e.1
    let st1 : PresenceState :=
      if source = current_vertex then
        { st with is_there_start_vertex := true, closest_source := current_vertex }
      else st
    let st2 : PresenceState :=
      if target = current_vertex then
        { st1 with is_there_goal_vertex := true, closest_target := current_vertex }
      else st1
    if st2.is_there_start_vertex && st2.is_there_goal_vertex then
      Sum.inr (st2.closest_source, st2.closest_target)
    else
      presenceLoop source target rest { st2 with vertex_map := st2.vertex_map ++ [e.1] }

/-- A loop `for i < vertex_map.size()` recording the vertex closest to `origin`:
the running pair is `(closest_vertex, closest_distant)`. -/
def closestLoop (sm : SpaceModel) (origin : Vector3d) :
    List Vertex → Vertex × Option ℚ → Vertex × Option ℚ
  | [], best => best
  | v :: rest, best =>
    let current_state := sm.vertexToState v
    let distant := squaredDistance origin.head2 current_state.head2
    if closerThan distant best.2 then closestLoop sm origin rest (v, some distant)
    else closestLoop sm origin rest best

/-- The method `getTheClosestStartAndGoalVertex(closest_source, closest_target,
source, target)`; the result is the pair of output arguments after the call.
The declaration `bool is_there_start_vertex, is_there_goal_vertex = false;`
initialises the second flag only, and the caller passes uninitialised output
variables: `start_flag0`, `closest_source0` and `closest_target0` are the values
these three variables hold on entry. The loop of the first branch keeps two
independent running minima, one per endpoint; each is a run of `closestLoop`. -/
def GridBasedBodyAdjacency.getTheClosestStartAndGoalVertex (g : GridBasedBodyAdjacency)
    (start_flag0 : Bool) (closest_source0 closest_target0 : Vertex)
    (source target : Vertex) : Vertex × Vertex :=
  if g.terrain_.isTerrainInformation then
    match presenceLoop source target g.terrain_.getTerrainDataMap
        { is_there_start_vertex := start_flag0, is_there_goal_vertex := false,
          closest_source := closest_source0, closest_target := closest_target0,
          vertex_map := [] } with
    | Sum.inr out => out
    | Sum.inl st =>
      let sm := g.terrain_.getTerrainSpaceModel
      let start_state := sm.vertexToState source
      let goal_state := sm.vertexToState target
      if !st.is_there_start_vertex && !st.is_there_goal_vertex then
        ((closestLoop sm start_state st.vertex_map (0, none)).1,
         (closestLoop sm goal_state st.vertex_map (0, none)).1)
      else if !st.is_there_start_vertex then
        ((closestLoop sm start_state st.vertex_map (0, none)).1, st.closest_target)
      else if !st.is_there_goal_vertex then
        (st.closest_source, (closestLoop sm goal_state st.vertex_map (0, none)).1)
      else (st.closest_source, st.closest_target)
  else (closest_source0, closest_target0)

/-! ### Whole-map materialisation -/

/-- The statement `adjacency_map[key].push_back(edge)`. -/
def adjacencyPushBack : AdjacencyMap → Vertex → Edge → AdjacencyMap
  | [], key, edge => [(key, [edge])]
  | (k, es) :: rest, key, edge =>
    if k = key then (k, es ++ [edge]) :: rest
    else (k, es) :: adjacencyPushBack rest key edge

/-- The edge sequence stored under a key (empty when the key is absent). -/
def edgesOf : AdjacencyMap → Vertex → List Edge
  | [], _ => []
  | (k, es) :: rest, key => if k = key then es else edgesOf rest key

/-- The loop `for i < neighbor_actions.size()` of `computeAdjacencyMap`:
`adjacency_map[neighbor_actions[i]].push_back(Edge(state_vertex, cost))`. -/
def pushNeighborEdges (state_vertex : Vertex) (cost : Weight) :
    List Vertex → AdjacencyMap → AdjacencyMap
  | [], adjacency_map => adjacency_map
  | n :: rest, adjacency_map =>
    pushNeighborEdges state_vertex cost rest
      (adjacencyPushBack adjacency_map n (state_vertex, cost))

/-- The state vertex built in `computeAdjacencyMap` for a terrain vertex: its
coordinates from `vertexToCoord`, then `stateToVertex` with the yaw. -/
def cellStateVertex (sm : SpaceModel) (yaw : ℚ) (vertex : Vertex) : Vertex :=
  let current_coord := sm.vertexToCoord vertex
  sm.stateToVertex ⟨current_coord.c0, current_coord.c1, yaw⟩

/-- The loop of `computeAdjacencyMap` over the entries of the terrain map. -/
def GridBasedBodyAdjacency.terrainLoop (g : GridBasedBodyAdjacency) (fuel : Nat) (yaw : ℚ) :
    List (Vertex × TerrainData) → AdjacencyMap → Option AdjacencyMap
  | [], adjacency_map => some adjacency_map
  | e :: rest, adjacency_map =>
    let vertex := e.1
    let state_vertex := cellStateVertex g.terrain_.getTerrainSpaceModel yaw vertex
    if !g.isStanceAdjacency then
      let terrain_cost := e.2.cost
      let neighbor_actions := g.searchNeighbors [] state_vertex
      g.terrainLoop fuel yaw rest
        (pushNeighborEdges state_vertex terrain_cost neighbor_actions adjacency_map)
    else
      (g.computeBodyCost fuel state_vertex).bind (fun body_cost =>
        let neighbor_actions := g.searchNeighbors [] state_vertex
        g.terrainLoop fuel yaw rest
          (pushNeighborEdges state_vertex body_cost neighbor_actions adjacency_map))

/-- The yaw used by `computeAdjacencyMap`: the yaw of the source passed through
`stateToKey` and `keyToState`. -/
def sourceYaw (sm : SpaceModel) (source : Vertex) : ℚ :=
  let initial_state := sm.vertexToState source
  let key_yaw := sm.stateToKey initial_state.c2 false
  sm.keyToState key_yaw false

/-- The method `computeAdjacencyMap(adjacency_map, source, target)`; the result is
the object (its member `stance_areas_` is overwritten) and the map after the call.
The three first arguments after the fuel are the entry values of the uninitialised
variables read by `getTheClosestStartAndGoalVertex`. -/
def GridBasedBodyAdjacency.computeAdjacencyMap (g : GridBasedBodyAdjacency) (fuel : Nat)
    (start_flag0 : Bool) (closest_source0 closest_target0 : Vertex)
    (adjacency_map : AdjacencyMap) (source target : Vertex) :
    Option (GridBasedBodyAdjacency × AdjacencyMap) :=
  let full_action := Vector3d.zero
  let g1 := { g with stance_areas_ := g.robot_.getFootstepSearchAreas full_action }
  let yaw := sourceYaw g1.terrain_.getTerrainSpaceModel source
  if g1.terrain_.isTerrainInformation then
    let closest :=
      g1.getTheClosestStartAndGoalVertex start_flag0 closest_source0 closest_target0
        source target
    let closest_source := closest.1
    let closest_target := closest.2
    let map1 :=
      if closest_source ≠ source then adjacencyPushBack adjacency_map source (closest_source, 0)
      else adjacency_map
    let map2 :=
      if closest_target ≠ target then adjacencyPushBack map1 closest_target (target, 0)
      else map1
    (g1.terrainLoop fuel yaw g1.terrain_.getTerrainDataMap map2).map (fun m => (g1, m))
  else some (g1, adjacency_map)

/-! ## Lattice-based body adjacency -/

/-- Member variables of `LatticeBasedBodyAdjacency` once `reset` has bound the robot
and the terrain. -/
structure LatticeBasedBodyAdjacency where
  robot_ : Robot
  terrain_ : TerrainMap
  features_ : List Feature
  current_action_ : Vector3d
  is_stance_adjacency_ : Bool
  stance_areas_ : List SearchArea
  number_top_cost_ : Int
  uncertainty_factor_ : ℚ
  libm : Libm

/-- The accessor `isStanceAdjacency()`. -/
def LatticeBasedBodyAdjacency.isStanceAdjacency (l : LatticeBasedBodyAdjacency) : Bool :=
  l.is_stance_adjacency_

/-- The method `LatticeBasedBodyAdjacency::computeBodyCost(cost, state)`; the result
is the object (its member `stance_areas_` is overwritten) and the value written to
`cost`. -/
def LatticeBasedBodyAdjacency.computeBodyCost (l : LatticeBasedBodyAdjacency) (fuel : Nat)
    (state : Vector3d) : Option (LatticeBasedBodyAdjacency × ℚ) :=
  let l1 := { l with stance_areas_ := l.robot_.getFootstepSearchAreas l.current_action_ }
  (meanStanceCost l1.terrain_ l1.libm l1.number_top_cost_ l1.uncertainty_factor_ state
      l1.stance_areas_ fuel).map
    (fun terrain_cost =>
      let info : RobotAndTerrain :=
        { body_action := l1.current_action_,
          pose := { position := state.head2, orientation := state.c2 },
          height_map := l1.terrain_.getTerrainHeightMap,
          resolution := l1.terrain_.getResolution true }
      (l1, addFeatureCosts l1.features_ info terrain_cost))

/-- The lookup `obstacle_map.find(v)`: the first entry stored under `v`. -/
def TerrainMap.findObstacle (t : TerrainMap) (v : Vertex) : Option Bool :=
  (t.getObstacleMap.find? (fun e => e.1 == v)).map (fun e => e.2)

/-- The test `obstacle_map.count(v) > 0` followed by `obstacle_map.find(v)->second`. -/
def TerrainMap.isBlocked (t : TerrainMap) (v : Vertex) : Bool :=
  match t.findObstacle v with
  | some b => b
  | none => false

/-- The inner loop of the body scan of `isFreeOfObstacle`, from `x` on: `some true`
is the jump to `found_obstacle`, `some false` the normal end of the loop. -/
def scanRow (t : TerrainMap) (m : Libm) (current : Vector3d) (hi step y : ℚ) :
    Nat → ℚ → Option Bool
  | 0, _ => none
  | fuel + 1, x =>
    if x ≤ hi then
      let point_position := rotatedPoint m current x y
      let current_2d_vertex := t.getObstacleSpaceModel.coordToVertex point_position
      if t.isBlocked current_2d_vertex then some true
      else scanRow t m current hi step y fuel (x + step)
    else some false

/-- The outer loop of the body scan, from `y` on; `fuel0` bounds each inner loop. -/
def scanRows (t : TerrainMap) (m : Libm) (current : Vector3d) (lo0 hi0 hi1 step : ℚ)
    (fuel0 : Nat) : Nat → ℚ → Option Bool
  | 0, _ => none
  | fuel + 1, y =>
    if y ≤ hi1 then
      (scanRow t m current hi0 step y fuel0 lo0).bind (fun found =>
        if found then some true
        else scanRows t m current lo0 hi0 hi1 step fuel0 fuel (y + step))
    else some false

/-- The method `isFreeOfObstacle(state_vertex, state_representation, body)`. -/
def LatticeBasedBodyAdjacency.isFreeOfObstacle (l : LatticeBasedBodyAdjacency) (fuel : Nat)
    (state_vertex : Vertex) (state_representation : TypeOfState) (body : Bool) :
    Option Bool :=
  let t := l.terrain_
  let current : Vector3d :=
    if state_representation = TypeOfState.XY then
      let state_2d := t.getObstacleSpaceModel.vertexToState2d state_vertex
      ⟨state_2d.c0, state_2d.c1, 0⟩
    else t.getObstacleSpaceModel.vertexToState state_vertex
  if t.isObstacleInformation then
    if body then
      let body_workspace := l.robot_.getPredefinedBodyWorkspace
      let boundary_min0 := body_workspace.min_x + current.c0
      let boundary_min1 := body_workspace.min_y + current.c1
      let boundary_max0 := body_workspace.max_x + current.c0
      let boundary_max1 := body_workspace.max_y + current.c1
      let obstacle_resolution :=
        if body_workspace.resolution > t.getObstacleResolution then body_workspace.resolution
        else t.getObstacleResolution
      (scanRows t l.libm current boundary_min0 boundary_max0 boundary_max1
          obstacle_resolution fuel fuel boundary_min1).map (fun found => !found)
    else
      let terrain_vertex :=
        t.getObstacleSpaceModel.stateVertexToEnvironmentVertex state_vertex state_representation
      some (!t.isBlocked terrain_vertex)
  else some true

/-- The loop of the lattice `getSuccessors` over the generated actions. -/
def LatticeBasedBodyAdjacency.successorsLoop (fuel : Nat) (current_state : Vector3d) :
    List Action3d → LatticeBasedBodyAdjacency → List Edge →
      Option (LatticeBasedBodyAdjacency × List Edge)
  | [], l, successors => some (l, successors)
  | a :: rest, l, successors =>
    let sm := l.terrain_.getTerrainSpaceModel
    let action_state : Vector3d := ⟨a.pose.position.c0, a.pose.position.c1, a.pose.orientation⟩
    let current_action_vertex := sm.stateToVertex action_state
    let terrain_vertex :=
      sm.stateVertexToEnvironmentVertex current_action_vertex TypeOfState.XY_Y
    let l1 := { l with current_action_ := action_state.sub current_state }
    (l1.isFreeOfObstacle fuel current_action_vertex TypeOfState.XY_Y true).bind (fun free =>
      if free then
        if !l1.isStanceAdjacency then
          if l1.terrain_.count terrain_vertex = 0 then
            LatticeBasedBodyAdjacency.successorsLoop fuel current_state rest l1
              (successors ++ [(current_action_vertex,
                l1.uncertainty_factor_ * l1.terrain_.getAverageCostOfTerrain)])
          else
            (l1.terrain_.getTerrainCost terrain_vertex).bind (fun terrain_cost =>
              LatticeBasedBodyAdjacency.successorsLoop fuel current_state rest l1
                (successors ++ [(current_action_vertex, terrain_cost)]))
        else
          (l1.computeBodyCost fuel action_state).bind (fun r =>
            LatticeBasedBodyAdjacency.successorsLoop fuel current_state rest r.1
              (successors ++ [(current_action_vertex, r.2 + a.cost)]))
      else LatticeBasedBodyAdjacency.successorsLoop fuel current_state rest l1 successors)

/-- The method `LatticeBasedBodyAdjacency::getSuccessors(successors, state_vertex)`;
the result is the object and the list `successors` after the call. -/
def LatticeBasedBodyAdjacency.getSuccessors (l : LatticeBasedBodyAdjacency) (fuel : Nat)
    (successors : List Edge) (state_vertex : Vertex) :
    Option (LatticeBasedBodyAdjacency × List Edge) :=
  let current_state := l.terrain_.getTerrainSpaceModel.vertexToState state_vertex
  let current_pose : Pose3d :=
    { position := current_state.head2, orientation := current_state.c2 }
  let actions := l.robot_.generateActions [] current_pose
  if l.terrain_.isTerrainInformation then
    LatticeBasedBodyAdjacency.successorsLoop fuel current_state actions l successors
  else some (l, successors)

/-! ## Motor primitives -/

/-- The default `MotorPrimitives::generateActions(actions, state)` of the abstract
base class: it prints a diagnostic and leaves `actions` as it is. -/
def MotorPrimitives.generateActions (actions : List Action3d) (_state : Pose3d) :
    List Action3d :=
  actions

/-! ## Vocabulary of the statements -/

/-- The yaw key that `searchNeighbors` reads from its argument. -/
def yawKeyOf (sm : SpaceModel) (state_vertex : Vertex) : Int :=
  sm.stateToKey (sm.vertexToState state_vertex).c2 false

/-- The plane key that `searchNeighbors` reads from its argument. -/
def terrainKeyOf (sm : SpaceModel) (state_vertex : Vertex) : Key :=
  sm.vertexToKey (sm.stateVertexToEnvironmentVertex state_vertex TypeOfState.XY_Y) true

/-- Whether the terrain map has a cell at `key + r * d`. -/
def hasCell (t : TerrainMap) (key : Key) (d : Int × Int) (r : Int) : Bool :=
  decide (t.count (t.getTerrainSpaceModel.keyToVertex (searchingKey key r d) true) > 0)

/-- The rings `1, ..., n`. -/
def ringsUpTo (n : Nat) : List Int := (List.range n).map (fun (i : Nat) => (i : Int) + 1)

/-- Whether `r` is the smallest ring with a terrain cell along `d` from `key`:
a cell at ring `r` and none at the rings `1, ..., r - 1`. -/
def isNearestRing (t : TerrainMap) (key : Key) (d : Int × Int) (r : Int) : Bool :=
  hasCell t key d r && !(ringsUpTo (r - 1).toNat).any (hasCell t key d)

/-- What direction `d` contributes at ring `r` for the vertex `v`: the state vertex
of the cell at `key(v) + r * d` with the yaw of the yaw key of `v` when `r` is the
nearest ring with a cell, and nothing otherwise. -/
def contribution (t : TerrainMap) (v : Vertex) (r : Int) (d : Int × Int) : List Vertex :=
  if isNearestRing t (terrainKeyOf t.getTerrainSpaceModel v) d r then
    [neighborStateVertex t.getTerrainSpaceModel (yawKeyOf t.getTerrainSpaceModel v)
      (searchingKey (terrainKeyOf t.getTerrainSpaceModel v) r d)]
  else []

/-- Everything direction `d` contributes over the rings of the horizon. -/
def directionNeighbors (g : GridBasedBodyAdjacency) (v : Vertex) (d : Int × Int) :
    List Vertex :=
  (rings g.neighboring_definition_).flatMap (fun r => contribution g.terrain_ v r d)

/-- What the blocks of one ring push, given the flags on entry to the ring. -/
def ringEmits (t : TerrainMap) (key : Key) (key_yaw : Int) (r : Int) (found : Nat → Bool) :
    Nat → List (Int × Int) → List Vertex
  | _, [] => []
  | i, d :: ds =>
    (if hasCell t key d r && !found i then
        [neighborStateVertex t.getTerrainSpaceModel key_yaw (searchingKey key r d)]
      else []) ++ ringEmits t key key_yaw r found (i + 1) ds

/-! ## A concrete space model and the terrains of the scenarios -/

/-- Index to natural number: `0, -1, 1, -2, 2, ...` go to `0, 1, 2, 3, 4, ...`. -/
def encodeIndex (k : Int) : Nat := if 0 ≤ k then (2 * k).toNat else (-(2 * k) - 1).toNat

/-- Inverse of `encodeIndex`. -/
def decodeIndex (n : Nat) : Int := if n % 2 = 0 then ((n / 2 : Nat) : Int) else -(((n + 1) / 2 : Nat) : Int)

/-- A space model with unit resolution on every axis: a state is cut down to the
integer part of each coordinate, an environment vertex pairs the two plane
indices and a state vertex pairs the environment vertex with the yaw index. -/
def unitSpaceModel : SpaceModel where
  vertexToState v :=
    ⟨(decodeIndex (Nat.unpair (Nat.unpair v).1).1 : ℚ),
     (decodeIndex (Nat.unpair (Nat.unpair v).1).2 : ℚ),
     (decodeIndex (Nat.unpair v).2 : ℚ)⟩
  vertexToState2d v :=
    ⟨(decodeIndex (Nat.unpair v).1 : ℚ), (decodeIndex (Nat.unpair v).2 : ℚ)⟩
  stateToVertex s :=
    Nat.pair (Nat.pair (encodeIndex ⌊s.c0⌋) (encodeIndex ⌊s.c1⌋)) (encodeIndex ⌊s.c2⌋)
  stateToKey q _ := ⌊q⌋
  keyToState k _ := (k : ℚ)
  vertexToKey v _ := ⟨decodeIndex (Nat.unpair v).1, decodeIndex (Nat.unpair v).2⟩
  keyToVertex k _ := Nat.pair (encodeIndex k.x) (encodeIndex k.y)
  vertexToCoord v :=
    ⟨(decodeIndex (Nat.unpair v).1 : ℚ), (decodeIndex (Nat.unpair v).2 : ℚ)⟩
  coordToVertex c := Nat.pair (encodeIndex ⌊c.c0⌋) (encodeIndex ⌊c.c1⌋)
  stateVertexToEnvironmentVertex v _ := (Nat.unpair v).1

/-- Environment vertex of the plane key `(x, y)` in `unitSpaceModel`. -/
def cellVertex (x y : Int) : Vertex := Nat.pair (encodeIndex x) (encodeIndex y)

/-- State vertex of the key `(x, y, yaw)` in `unitSpaceModel`. -/
def poseVertex (x y yaw : Int) : Vertex := Nat.pair (cellVertex x y) (encodeIndex yaw)

/-- A terrain over `unitSpaceModel` with the given cells, terrain information
present, no obstacle information and the given average cost. -/
def unitTerrain (cells : TerrainDataMap) (average : ℚ) : TerrainMap where
  isTerrainInformation := true
  isObstacleInformation := false
  getTerrainDataMap := cells
  getObstacleMap := []
  getAverageCostOfTerrain := average
  getTerrainHeightMap := []
  getResolution _ := 1
  getObstacleResolution := 1
  getTerrainSpaceModel := unitSpaceModel
  getObstacleSpaceModel := unitSpaceModel

/-- A library whose `cos` is constantly 1 and `sin` constantly 0 (yaw 0). -/
def yawZeroLibm : Libm := ⟨fun _ => 1, fun _ => 0⟩

/-- A robot with the given stance areas for every action, a unit body workspace
and no motor primitive. -/
def plainRobot (areas : List SearchArea) : Robot where
  getFootstepSearchAreas _ := areas
  getPredefinedBodyWorkspace := ⟨0, 0, 0, 0, 1⟩
  generateActions actions _ := actions

/-- The plus-shaped terrain: cells at the keys `(0,0)`, `(1,0)`, `(-1,0)`, `(0,1)`,
`(0,-1)`, each of cost 1, listed by increasing vertex. -/
def plusTerrain : TerrainMap :=
  unitTerrain
    [(cellVertex 0 0, ⟨1, 0⟩), (cellVertex 0 (-1), ⟨1, 0⟩), (cellVertex (-1) 0, ⟨1, 0⟩),
     (cellVertex 0 1, ⟨1, 0⟩), (cellVertex 1 0, ⟨1, 0⟩)] 1

/-- Grid adjacency on the plus-shaped terrain: stance adjacency disabled, horizon 1. -/
def plusGrid : GridBasedBodyAdjacency :=
  { GridBasedBodyAdjacency.reset (plainRobot []) plusTerrain [] yawZeroLibm with
    is_stance_adjacency_ := false, neighboring_definition_ := 1 }

/-- The laws of the space discretisation that relate keys, states and vertices:
keys and plane vertices are mutual inverses, keys and state values are mutual
inverses, a state vertex projects to the plane vertex of its plane keys, and
decoding an encoded state yields the representative of each of its keys. -/
structure SpaceModel.RoundTrip (sm : SpaceModel) : Prop where
  key_vertex : ∀ k : Key, sm.vertexToKey (sm.keyToVertex k true) true = k
  key_state : ∀ (k : Int) (b : Bool), sm.stateToKey (sm.keyToState k b) b = k
  project : ∀ s : Vector3d,
    sm.stateVertexToEnvironmentVertex (sm.stateToVertex s) TypeOfState.XY_Y =
      sm.keyToVertex ⟨sm.stateToKey s.c0 true, sm.stateToKey s.c1 true⟩ true
  state_vertex : ∀ s : Vector3d,
    sm.vertexToState (sm.stateToVertex s) =
      ⟨sm.keyToState (sm.stateToKey s.c0 true) true,
       sm.keyToState (sm.stateToKey s.c1 true) true,
       sm.keyToState (sm.stateToKey s.c2 false) false⟩

/-- The opposite compass direction. -/
def oppositeDirection (d : Int × Int) : Int × Int := (-d.1, -d.2)

/-- A stance area reduced to the single sample at the body position. -/
def pointArea : SearchArea := ⟨0, 0, 0, 0, 1⟩

/-- A grid adjacency right after `reset` on the plus-shaped terrain, for a robot
with one stance area: default configuration, nothing cached. -/
def freshGrid : GridBasedBodyAdjacency :=
  GridBasedBodyAdjacency.reset (plainRobot [pointArea]) plusTerrain [] yawZeroLibm

/-- The stance cost that the spec assigns to the edge into `n`: `computeBodyCost` at
`n` over the footstep search areas of the robot for the zero action. -/
def stanceCostForZeroAction (g : GridBasedBodyAdjacency) (fuel : Nat) (n : Vertex) :
    Option ℚ :=
  GridBasedBodyAdjacency.computeBodyCost
    { g with stance_areas_ := g.robot_.getFootstepSearchAreas Vector3d.zero } fuel n

/-! ## Vocabulary of the sampling loops -/

/-- Number of iterations of `for (v = lo; v <= hi; v += step)` for a positive step. -/
def sampleCount (lo hi step : ℚ) : Nat :=
  if lo ≤ hi then ⌊(hi - lo) / step⌋.toNat + 1 else 0

/-- The first `n` values of the loop variable: `v`, `v + step`, `v + 2 * step`, ... -/
def loopValues : Nat → ℚ → ℚ → List ℚ
  | 0, _, _ => []
  | n + 1, v, step => v :: loopValues n (v + step) step

/-- Effect of one sample on the queue: the entry `(cost, vertex)` of the cell under
the rotated sample is inserted when the cell is a key of the terrain map. -/
def insertSample (t : TerrainMap) (m : Libm) (state : Vector3d) (y x : ℚ)
    (q : List (Weight × Vertex)) : List (Weight × Vertex) :=
  match t.find (t.getTerrainSpaceModel.coordToVertex (rotatedPoint m state x y)) with
  | some d => setInsert q (d.cost, t.getTerrainSpaceModel.coordToVertex (rotatedPoint m state x y))
  | none => q

/-- The queue collected over one stance area: the samples are taken row by row,
`y` in the outer loop and `x` in the inner loop, each from the minimum corner. -/
def collectedQueue (t : TerrainMap) (m : Libm) (state : Vector3d) (area : SearchArea) :
    List (Weight × Vertex) :=
  (loopValues (sampleCount (area.min_y + state.c1) (area.max_y + state.c1) area.resolution)
      (area.min_y + state.c1) area.resolution).foldl
    (fun q y =>
      (loopValues (sampleCount (area.min_x + state.c0) (area.max_x + state.c0) area.resolution)
          (area.min_x + state.c0) area.resolution).foldl
        (fun q1 x => insertSample t m state y x q1) q)
    []

/-- A fuel that lets both sampling loops over the area run to their end. -/
def areaFuel (area : SearchArea) : Nat :=
  max (sampleCount area.min_x area.max_x area.resolution)
    (sampleCount area.min_y area.max_y area.resolution) + 1

/-- A fuel that suffices for every area of the list. -/
def areasFuel : List SearchArea → Nat
  | [] => 0
  | a :: rest => max (areaFuel a) (areasFuel rest)

/-- The row terrain: cells at the keys `(0,0)`, ..., `(7,0)` with the costs
`1`, ..., `8`. -/
def rowTerrain : TerrainMap :=
  unitTerrain
    [(cellVertex 0 0, ⟨1, 0⟩), (cellVertex 1 0, ⟨2, 0⟩), (cellVertex 2 0, ⟨3, 0⟩),
     (cellVertex 3 0, ⟨4, 0⟩), (cellVertex 4 0, ⟨5, 0⟩), (cellVertex 5 0, ⟨6, 0⟩),
     (cellVertex 6 0, ⟨7, 0⟩), (cellVertex 7 0, ⟨8, 0⟩)] 2

/-- A stance area whose samples are the eight points `(0,0)`, ..., `(7,0)` of the
body frame. -/
def rowArea : SearchArea := ⟨0, 7, 0, 0, 1⟩

/-- Grid adjacency on the row terrain with the row area cached and
`number_top_cost = 5`. -/
def rowGrid : GridBasedBodyAdjacency :=
  { GridBasedBodyAdjacency.reset (plainRobot [rowArea]) rowTerrain [] yawZeroLibm with
    stance_areas_ := [rowArea] }

/-- Lattice adjacency on the row terrain with `number_top_cost = 5`. -/
def rowLattice : LatticeBasedBodyAdjacency :=
  { robot_ := plainRobot [rowArea], terrain_ := rowTerrain, features_ := [],
    current_action_ := Vector3d.zero, is_stance_adjacency_ := true, stance_areas_ := [],
    number_top_cost_ := 5, uncertainty_factor_ := 115 / 100, libm := yawZeroLibm }

/-- No rotated sample of the area falls on a cell of the terrain data map. -/
def noSampleOnCell (t : TerrainMap) (m : Libm) (state : Vector3d) (area : SearchArea) : Prop :=
  ∀ y ∈ loopValues
      (sampleCount (area.min_y + state.c1) (area.max_y + state.c1) area.resolution)
      (area.min_y + state.c1) area.resolution,
    ∀ x ∈ loopValues
        (sampleCount (area.min_x + state.c0) (area.max_x + state.c0) area.resolution)
        (area.min_x + state.c0) area.resolution,
      t.count (t.getTerrainSpaceModel.coordToVertex (rotatedPoint m state x y)) = 0

/-- A terrain with terrain information present, an empty terrain data map and the
average cost 2. -/
def emptyTerrain : TerrainMap := unitTerrain [] 2

/-- A stance area covering a square of side 0.2 around the body position, sampled
with the step 0.1. -/
def squareArea : SearchArea := ⟨-1 / 10, 1 / 10, -1 / 10, 1 / 10, 1 / 10⟩

/-- Grid adjacency on the empty terrain with the square area cached. -/
def emptyGrid : GridBasedBodyAdjacency :=
  { GridBasedBodyAdjacency.reset (plainRobot [squareArea]) emptyTerrain [] yawZeroLibm with
    stance_areas_ := [squareArea] }

/-- Lattice adjacency on the empty terrain for a robot with the square area. -/
def emptyLattice : LatticeBasedBodyAdjacency :=
  { robot_ := plainRobot [squareArea], terrain_ := emptyTerrain, features_ := [],
    current_action_ := Vector3d.zero, is_stance_adjacency_ := true, stance_areas_ := [],
    number_top_cost_ := 10, uncertainty_factor_ := 115 / 100, libm := yawZeroLibm }

/-- A terrain with two cells: the key `(0,0)` of cost 1 and the key `(1,0)` of
cost 2. -/
def twoCellTerrain : TerrainMap :=
  unitTerrain [(cellVertex 0 0, ⟨1, 0⟩), (cellVertex 1 0, ⟨2, 0⟩)] (3 / 2)

/-- Grid adjacency on the two-cell terrain: stance adjacency disabled, horizon 1. -/
def twoCellGrid : GridBasedBodyAdjacency :=
  { GridBasedBodyAdjacency.reset (plainRobot []) twoCellTerrain [] yawZeroLibm with
    is_stance_adjacency_ := false, neighboring_definition_ := 1 }

/-- The terrain of the snapping scenario: a single cell at the key `(2,2)`. -/
def farCellTerrain : TerrainMap := unitTerrain [(cellVertex 2 2, ⟨1, 0⟩)] 1

/-- Grid adjacency on the terrain of the snapping scenario, stance adjacency
disabled. -/
def farCellGrid : GridBasedBodyAdjacency :=
  { GridBasedBodyAdjacency.reset (plainRobot []) farCellTerrain [] yawZeroLibm with
    is_stance_adjacency_ := false }

/-- The cost that `computeAdjacencyMap` puts on the edges into the state vertex of a
terrain entry: the stored terrain cost when stance adjacency is disabled, the body
cost at the state vertex otherwise. -/
def cellCost (g : GridBasedBodyAdjacency) (fuel : Nat) (e : Vertex × TerrainData)
    (state_vertex : Vertex) : Option ℚ :=
  if !g.isStanceAdjacency then some e.2.cost else g.computeBodyCost fuel state_vertex

/-- The sampling loops of `computeBodyCost` end within the fuel: stance adjacency
is disabled (no sampling), or all stance areas have a positive resolution and the
fuel covers each of them. -/
def samplingEnds (stance : Bool) (areas : List SearchArea) (fuel : Nat) : Prop :=
  stance = false ∨ ((∀ a ∈ areas, 0 < a.resolution) ∧ areasFuel areas ≤ fuel)

/-- The planar position that `getTheClosestStartAndGoalVertex` decodes for a
vertex: the first two components of `vertexToState`. -/
def decodedPosition (sm : SpaceModel) (v : Vertex) : Vector2d := (sm.vertexToState v).head2

/-- A terrain over `unitSpaceModel` that reports no terrain information, although
its data map holds a cell. -/
def noInfoTerrain : TerrainMap :=
  { unitTerrain [(cellVertex 0 0, ⟨1, 0⟩), (cellVertex 1 0, ⟨1, 0⟩)] 1 with
    isTerrainInformation := false }

/-- Grid adjacency on the terrain without terrain information. -/
def noInfoGrid : GridBasedBodyAdjacency :=
  GridBasedBodyAdjacency.reset (plainRobot [pointArea]) noInfoTerrain [] yawZeroLibm

/-- A robot whose motor primitive proposes one step along `+x` of cost 1 from every
pose. -/
def stepRobot (areas : List SearchArea) : Robot where
  getFootstepSearchAreas _ := areas
  getPredefinedBodyWorkspace := ⟨0, 0, 0, 0, 1⟩
  generateActions actions state :=
    actions ++ [⟨⟨⟨state.position.c0 + 1, state.position.c1⟩, state.orientation⟩, 1⟩]

/-- Lattice adjacency on the terrain without terrain information. -/
def noInfoLattice : LatticeBasedBodyAdjacency :=
  { robot_ := stepRobot [pointArea], terrain_ := noInfoTerrain, features_ := [],
    current_action_ := Vector3d.zero, is_stance_adjacency_ := true, stance_areas_ := [],
    number_top_cost_ := 10, uncertainty_factor_ := 115 / 100, libm := yawZeroLibm }

/-- A library whose `cos` is constantly 0 and `sin` constantly 1 (yaw of a quarter
turn). -/
def quarterTurnLibm : Libm := ⟨fun _ => 0, fun _ => 1⟩

/-- Grid adjacency on the row terrain (costs `1, ..., 8`) with the row area cached
and the given value of `number_top_cost_`. -/
def rowGridWith (number_top_cost : Int) : GridBasedBodyAdjacency :=
  { rowGrid with number_top_cost_ := number_top_cost }

/-! ## Vocabulary of the lattice statements -/

/-- The target state `(position, orientation)` of an action, as `getSuccessors`
builds it. -/
def actionState (a : Action3d) : Vector3d :=
  ⟨a.pose.position.c0, a.pose.position.c1, a.pose.orientation⟩

/-- The actions that the lattice `getSuccessors` obtains from the motor primitive
for a state vertex. -/
def LatticeBasedBodyAdjacency.generatedActions (l : LatticeBasedBodyAdjacency)
    (state_vertex : Vertex) : List Action3d :=
  l.robot_.generateActions []
    { position := (l.terrain_.getTerrainSpaceModel.vertexToState state_vertex).head2,
      orientation := (l.terrain_.getTerrainSpaceModel.vertexToState state_vertex).c2 }

/-- The state vertex of the target state of an action. -/
def LatticeBasedBodyAdjacency.actionVertex (l : LatticeBasedBodyAdjacency) (a : Action3d) :
    Vertex :=
  l.terrain_.getTerrainSpaceModel.stateToVertex (actionState a)

/-- The sampling step of the body scan: the larger of the resolution of the body
workspace and the resolution of the obstacle map. -/
def LatticeBasedBodyAdjacency.obstacleStep (l : LatticeBasedBodyAdjacency) : ℚ :=
  if l.robot_.getPredefinedBodyWorkspace.resolution > l.terrain_.getObstacleResolution then
    l.robot_.getPredefinedBodyWorkspace.resolution
  else l.terrain_.getObstacleResolution

/-- The body workspace with the sampling step of the body scan as resolution. -/
def LatticeBasedBodyAdjacency.scannedWorkspace (l : LatticeBasedBodyAdjacency) : SearchArea :=
  { l.robot_.getPredefinedBodyWorkspace with resolution := l.obstacleStep }

/-- Whether some sample of the body workspace, placed at the pose decoded from the
state vertex and rotated by its yaw about its position, maps to a vertex marked
true in the obstacle map. The samples start at the minimum corner and advance by
the sampling step of the body scan. -/
def LatticeBasedBodyAdjacency.footprintHit (l : LatticeBasedBodyAdjacency)
    (state_vertex : Vertex) : Bool :=
  let current := l.terrain_.getObstacleSpaceModel.vertexToState state_vertex
  let ws := l.robot_.getPredefinedBodyWorkspace
  (loopValues (sampleCount (ws.min_y + current.c1) (ws.max_y + current.c1) l.obstacleStep)
      (ws.min_y + current.c1) l.obstacleStep).any
    (fun y =>
      (loopValues (sampleCount (ws.min_x + current.c0) (ws.max_x + current.c0) l.obstacleStep)
          (ws.min_x + current.c0) l.obstacleStep).any
        (fun x => l.terrain_.isBlocked
          (l.terrain_.getObstacleSpaceModel.coordToVertex (rotatedPoint l.libm current x y))))

/-- Whether the body footprint of an action is free of obstacles: no obstacle
information, or no sample of the footprint on a blocked vertex. -/
def LatticeBasedBodyAdjacency.accepted (l : LatticeBasedBodyAdjacency) (a : Action3d) : Bool :=
  !(l.terrain_.isObstacleInformation && l.footprintHit (l.actionVertex a))

/-- The body scan of `isFreeOfObstacle` ends within the fuel: there is no obstacle
information (no scan), or the sampling step is positive and the fuel covers the
body workspace. -/
def LatticeBasedBodyAdjacency.obstacleScanEnds (l : LatticeBasedBodyAdjacency) (fuel : Nat) :
    Prop :=
  l.terrain_.isObstacleInformation = false ∨
    (0 < l.obstacleStep ∧ areaFuel l.scannedWorkspace ≤ fuel)

/-- The stance cost of the spec for a target state and an action: `computeBodyCost`
over the footstep search areas of the robot for that action, the feature context
carrying the same action. -/
def LatticeBasedBodyAdjacency.stanceCostFor (l : LatticeBasedBodyAdjacency) (fuel : Nat)
    (state action : Vector3d) : Option ℚ :=
  (meanStanceCost l.terrain_ l.libm l.number_top_cost_ l.uncertainty_factor_ state
      (l.robot_.getFootstepSearchAreas action) fuel).map
    (fun terrain_cost =>
      addFeatureCosts l.features_
        { body_action := action,
          pose := { position := state.head2, orientation := state.c2 },
          height_map := l.terrain_.getTerrainHeightMap,
          resolution := l.terrain_.getResolution true }
        terrain_cost)

/-- The weight of the edge of an accepted action when stance adjacency is disabled:
the stored cost of the environment vertex of the target state when it is a key of
the terrain data map, the uncertainty cost otherwise. -/
def LatticeBasedBodyAdjacency.terrainWeight (l : LatticeBasedBodyAdjacency) (a : Action3d) : ℚ :=
  match l.terrain_.find
      (l.terrain_.getTerrainSpaceModel.stateVertexToEnvironmentVertex (l.actionVertex a)
        TypeOfState.XY_Y) with
  | some d => d.cost
  | none => l.uncertainty_factor_ * l.terrain_.getAverageCostOfTerrain

/-- The weight that the loop of `getSuccessors` computes for an action that passed
the obstacle check. -/
def LatticeBasedBodyAdjacency.actionWeight (l : LatticeBasedBodyAdjacency) (fuel : Nat)
    (current_state : Vector3d) (a : Action3d) : Option ℚ :=
  if !l.isStanceAdjacency then some (l.terrainWeight a)
  else (l.stanceCostFor fuel (actionState a) ((actionState a).sub current_state)).map
    (fun c => c + a.cost)

/-- The edges that the loop of `getSuccessors` appends for a list of actions, as a
function of the bound robot, terrain, features and configuration only. -/
def LatticeBasedBodyAdjacency.expectedEdges (l : LatticeBasedBodyAdjacency) (fuel : Nat)
    (current_state : Vector3d) : List Action3d → Option (List Edge)
  | [] => some []
  | a :: rest =>
    (l.isFreeOfObstacle fuel (l.actionVertex a) TypeOfState.XY_Y true).bind (fun free =>
      if free then
        (l.actionWeight fuel current_state a).bind (fun w =>
          (l.expectedEdges fuel current_state rest).map (fun es => (l.actionVertex a, w) :: es))
      else l.expectedEdges fuel current_state rest)

/-- The stance sampling of the lattice `getSuccessors` ends within the fuel for
every action of the list: stance adjacency is disabled, or the footstep search
areas of each action have a positive resolution and are covered by the fuel. -/
def LatticeBasedBodyAdjacency.stanceSamplingEnds (l : LatticeBasedBodyAdjacency) (fuel : Nat)
    (current_state : Vector3d) (actions : List Action3d) : Prop :=
  l.is_stance_adjacency_ = false ∨
    ∀ a ∈ actions,
      (∀ area ∈ l.robot_.getFootstepSearchAreas ((actionState a).sub current_state),
        0 < area.resolution) ∧
      areasFuel (l.robot_.getFootstepSearchAreas ((actionState a).sub current_state)) ≤ fuel

/-- The lane terrain: one terrain cell at the key `(5,0)` of cost 4, average cost 2,
obstacle information present with the key `(2,0)` blocked. -/
def laneTerrain : TerrainMap :=
  { unitTerrain [(cellVertex 5 0, ⟨4, 0⟩)] 2 with
    isObstacleInformation := true, getObstacleMap := [(cellVertex 2 0, true)] }

/-- A robot with the body workspace `[-1,1] x [-1,1]` sampled with step 1, the point
stance area for every action, and three motor primitives that place the body 2, 5
and 8 cells ahead along `x`, of costs 1, 3 and 2. -/
def laneRobot : Robot where
  getFootstepSearchAreas _ := [pointArea]
  getPredefinedBodyWorkspace := ⟨-1, 1, -1, 1, 1⟩
  generateActions actions state :=
    actions ++
      [⟨⟨⟨state.position.c0 + 2, state.position.c1⟩, state.orientation⟩, 1⟩,
       ⟨⟨⟨state.position.c0 + 5, state.position.c1⟩, state.orientation⟩, 3⟩,
       ⟨⟨⟨state.position.c0 + 8, state.position.c1⟩, state.orientation⟩, 2⟩]

/-- Lattice adjacency on the lane terrain, with stance adjacency as given. -/
def laneLattice (stance : Bool) : LatticeBasedBodyAdjacency :=
  { robot_ := laneRobot, terrain_ := laneTerrain, features_ := [],
    current_action_ := Vector3d.zero, is_stance_adjacency_ := stance, stance_areas_ := [],
    number_top_cost_ := 10, uncertainty_factor_ := 115 / 100, libm := yawZeroLibm }

/-- The action of the lane robot that places the body `dx` cells ahead of the origin,
with the given cost. -/
def laneAction (dx : ℚ) (cost : ℚ) : Action3d := ⟨⟨⟨dx, 0⟩, 0⟩, cost⟩

/-! ## Vocabulary of the non-negativity statement -/

/-- The assumptions on the inputs of an adjacency model: every cost stored in the
terrain data map and the average cost of the terrain are non-negative, every
feature has a non-negative weight and yields a non-negative cost, and the
uncertainty factor is at least 1. -/
def nonNegativeInputs (t : TerrainMap) (features : List Feature) (uncertainty_factor : ℚ) :
    Prop :=
  (∀ e ∈ t.getTerrainDataMap, 0 ≤ e.2.cost) ∧ 0 ≤ t.getAverageCostOfTerrain ∧
    (∀ f ∈ features, 0 ≤ f.getWeight ∧ ∀ info, 0 ≤ f.computeCost info) ∧
    1 ≤ uncertainty_factor

/-- Lattice adjacency with stance adjacency enabled on the plus-shaped terrain, for
a robot that has one motor primitive and no footstep search area. -/
def bareLattice : LatticeBasedBodyAdjacency :=
  { robot_ := stepRobot [], terrain_ := plusTerrain, features_ := [],
    current_action_ := Vector3d.zero, is_stance_adjacency_ := true, stance_areas_ := [],
    number_top_cost_ := 5, uncertainty_factor_ := 115 / 100, libm := yawZeroLibm }

/-! ## Vocabulary of the obstacle scan -/

/-- The pose at which `isFreeOfObstacle` places the body: decoded from the state
vertex by the obstacle space model, with yaw 0 for the representation `XY`. -/
def LatticeBasedBodyAdjacency.scanPose (l : LatticeBasedBodyAdjacency)
    (state_vertex : Vertex) (state_representation : TypeOfState) : Vector3d :=
  if state_representation = TypeOfState.XY then
    ⟨(l.terrain_.getObstacleSpaceModel.vertexToState2d state_vertex).c0,
     (l.terrain_.getObstacleSpaceModel.vertexToState2d state_vertex).c1, 0⟩
  else l.terrain_.getObstacleSpaceModel.vertexToState state_vertex

/-- Whether some sample of the body workspace placed at the pose `current` maps to a
vertex marked true in the obstacle map; the samples are those of `footprintHit`. -/
def LatticeBasedBodyAdjacency.footprintHitAt (l : LatticeBasedBodyAdjacency)
    (current : Vector3d) : Bool :=
  let ws := l.robot_.getPredefinedBodyWorkspace
  (loopValues (sampleCount (ws.min_y + current.c1) (ws.max_y + current.c1) l.obstacleStep)
      (ws.min_y + current.c1) l.obstacleStep).any
    (fun y =>
      (loopValues (sampleCount (ws.min_x + current.c0) (ws.max_x + current.c0) l.obstacleStep)
          (ws.min_x + current.c0) l.obstacleStep).any
        (fun x => l.terrain_.isBlocked
          (l.terrain_.getObstacleSpaceModel.coordToVertex (rotatedPoint l.libm current x y))))

/-! ## Vocabulary of the sample counts -/

/-- The two nested sampling loops of `computeBodyCost` over one stance area, with a
counter of the executions of the loop body next to the queue. -/
def stanceCostQueueCounted (t : TerrainMap) (m : Libm) (state : Vector3d) (area : SearchArea)
    (fuel : Nat) : Option (List (Weight × Vertex) × Nat) :=
  let boundary_min0 := area.min_x + state.c0
  let boundary_min1 := area.min_y + state.c1
  let boundary_max0 := area.max_x + state.c0
  let boundary_max1 := area.max_y + state.c1
  let resolution := area.resolution
  forLoop
    (fun y s => forLoop
      (fun x (s1 : List (Weight × Vertex) × Nat) =>
        (sampleCell t m state y x s1.1).map (fun q => (q, s1.2 + 1)))
      boundary_max0 resolution fuel boundary_min0 s)
    boundary_max1 resolution fuel boundary_min1 ([], 0)

/-- The inner loop of the body scan of `isFreeOfObstacle` with a counter of the
samples visited; the jump to `found_obstacle` follows the visit of the blocked
sample. -/
def scanRowCounted (t : TerrainMap) (m : Libm) (current : Vector3d) (hi step y : ℚ) :
    Nat → ℚ → Nat → Option (Bool × Nat)
  | 0, _, _ => none
  | fuel + 1, x, n =>
    if x ≤ hi then
      let point_position := rotatedPoint m current x y
      let current_2d_vertex := t.getObstacleSpaceModel.coordToVertex point_position
      if t.isBlocked current_2d_vertex then some (true, n + 1)
      else scanRowCounted t m current hi step y fuel (x + step) (n + 1)
    else some (false, n)

/-- The outer loop of the body scan with the counter of the samples visited. -/
def scanRowsCounted (t : TerrainMap) (m : Libm) (current : Vector3d) (lo0 hi0 hi1 step : ℚ)
    (fuel0 : Nat) : Nat → ℚ → Nat → Option (Bool × Nat)
  | 0, _, _ => none
  | fuel + 1, y, n =>
    if y ≤ hi1 then
      (scanRowCounted t m current hi0 step y fuel0 lo0 n).bind (fun r =>
        if r.1 then some (true, r.2)
        else scanRowsCounted t m current lo0 hi0 hi1 step fuel0 fuel (y + step) r.2)
    else some (false, n)

/-- The body scan of `isFreeOfObstacle` (obstacle information present, `body = true`)
with the counter of the samples visited: whether an obstacle was found, and the
number of samples visited. -/
def LatticeBasedBodyAdjacency.bodyScanCounted (l : LatticeBasedBodyAdjacency) (fuel : Nat)
    (state_vertex : Vertex) (state_representation : TypeOfState) : Option (Bool × Nat) :=
  let current := l.scanPose state_vertex state_representation
  let body_workspace := l.robot_.getPredefinedBodyWorkspace
  scanRowsCounted l.terrain_ l.libm current (body_workspace.min_x + current.c0)
    (body_workspace.max_x + current.c0) (body_workspace.max_y + current.c1) l.obstacleStep
    fuel fuel (body_workspace.min_y + current.c1) 0

/-- The number of samples that the claim states for a rectangle and a step:
`(floor((max_y - min_y) / step) + 1) * (floor((max_x - min_x) / step) + 1)` when
`min ≤ max` on both axes, none when `min > max` on either axis. -/
def expectedSamples (area : SearchArea) : Nat :=
  if area.min_y ≤ area.max_y ∧ area.min_x ≤ area.max_x then
    (⌊(area.max_y - area.min_y) / area.resolution⌋.toNat + 1) *
      (⌊(area.max_x - area.min_x) / area.resolution⌋.toNat + 1)
  else 0

/-- The samples of a rectangle in the order of the loops: row by row from the
minimum corner, `y` in the outer loop and `x` in the inner loop. -/
def gridSamples (lo0 hi0 lo1 hi1 step : ℚ) : List (ℚ × ℚ) :=
  (loopValues (sampleCount lo1 hi1 step) lo1 step).flatMap (fun y =>
    (loopValues (sampleCount lo0 hi0 step) lo0 step).map (fun x => (x, y)))

/-- The samples of the body scan at a pose, in the order of the loops. -/
def LatticeBasedBodyAdjacency.scanSamples (l : LatticeBasedBodyAdjacency)
    (current : Vector3d) : List (ℚ × ℚ) :=
  gridSamples (l.robot_.getPredefinedBodyWorkspace.min_x + current.c0)
    (l.robot_.getPredefinedBodyWorkspace.max_x + current.c0)
    (l.robot_.getPredefinedBodyWorkspace.min_y + current.c1)
    (l.robot_.getPredefinedBodyWorkspace.max_y + current.c1) l.obstacleStep

/-- Whether the sample `p` of the body scan at the pose `current` is blocked. -/
def LatticeBasedBodyAdjacency.sampleBlocked (l : LatticeBasedBodyAdjacency)
    (current : Vector3d) (p : ℚ × ℚ) : Bool :=
  l.terrain_.isBlocked
    (l.terrain_.getObstacleSpaceModel.coordToVertex (rotatedPoint l.libm current p.1 p.2))

/-- The number of elements visited by a scan of the list that stops right after the
first blocked element: all of them when none is blocked. -/
def visitedUntilBlocked {α : Type} (blocked : α → Bool) : List α → Nat
  | [] => 0
  | p :: rest => if blocked p then 1 else visitedUntilBlocked blocked rest + 1

/-! ## Vocabulary of the cost composition -/

/-- The contribution of one stance area to the stance cost: the averaging step of
`computeBodyCost` on the queue collected over the area. -/
def areaContribution (t : TerrainMap) (m : Libm) (number_top_cost_ : Int)
    (uncertainty_factor : ℚ) (state : Vector3d) (area : SearchArea) : ℚ :=
  averageLowest number_top_cost_ uncertainty_factor t.getAverageCostOfTerrain
    (collectedQueue t m state area)

/-- The cost that the claim states: the arithmetic mean of the per-area
contributions plus the sum over the features of `weight(f) * f.compute_cost(context)`. -/
def meanPlusFeatures (contributions : List ℚ) (features : List Feature)
    (context : RobotAndTerrain) : ℚ :=
  contributions.sum / (contributions.length : ℚ) +
    (features.map (fun f => f.getWeight * f.computeCost context)).sum

/-- Grid adjacency on the row terrain with two cached stance areas and one feature of
weight 1/2 and constant cost 2. -/
def featureGrid : GridBasedBodyAdjacency :=
  { rowGrid with features_ := [⟨fun _ => 2, 1 / 2⟩], stance_areas_ := [rowArea, pointArea] }

/-- Lattice adjacency on the row terrain for a robot with two stance areas, with one
feature of weight 1/2 and constant cost 2. -/
def featureLattice : LatticeBasedBodyAdjacency :=
  { rowLattice with
    features_ := [⟨fun _ => 2, 1 / 2⟩], robot_ := plainRobot [rowArea, pointArea] }

/-- The weight that the loop of `getSuccessors` puts on the edge to the neighbour
`n`: the terrain cost of its environment vertex when stance adjacency is disabled,
the body cost at `n` otherwise. -/
def successorWeight (g : GridBasedBodyAdjacency) (fuel : Nat) (n : Vertex) : Option ℚ :=
  if !g.isStanceAdjacency then
    g.terrain_.getTerrainCost
      (g.terrain_.getTerrainSpaceModel.stateVertexToEnvironmentVertex n TypeOfState.XY_Y)
  else g.computeBodyCost fuel n

/-- The map after the two snapping statements of `computeAdjacencyMap`: the edge
`source → closest_source` when the two differ, then the edge
`closest_target → target` when the two differ, each of weight 0. -/
def snappingMap (closest : Vertex × Vertex) (adjacency_map : AdjacencyMap)
    (source target : Vertex) : AdjacencyMap :=
  let map1 :=
    if closest.1 ≠ source then adjacencyPushBack adjacency_map source (closest.1, 0)
    else adjacency_map
  if closest.2 ≠ target then adjacencyPushBack map1 closest.2 (target, 0) else map1

/-- The zero-weight snapping edges that `computeAdjacencyMap` stores under the
vertex `v`, in the order of their insertion. -/
def snappingEdges (closest : Vertex × Vertex) (source target v : Vertex) : List Edge :=
  (if closest.1 ≠ source ∧ source = v then [(closest.1, 0)] else []) ++
    (if closest.2 ≠ target ∧ closest.2 = v then [(target, 0)] else [])

/-! ## The body cost with the division kept on doubles

Everywhere else in this development a `double` is an exact rational. The one
statement of the sources whose result need not be a finite value for finite
operands is `terrain_cost /= stance_areas_.size()`: with no stance area it divides
by zero. The definitions of this section are the same methods with the result of
that division kept as a double, so that the value reaches the edge weights as the
sources compute it. -/

/-- A `double` as `computeBodyCost` leaves it: a finite value (exact), an infinity
with its sign, or NaN. -/
inductive Double where
  | finite (value : ℚ)
  | infinite (positive : Bool)
  | nan

/-- The pair `Edge(target, weight)` with the weight kept as a double. -/
abbrev DoubleEdge := Vertex × Double

/-- The statement `terrain_cost /= stance_areas_.size()` for a finite dividend: the
exact quotient when the size is not zero; with the size zero, NaN for the dividend
`0` and the infinity of the sign of the dividend otherwise. -/
def divideBySize (terrain_cost : ℚ) (size : Nat) : Double :=
  if size = 0 then
    if terrain_cost = 0 then Double.nan else Double.infinite (decide (0 < terrain_cost))
  else Double.finite (terrain_cost / (size : ℚ))

/-- The statement `a += b` for a finite `b` (`cost += weight * feature_cost` and
`body_cost += actions[i].cost`): an infinity and NaN stay what they are. -/
def Double.add (a : Double) (b : ℚ) : Double :=
  match a with
  | Double.finite value => Double.finite (value + b)
  | Double.infinite positive => Double.infinite positive
  | Double.nan => Double.nan

/-- The loop over the stance areas followed by the statement
`terrain_cost /= stance_areas_.size()`, the quotient kept as a double. -/
def meanStanceCostDouble (t : TerrainMap) (m : Libm) (number_top_cost_ : Int)
    (uncertainty_factor : ℚ) (state : Vector3d) (stance_areas : List SearchArea)
    (fuel : Nat) : Option Double :=
  (sumStanceCosts t m number_top_cost_ uncertainty_factor state fuel stance_areas 0).map
    (fun terrain_cost => divideBySize terrain_cost stance_areas.length)

/-- The loop over the features, `cost += weight * feature_cost`, on a double. -/
def addFeatureCostsDouble (features : List Feature) (info : RobotAndTerrain)
    (cost : Double) : Double :=
  features.foldl (fun c f => c.add (f.getWeight * f.computeCost info)) cost

/-- The method `GridBasedBodyAdjacency::computeBodyCost(cost, state_vertex)` with
the value written to `cost` kept as a double. -/
def GridBasedBodyAdjacency.computeBodyCostDouble (g : GridBasedBodyAdjacency) (fuel : Nat)
    (state_vertex : Vertex) : Option Double :=
  let state := g.terrain_.getTerrainSpaceModel.vertexToState state_vertex
  (meanStanceCostDouble g.terrain_ g.libm g.number_top_cost_ g.uncertainty_factor_ state
      g.stance_areas_ fuel).map
    (fun terrain_cost =>
      let info : RobotAndTerrain :=
        { body_action := ⟨1, 0, 0⟩,
          pose := { position := state.head2, orientation := state.c2 },
          height_map := g.terrain_.getTerrainHeightMap,
          resolution := g.terrain_.getResolution true }
      addFeatureCostsDouble g.features_ info terrain_cost)

/-- The loop of the grid `getSuccessors` over the neighbour vertices, the weights
kept as doubles. -/
def GridBasedBodyAdjacency.successorsLoopDouble (g : GridBasedBodyAdjacency) (fuel : Nat) :
    List Vertex → List DoubleEdge → Option (List DoubleEdge)
  | [], successors => some successors
  | n :: rest, successors =>
    let terrain_vertex :=
      g.terrain_.getTerrainSpaceModel.stateVertexToEnvironmentVertex n TypeOfState.XY_Y
    if !g.isStanceAdjacency then
      (g.terrain_.getTerrainCost terrain_vertex).bind
        (fun terrain_cost =>
          g.successorsLoopDouble fuel rest (successors ++ [(n, Double.finite terrain_cost)]))
    else
      (g.computeBodyCostDouble fuel n).bind
        (fun body_cost => g.successorsLoopDouble fuel rest (successors ++ [(n, body_cost)]))

/-- The method `LatticeBasedBodyAdjacency::computeBodyCost(cost, state)` with the
value written to `cost` kept as a double. -/
def LatticeBasedBodyAdjacency.computeBodyCostDouble (l : LatticeBasedBodyAdjacency)
    (fuel : Nat) (state : Vector3d) : Option (LatticeBasedBodyAdjacency × Double) :=
  let l1 := { l with stance_areas_ := l.robot_.getFootstepSearchAreas l.current_action_ }
  (meanStanceCostDouble l1.terrain_ l1.libm l1.number_top_cost_ l1.uncertainty_factor_ state
      l1.stance_areas_ fuel).map
    (fun terrain_cost =>
      let info : RobotAndTerrain :=
        { body_action := l1.current_action_,
          pose := { position := state.head2, orientation := state.c2 },
          height_map := l1.terrain_.getTerrainHeightMap,
          resolution := l1.terrain_.getResolution true }
      (l1, addFeatureCostsDouble l1.features_ info terrain_cost))

/-- The loop of the lattice `getSuccessors` over the generated actions, the weights
kept as doubles. -/
def LatticeBasedBodyAdjacency.successorsLoopDouble (fuel : Nat) (current_state : Vector3d) :
    List Action3d → LatticeBasedBodyAdjacency → List DoubleEdge →
      Option (LatticeBasedBodyAdjacency × List DoubleEdge)
  | [], l, successors => some (l, successors)
  | a :: rest, l, successors =>
    let sm := l.terrain_.getTerrainSpaceModel
    let action_state : Vector3d := ⟨a.pose.position.c0, a.pose.position.c1, a.pose.orientation⟩
    let current_action_vertex := sm.stateToVertex action_state
    let terrain_vertex :=
      sm.stateVertexToEnvironmentVertex current_action_vertex TypeOfState.XY_Y
    let l1 := { l with current_action_ := action_state.sub current_state }
    (l1.isFreeOfObstacle fuel current_action_vertex TypeOfState.XY_Y true).bind (fun free =>
      if free then
        if !l1.isStanceAdjacency then
          if l1.terrain_.count terrain_vertex = 0 then
            LatticeBasedBodyAdjacency.successorsLoopDouble fuel current_state rest l1
              (successors ++ [(current_action_vertex,
                Double.finite (l1.uncertainty_factor_ * l1.terrain_.getAverageCostOfTerrain))])
          else
            (l1.terrain_.getTerrainCost terrain_vertex).bind (fun terrain_cost =>
              LatticeBasedBodyAdjacency.successorsLoopDouble fuel current_state rest l1
                (successors ++ [(current_action_vertex, Double.finite terrain_cost)]))
        else
          (l1.computeBodyCostDouble fuel action_state).bind (fun r =>
            LatticeBasedBodyAdjacency.successorsLoopDouble fuel current_state rest r.1
              (successors ++ [(current_action_vertex, r.2.add a.cost)]))
      else LatticeBasedBodyAdjacency.successorsLoopDouble fuel current_state rest l1 successors)

theorem rings_eq (nd : Int) : rings nd = ringsUpTo nd.toNat := rfl

theorem ringsUpTo_succ (n : Nat) : ringsUpTo (n + 1) = ringsUpTo n ++ [(n : Int) + 1] := by
  simp [ringsUpTo, List.range_succ]

theorem mem_ringsUpTo {n : Nat} {r : Int} : r ∈ ringsUpTo n ↔ 1 ≤ r ∧ r ≤ n := by
  simp only [ringsUpTo, List.mem_map, List.mem_range]
  constructor
  · rintro ⟨i, hi, rfl⟩
    omega
  · rintro ⟨h1, h2⟩
    exact ⟨(r - 1).toNat, by omega, by omega⟩

theorem ringEmits_congr (t : TerrainMap) (key : Key) (ky r : Int) (f f2 : Nat → Bool) :
    ∀ (ds : List (Int × Int)) (i : Nat), (∀ j, i ≤ j → f j = f2 j) →
      ringEmits t key ky r f i ds = ringEmits t key ky r f2 i ds := by
  intro ds
  induction ds with
  | nil => intro i _; rfl
  | cons d ds ih =>
    intro i h
    simp only [ringEmits]
    rw [h i (Nat.le_refl i), ih (i + 1) (fun j hj => h j (by omega))]

theorem probeDirection_states (t : TerrainMap) (key : Key) (ky r : Int) (st : SearchState)
    (i : Nat) (d : Int × Int) :
    (probeDirection t key ky r st i d).neighbor_states =
      st.neighbor_states ++
        (if hasCell t key d r && !st.is_found_neighbor i then
          [neighborStateVertex t.getTerrainSpaceModel ky (searchingKey key r d)]
        else []) := by
  unfold probeDirection hasCell
  by_cases h : (decide (t.count (t.getTerrainSpaceModel.keyToVertex (searchingKey key r d) true) > 0)
      && !st.is_found_neighbor i) = true
  · simp only [h, if_true]
  · simp only [h, if_false, List.append_nil, Bool.false_eq_true]

theorem probeDirection_found (t : TerrainMap) (key : Key) (ky r : Int) (st : SearchState)
    (i : Nat) (d : Int × Int) (j : Nat) :
    (probeDirection t key ky r st i d).is_found_neighbor j =
      if j = i then (st.is_found_neighbor i || hasCell t key d r) else st.is_found_neighbor j := by
  unfold probeDirection hasCell
  by_cases h : (decide (t.count (t.getTerrainSpaceModel.keyToVertex (searchingKey key r d) true) > 0)
      && !st.is_found_neighbor i) = true
  · simp only [h, if_true]
    by_cases hj : j = i
    · subst hj
      simp only [Function.update_same, if_true]
      simp only [Bool.and_eq_true, Bool.not_eq_true'] at h
      simp [h.1]
    · simp only [Function.update_noteq hj, if_neg hj]
  · simp only [h, if_false, Bool.false_eq_true]
    by_cases hj : j = i
    · subst hj
      simp only [if_true]
      simp only [Bool.and_eq_true, Bool.not_eq_true', not_and, Bool.not_eq_false] at h
      cases hc : decide (t.count (t.getTerrainSpaceModel.keyToVertex (searchingKey key r d) true) > 0)
      · simp
      · simp [h hc]
    · simp only [if_neg hj]

theorem probeFrom_states (t : TerrainMap) (key : Key) (ky r : Int) :
    ∀ (ds : List (Int × Int)) (i : Nat) (st : SearchState),
      (probeFrom t key ky r i ds st).neighbor_states =
        st.neighbor_states ++ ringEmits t key ky r st.is_found_neighbor i ds := by
  intro ds
  induction ds with
  | nil => intro i st; simp [probeFrom, ringEmits]
  | cons d ds ih =>
    intro i st
    simp only [probeFrom, ringEmits]
    rw [ih, probeDirection_states, List.append_assoc]
    congr 2
    apply ringEmits_congr
    intro j hj
    rw [probeDirection_found, if_neg (by omega)]

theorem probeFrom_found (t : TerrainMap) (key : Key) (ky r : Int) :
    ∀ (ds : List (Int × Int)) (i : Nat) (st : SearchState) (j : Nat),
      (probeFrom t key ky r i ds st).is_found_neighbor j =
        if i ≤ j then
          match ds[j - i]? with
          | some d => (st.is_found_neighbor j || hasCell t key d r)
          | none => st.is_found_neighbor j
        else st.is_found_neighbor j := by
  intro ds
  induction ds with
  | nil => intro i st j; simp [probeFrom]
  | cons d ds ih =>
    intro i st j
    simp only [probeFrom]
    rw [ih, probeDirection_found]
    by_cases h1 : i + 1 ≤ j
    · have h2 : i ≤ j := by omega
      have h3 : j ≠ i := by omega
      have h4 : j - i = (j - (i + 1)) + 1 := by omega
      simp only [h1, h2, h3, if_true, if_false]
      rw [h4, List.getElem?_cons_succ]
    · by_cases h2 : j = i
      · subst h2
        simp
      · have h3 : ¬ i ≤ j := by omega
        simp [h1, h2, h3]

theorem ringEmits_eq_flatMap (t : TerrainMap) (key : Key) (ky r : Int) (found : Nat → Bool)
    (seen : Int × Int → Bool) :
    ∀ (ds : List (Int × Int)) (i : Nat),
      (∀ j d, ds[j]? = some d → found (i + j) = seen d) →
      ringEmits t key ky r found i ds =
        ds.flatMap (fun d =>
          if hasCell t key d r && !seen d then
            [neighborStateVertex t.getTerrainSpaceModel ky (searchingKey key r d)]
          else []) := by
  intro ds
  induction ds with
  | nil => intro i _; rfl
  | cons d ds ih =>
    intro i h
    simp only [ringEmits, List.flatMap_cons]
    have h0 : found i = seen d := by
      have := h 0 d (by simp)
      simpa using this
    rw [h0, ih (i + 1)]
    intro j e he
    have := h (j + 1) e (by simpa using he)
    rw [← this]
    congr 1
    omega

theorem searchRing_invariant (t : TerrainMap) (key : Key) (ky : Int) (acc : List Vertex) :
    ∀ n : Nat,
      ((ringsUpTo n).foldl (searchRing t key ky)
          { is_found_neighbor := fun _ => false, neighbor_states := acc }).neighbor_states =
        acc ++ (ringsUpTo n).flatMap (fun r => directions.flatMap (fun d =>
          if isNearestRing t key d r then
            [neighborStateVertex t.getTerrainSpaceModel ky (searchingKey key r d)]
          else []))
      ∧ ∀ j d, directions[j]? = some d →
        ((ringsUpTo n).foldl (searchRing t key ky)
          { is_found_neighbor := fun _ => false, neighbor_states := acc }).is_found_neighbor j =
        (ringsUpTo n).any (hasCell t key d) := by
  intro n
  induction n with
  | zero =>
    refine ⟨by simp [ringsUpTo], ?_⟩
    intro j d _
    simp [ringsUpTo]
  | succ n ih =>
    obtain ⟨ih1, ih2⟩ := ih
    rw [ringsUpTo_succ, List.foldl_append]
    simp only [List.foldl_cons, List.foldl_nil]
    constructor
    · rw [searchRing, probeFrom_states, ih1, List.flatMap_append, List.append_assoc]
      congr 1
      congr 1
      simp only [List.flatMap_cons, List.flatMap_nil, List.append_nil]
      rw [ringEmits_eq_flatMap t key ky _ _ (fun d => (ringsUpTo n).any (hasCell t key d))]
      · apply List.flatMap_congr
        intro d _
        have hn : ((n : Int) + 1 - 1).toNat = n := by omega
        simp only [isNearestRing, hn]
      · intro j d hd
        simpa using ih2 j d hd
    · intro j d hd
      rw [searchRing, probeFrom_found]
      simp only [Nat.zero_le, if_true, Nat.sub_zero, hd]
      rw [ih2 j d hd]
      simp [List.any_append]

theorem searchNeighbors_eq (g : GridBasedBodyAdjacency) (acc : List Vertex) (v : Vertex)
    (hinfo : g.terrain_.isTerrainInformation = true) :
    g.searchNeighbors acc v =
      acc ++ (rings g.neighboring_definition_).flatMap (fun r =>
        directions.flatMap (fun d => contribution g.terrain_ v r d)) := by
  unfold GridBasedBodyAdjacency.searchNeighbors
  simp only [hinfo, if_true, rings_eq]
  exact (searchRing_invariant g.terrain_ _ _ acc _).1

theorem searchNeighbors_no_info (g : GridBasedBodyAdjacency) (acc : List Vertex) (v : Vertex)
    (hinfo : g.terrain_.isTerrainInformation = false) :
    g.searchNeighbors acc v = acc := by
  unfold GridBasedBodyAdjacency.searchNeighbors
  simp [hinfo]

theorem contributions_none (t : TerrainMap) (v : Vertex) (d : Int × Int) :
    ∀ n : Nat, (ringsUpTo n).any (hasCell t (terrainKeyOf t.getTerrainSpaceModel v) d) = false →
      (ringsUpTo n).flatMap (fun r => contribution t v r d) = [] := by
  intro n
  induction n with
  | zero => intro _; simp [ringsUpTo]
  | succ n ih =>
    intro h
    rw [ringsUpTo_succ, List.any_append, Bool.or_eq_false_iff] at h
    rw [ringsUpTo_succ, List.flatMap_append, ih h.1]
    have h2 : hasCell t (terrainKeyOf t.getTerrainSpaceModel v) d ((n : Int) + 1) = false := by
      simpa using h.2
    simp [contribution, isNearestRing, h2]

theorem contributions_nearest (t : TerrainMap) (v : Vertex) (d : Int × Int) (r : Int) :
    ∀ n : Nat, r ∈ ringsUpTo n →
      isNearestRing t (terrainKeyOf t.getTerrainSpaceModel v) d r = true →
      (ringsUpTo n).flatMap (fun r2 => contribution t v r2 d) = contribution t v r d := by
  intro n
  induction n with
  | zero => intro h; simp [ringsUpTo] at h
  | succ n ih =>
    intro hr hnear
    rw [ringsUpTo_succ, List.flatMap_append]
    simp only [List.flatMap_cons, List.flatMap_nil, List.append_nil]
    rw [mem_ringsUpTo] at hr
    by_cases hlast : r = (n : Int) + 1
    · subst hlast
      have hn : ((n : Int) + 1 - 1).toNat = n := by omega
      have hnone : (ringsUpTo n).any (hasCell t (terrainKeyOf t.getTerrainSpaceModel v) d)
          = false := by
        simp only [isNearestRing, hn, Bool.and_eq_true, Bool.not_eq_true'] at hnear
        exact hnear.2
      rw [contributions_none t v d n hnone, List.nil_append]
    · have hmem : r ∈ ringsUpTo n := mem_ringsUpTo.mpr ⟨hr.1, by push_cast at hr; omega⟩
      rw [ih hmem hnear]
      have hcell : hasCell t (terrainKeyOf t.getTerrainSpaceModel v) d r = true := by
        simp only [isNearestRing, Bool.and_eq_true] at hnear
        exact hnear.1
      have hn : ((n : Int) + 1 - 1).toNat = n := by omega
      have hany : (ringsUpTo n).any (hasCell t (terrainKeyOf t.getTerrainSpaceModel v) d)
          = true := List.any_eq_true.mpr ⟨r, hmem, hcell⟩
      have : contribution t v ((n : Int) + 1) d = [] := by
        simp [contribution, isNearestRing, hn, hany]
      rw [this, List.append_nil]

theorem exists_nearest (t : TerrainMap) (key : Key) (d : Int × Int) :
    ∀ n : Nat, (ringsUpTo n).any (hasCell t key d) = true →
      ∃ r, r ∈ ringsUpTo n ∧ isNearestRing t key d r = true ∧
        ∀ r2, 1 ≤ r2 → hasCell t key d r2 = true → r ≤ r2 := by
  intro n
  induction n with
  | zero => intro h; simp [ringsUpTo] at h
  | succ n ih =>
    intro h
    by_cases hprev : (ringsUpTo n).any (hasCell t key d) = true
    · obtain ⟨r, hr, hnear, hmin⟩ := ih hprev
      exact ⟨r, mem_ringsUpTo.mpr ⟨(mem_ringsUpTo.mp hr).1,
        by have := (mem_ringsUpTo.mp hr).2; push_cast; omega⟩, hnear, hmin⟩
    · have hprev2 : (ringsUpTo n).any (hasCell t key d) = false := by simpa using hprev
      rw [ringsUpTo_succ, List.any_append, hprev2, Bool.false_or] at h
      have hc : hasCell t key d ((n : Int) + 1) = true := by simpa using h
      have hn : ((n : Int) + 1 - 1).toNat = n := by omega
      refine ⟨(n : Int) + 1, mem_ringsUpTo.mpr ⟨by omega, by push_cast; omega⟩, ?_, ?_⟩
      · simp [isNearestRing, hn, hc, hprev2]
      · intro r2 h1 h2
        by_contra hlt
        have hmem : r2 ∈ ringsUpTo n := mem_ringsUpTo.mpr ⟨h1, by omega⟩
        have : (ringsUpTo n).any (hasCell t key d) = true := List.any_eq_true.mpr ⟨r2, hmem, h2⟩
        rw [hprev2] at this
        exact Bool.noConfusion this

/-- C1: with terrain information present, the output of `searchNeighbors` is the
ring-by-ring, direction-by-direction concatenation of the contributions; a
direction with a terrain cell at some ring of the horizon contributes exactly one
vertex, the state vertex of the cell at the smallest such ring with the yaw of the
yaw key of `v`; a direction with no cell in the horizon contributes nothing. -/
theorem searchNeighbors_nearest_cell_per_direction (g : GridBasedBodyAdjacency)
    (acc : List Vertex) (v : Vertex) (hinfo : g.terrain_.isTerrainInformation = true) :
    g.searchNeighbors acc v =
        acc ++ (rings g.neighboring_definition_).flatMap (fun r =>
          directions.flatMap (fun d => contribution g.terrain_ v r d))
    ∧ ∀ d ∈ directions,
      ((∃ r, 1 ≤ r ∧ r ≤ g.neighboring_definition_ ∧
          hasCell g.terrain_ (terrainKeyOf g.terrain_.getTerrainSpaceModel v) d r = true) →
        ∃ r, 1 ≤ r ∧ r ≤ g.neighboring_definition_ ∧
          hasCell g.terrain_ (terrainKeyOf g.terrain_.getTerrainSpaceModel v) d r = true ∧
          (∀ r2, 1 ≤ r2 →
            hasCell g.terrain_ (terrainKeyOf g.terrain_.getTerrainSpaceModel v) d r2 = true →
            r ≤ r2) ∧
          directionNeighbors g v d =
            [neighborStateVertex g.terrain_.getTerrainSpaceModel
              (yawKeyOf g.terrain_.getTerrainSpaceModel v)
              (searchingKey (terrainKeyOf g.terrain_.getTerrainSpaceModel v) r d)])
      ∧ ((∀ r, 1 ≤ r → r ≤ g.neighboring_definition_ →
          hasCell g.terrain_ (terrainKeyOf g.terrain_.getTerrainSpaceModel v) d r = false) →
        directionNeighbors g v d = []) := by
  refine ⟨searchNeighbors_eq g acc v hinfo, ?_⟩
  intro d _
  have hmem : ∀ r : Int, r ∈ ringsUpTo g.neighboring_definition_.toNat ↔
      1 ≤ r ∧ r ≤ g.neighboring_definition_ := by
    intro r
    rw [mem_ringsUpTo]
    constructor
    · rintro ⟨h1, h2⟩
      exact ⟨h1, by omega⟩
    · rintro ⟨h1, h2⟩
      exact ⟨h1, by omega⟩
  constructor
  · rintro ⟨r, h1, h2, h3⟩
    have hany : (ringsUpTo g.neighboring_definition_.toNat).any
        (hasCell g.terrain_ (terrainKeyOf g.terrain_.getTerrainSpaceModel v) d) = true :=
      List.any_eq_true.mpr ⟨r, (hmem r).mpr ⟨h1, h2⟩, h3⟩
    obtain ⟨r0, hr0, hnear, hmin⟩ := exists_nearest _ _ d _ hany
    have hcell : hasCell g.terrain_ (terrainKeyOf g.terrain_.getTerrainSpaceModel v) d r0
        = true := by
      simp only [isNearestRing, Bool.and_eq_true] at hnear
      exact hnear.1
    refine ⟨r0, ((hmem r0).mp hr0).1, ((hmem r0).mp hr0).2, hcell, hmin, ?_⟩
    unfold directionNeighbors
    rw [rings_eq, contributions_nearest g.terrain_ v d r0 _ hr0 hnear]
    simp [contribution, hnear]
  · intro hnone
    unfold directionNeighbors
    rw [rings_eq]
    apply contributions_none
    rw [Bool.eq_false_iff]
    intro hany
    obtain ⟨r, hr, hc⟩ := List.any_eq_true.mp hany
    rw [hnone r ((hmem r).mp hr).1 ((hmem r).mp hr).2] at hc
    exact Bool.noConfusion hc

/-- Witness of C1 on the plus-shaped terrain: the output decomposes into the
contributions of the rings and directions. -/
theorem searchNeighbors_nearest_cell_per_direction_witness :
    plusGrid.terrain_.isTerrainInformation = true ∧
    plusGrid.searchNeighbors [] (poseVertex 0 0 0) =
      [] ++ (rings plusGrid.neighboring_definition_).flatMap (fun r =>
        directions.flatMap (fun d => contribution plusGrid.terrain_ (poseVertex 0 0 0) r d)) :=
  ⟨rfl, (searchNeighbors_nearest_cell_per_direction plusGrid [] (poseVertex 0 0 0) rfl).1⟩

/-! ## Consequences of the laws of the space model -/

theorem project_neighborStateVertex {sm : SpaceModel} (h : sm.RoundTrip) (ky : Int) (k : Key) :
    sm.stateVertexToEnvironmentVertex (neighborStateVertex sm ky k) TypeOfState.XY_Y =
      sm.keyToVertex k true := by
  unfold neighborStateVertex
  simp only [h.project, h.key_state]

theorem terrainKeyOf_neighborStateVertex {sm : SpaceModel} (h : sm.RoundTrip) (ky : Int)
    (k : Key) : terrainKeyOf sm (neighborStateVertex sm ky k) = k := by
  unfold terrainKeyOf
  rw [project_neighborStateVertex h, h.key_vertex]

theorem yawKeyOf_neighborStateVertex {sm : SpaceModel} (h : sm.RoundTrip) (ky : Int)
    (k : Key) : yawKeyOf sm (neighborStateVertex sm ky k) = ky := by
  unfold yawKeyOf neighborStateVertex
  simp only [h.state_vertex, h.key_state]

theorem encodeIndex_decode (k : Int) : decodeIndex (encodeIndex k) = k := by
  unfold decodeIndex encodeIndex
  split_ifs <;> omega

theorem encodeIndex_inj (a b : Int) : encodeIndex a = encodeIndex b ↔ a = b := by
  constructor
  · intro h
    have := congrArg decodeIndex h
    rwa [encodeIndex_decode, encodeIndex_decode] at this
  · rintro rfl; rfl

theorem unitSpaceModel_roundTrip : unitSpaceModel.RoundTrip where
  key_vertex k := by
    simp [unitSpaceModel, Nat.unpair_pair, encodeIndex_decode]
  key_state k b := by
    simp [unitSpaceModel]
  project s := by
    simp [unitSpaceModel, Nat.unpair_pair]
  state_vertex s := by
    simp [unitSpaceModel, Nat.unpair_pair, encodeIndex_decode]

/-! ## Shape of the neighbour list -/

theorem flatMap_swap_perm {α β γ : Type} (f : α → β → List γ) (rs : List α) :
    ∀ ds : List β,
      List.Perm (rs.flatMap (fun r => ds.flatMap (f r)))
        (ds.flatMap (fun d => rs.flatMap (fun r => f r d))) := by
  intro ds
  induction ds with
  | nil => simp
  | cons d ds ih =>
    simp only [List.flatMap_cons]
    exact (List.flatMap_append_perm rs (fun r => f r d) (fun r => ds.flatMap (f r))).symm.trans
      (List.Perm.append_left _ ih)

theorem searchNeighbors_perm (g : GridBasedBodyAdjacency) (v : Vertex)
    (hinfo : g.terrain_.isTerrainInformation = true) :
    List.Perm (g.searchNeighbors [] v) (directions.flatMap (directionNeighbors g v)) := by
  rw [searchNeighbors_eq g [] v hinfo, List.nil_append]
  exact flatMap_swap_perm _ _ _

theorem mem_rings {nd r : Int} : r ∈ rings nd ↔ 1 ≤ r ∧ r ≤ nd := by
  rw [rings_eq, mem_ringsUpTo]
  constructor
  · rintro ⟨h1, h2⟩
    exact ⟨h1, by omega⟩
  · rintro ⟨h1, h2⟩
    exact ⟨h1, by omega⟩

theorem directionNeighbors_cases (g : GridBasedBodyAdjacency) (v : Vertex) (d : Int × Int) :
    directionNeighbors g v d = [] ∨
    ∃ r, 1 ≤ r ∧ r ≤ g.neighboring_definition_ ∧
      isNearestRing g.terrain_ (terrainKeyOf g.terrain_.getTerrainSpaceModel v) d r = true ∧
      directionNeighbors g v d =
        [neighborStateVertex g.terrain_.getTerrainSpaceModel
          (yawKeyOf g.terrain_.getTerrainSpaceModel v)
          (searchingKey (terrainKeyOf g.terrain_.getTerrainSpaceModel v) r d)] := by
  by_cases hany : (ringsUpTo g.neighboring_definition_.toNat).any
      (hasCell g.terrain_ (terrainKeyOf g.terrain_.getTerrainSpaceModel v) d) = true
  · right
    obtain ⟨r0, hr0, hnear, _⟩ := exists_nearest _ _ d _ hany
    have hr := mem_rings.mp (by rw [rings_eq]; exact hr0)
    refine ⟨r0, hr.1, hr.2, hnear, ?_⟩
    unfold directionNeighbors
    rw [rings_eq, contributions_nearest g.terrain_ v d r0 _ hr0 hnear]
    simp [contribution, hnear]
  · left
    unfold directionNeighbors
    rw [rings_eq]
    exact contributions_none _ _ _ _ (by simpa using hany)

theorem ray_injective (key : Key) {d d2 : Int × Int} {r r2 : Int}
    (hd : d ∈ directions) (hd2 : d2 ∈ directions) (hr : 1 ≤ r) (hr2 : 1 ≤ r2)
    (h : searchingKey key r d = searchingKey key r2 d2) : d = d2 ∧ r = r2 := by
  simp only [searchingKey, Key.mk.injEq] at h
  obtain ⟨hx, hy⟩ := h
  simp only [directions, List.mem_cons, List.mem_singleton, List.not_mem_nil, or_false] at hd hd2
  rcases hd with rfl | rfl | rfl | rfl | rfl | rfl | rfl | rfl <;>
    rcases hd2 with rfl | rfl | rfl | rfl | rfl | rfl | rfl | rfl <;>
    simp only [Prod.mk.injEq, one_mul, zero_mul, neg_mul, add_zero] at hx hy ⊢ <;> first | omega | exact ⟨trivial, by omega⟩

theorem count_pos_iff (t : TerrainMap) (v : Vertex) :
    t.count v > 0 ↔ v ∈ t.getTerrainDataMap.map Prod.fst := by
  unfold TerrainMap.count TerrainMap.find
  cases hf : t.getTerrainDataMap.find? (fun e => e.1 == v) with
  | none =>
    simp only [Option.map_none', Option.isSome_none, Bool.false_eq_true, if_false,
      gt_iff_lt, lt_self_iff_false, false_iff]
    intro hmem
    obtain ⟨e, he, hev⟩ := List.mem_map.mp hmem
    have := List.find?_eq_none.mp hf e he
    simp [hev] at this
  | some e =>
    simp only [Option.map_some', Option.isSome_some, if_true, gt_iff_lt, Nat.lt_one_iff,
      true_iff]
    have h1 := List.mem_of_find?_eq_some hf
    have h2 := List.find?_some hf
    exact List.mem_map.mpr ⟨e, h1, by simpa using h2⟩

theorem length_flatMap_le {α β : Type} (f : α → List β) (h : ∀ a, (f a).length ≤ 1) :
    ∀ l : List α, (l.flatMap f).length ≤ l.length := by
  intro l
  induction l with
  | nil => simp
  | cons a l ih =>
    simp only [List.flatMap_cons, List.length_append, List.length_cons]
    have := h a
    omega

theorem mem_directionNeighbors (g : GridBasedBodyAdjacency) (v : Vertex) (d : Int × Int)
    (n : Vertex) (hn : n ∈ directionNeighbors g v d) :
    ∃ r, 1 ≤ r ∧ r ≤ g.neighboring_definition_ ∧
      hasCell g.terrain_ (terrainKeyOf g.terrain_.getTerrainSpaceModel v) d r = true ∧
      n = neighborStateVertex g.terrain_.getTerrainSpaceModel
          (yawKeyOf g.terrain_.getTerrainSpaceModel v)
          (searchingKey (terrainKeyOf g.terrain_.getTerrainSpaceModel v) r d) := by
  rcases directionNeighbors_cases g v d with h | ⟨r, h1, h2, h3, h4⟩
  · rw [h] at hn
    exact absurd hn (List.not_mem_nil n)
  · rw [h4, List.mem_singleton] at hn
    simp only [isNearestRing, Bool.and_eq_true] at h3
    exact ⟨r, h1, h2, h3.1, hn⟩

theorem searchNeighbors_projects_to_key (g : GridBasedBodyAdjacency) (v n : Vertex)
    (hlaw : g.terrain_.getTerrainSpaceModel.RoundTrip) (hn : n ∈ g.searchNeighbors [] v) :
    g.terrain_.getTerrainSpaceModel.stateVertexToEnvironmentVertex n TypeOfState.XY_Y ∈
      g.terrain_.getTerrainDataMap.map Prod.fst := by
  cases hinfo : g.terrain_.isTerrainInformation with
  | false =>
    rw [searchNeighbors_no_info g [] v hinfo] at hn
    exact absurd hn (List.not_mem_nil n)
  | true =>
    rw [(searchNeighbors_perm g v hinfo).mem_iff, List.mem_flatMap] at hn
    obtain ⟨d, _, hnd⟩ := hn
    obtain ⟨r, _, _, hcell, hn⟩ := mem_directionNeighbors g v d n hnd
    rw [← count_pos_iff, hn, project_neighborStateVertex hlaw]
    simpa [hasCell] using hcell

/-- C2: the list returned by `searchNeighbors` has at most 8 vertices, has no
repetition, and each of its vertices projects to a key of the terrain data map and
lies on one of the 8 compass rays from `v` at a ring `r` with
`1 ≤ r ≤ neighboring_definition`; the space model obeys its round-trip laws. -/
theorem searchNeighbors_at_most_eight_distinct (g : GridBasedBodyAdjacency) (v : Vertex)
    (hlaw : g.terrain_.getTerrainSpaceModel.RoundTrip) :
    (g.searchNeighbors [] v).length ≤ 8 ∧ (g.searchNeighbors [] v).Nodup ∧
    ∀ n ∈ g.searchNeighbors [] v,
      g.terrain_.getTerrainSpaceModel.stateVertexToEnvironmentVertex n TypeOfState.XY_Y ∈
        g.terrain_.getTerrainDataMap.map Prod.fst ∧
      ∃ d ∈ directions, ∃ r, 1 ≤ r ∧ r ≤ g.neighboring_definition_ ∧
        terrainKeyOf g.terrain_.getTerrainSpaceModel n =
          searchingKey (terrainKeyOf g.terrain_.getTerrainSpaceModel v) r d := by
  cases hinfo : g.terrain_.isTerrainInformation with
  | false =>
    rw [searchNeighbors_no_info g [] v hinfo]
    simp
  | true =>
    have hperm := searchNeighbors_perm g v hinfo
    refine ⟨?_, ?_, ?_⟩
    · rw [hperm.length_eq]
      refine le_trans (length_flatMap_le _ ?_ directions) (by simp [directions])
      intro d
      rcases directionNeighbors_cases g v d with h | ⟨r, _, _, _, h⟩ <;> simp [h]
    · rw [hperm.nodup_iff, List.nodup_flatMap]
      constructor
      · intro d _
        rcases directionNeighbors_cases g v d with h | ⟨r, _, _, _, h⟩ <;> simp [h]
      · have hnd : directions.Nodup := by decide
        refine hnd.pairwise_of_forall_ne ?_
        intro a ha b hb hne
        show List.Disjoint (directionNeighbors g v a) (directionNeighbors g v b)
        intro n hna hnb
        obtain ⟨r, hr, _, _, hn⟩ := mem_directionNeighbors g v a n hna
        obtain ⟨r2, hr2, _, _, hn2⟩ := mem_directionNeighbors g v b n hnb
        have hk := congrArg (terrainKeyOf g.terrain_.getTerrainSpaceModel) (hn.symm.trans hn2)
        rw [terrainKeyOf_neighborStateVertex hlaw, terrainKeyOf_neighborStateVertex hlaw] at hk
        exact hne (ray_injective _ ha hb hr hr2 hk).1
    · intro n hn
      rw [hperm.mem_iff, List.mem_flatMap] at hn
      obtain ⟨d, hd, hnd⟩ := hn
      obtain ⟨r, hr1, hr2, hcell, hn⟩ := mem_directionNeighbors g v d n hnd
      constructor
      · rw [← count_pos_iff, hn, project_neighborStateVertex hlaw]
        simpa [hasCell] using hcell
      · exact ⟨d, hd, r, hr1, hr2, by rw [hn, terrainKeyOf_neighborStateVertex hlaw]⟩

/-- Witness of C2 on the plus-shaped terrain. -/
theorem searchNeighbors_at_most_eight_distinct_witness :
    plusGrid.terrain_.getTerrainSpaceModel.RoundTrip ∧
    (plusGrid.searchNeighbors [] (poseVertex 0 0 0)).length ≤ 8 ∧
    (plusGrid.searchNeighbors [] (poseVertex 0 0 0)).Nodup :=
  ⟨unitSpaceModel_roundTrip,
   (searchNeighbors_at_most_eight_distinct plusGrid (poseVertex 0 0 0)
      unitSpaceModel_roundTrip).1,
   (searchNeighbors_at_most_eight_distinct plusGrid (poseVertex 0 0 0)
      unitSpaceModel_roundTrip).2.1⟩

/-! ## Symmetry of the neighbour search -/

theorem oppositeDirection_mem {d : Int × Int} (hd : d ∈ directions) :
    oppositeDirection d ∈ directions := by
  simp only [directions, List.mem_cons, List.mem_singleton, List.not_mem_nil, or_false] at hd
  rcases hd with rfl | rfl | rfl | rfl | rfl | rfl | rfl | rfl <;>
    simp [oppositeDirection, directions]

theorem searchingKey_back (k : Key) (d : Int × Int) (r r2 : Int) :
    searchingKey (searchingKey k r d) r2 (oppositeDirection d) = searchingKey k (r - r2) d := by
  simp only [searchingKey, oppositeDirection, Key.mk.injEq]
  constructor <;> ring

theorem searchingKey_zero (k : Key) (d : Int × Int) : searchingKey k 0 d = k := by
  cases k
  simp [searchingKey]

theorem isNearestRing_iff (t : TerrainMap) (key : Key) (d : Int × Int) (r : Int) :
    isNearestRing t key d r = true ↔
      hasCell t key d r = true ∧ ∀ r2, 1 ≤ r2 → r2 < r → hasCell t key d r2 = false := by
  unfold isNearestRing
  rw [Bool.and_eq_true, Bool.not_eq_true', List.any_eq_false]
  constructor
  · rintro ⟨h1, h2⟩
    refine ⟨h1, fun r2 h3 h4 => ?_⟩
    have := h2 r2 (mem_ringsUpTo.mpr ⟨h3, by omega⟩)
    simpa using this
  · rintro ⟨h1, h2⟩
    refine ⟨h1, fun r2 h3 => ?_⟩
    have h4 := mem_ringsUpTo.mp h3
    have := h2 r2 h4.1 (by omega)
    simp [this]

theorem directionNeighbors_of_nearest (g : GridBasedBodyAdjacency) (v : Vertex)
    (d : Int × Int) (r : Int) (h1 : 1 ≤ r) (h2 : r ≤ g.neighboring_definition_)
    (hnear : isNearestRing g.terrain_ (terrainKeyOf g.terrain_.getTerrainSpaceModel v) d r
      = true) :
    directionNeighbors g v d =
      [neighborStateVertex g.terrain_.getTerrainSpaceModel
        (yawKeyOf g.terrain_.getTerrainSpaceModel v)
        (searchingKey (terrainKeyOf g.terrain_.getTerrainSpaceModel v) r d)] := by
  unfold directionNeighbors
  rw [rings_eq, contributions_nearest g.terrain_ v d r _
    (by rw [← rings_eq]; exact mem_rings.mpr ⟨h1, h2⟩) hnear]
  simp [contribution, hnear]

theorem mem_searchNeighbors_of_direction (g : GridBasedBodyAdjacency) (v n : Vertex)
    (d : Int × Int) (hinfo : g.terrain_.isTerrainInformation = true) (hd : d ∈ directions)
    (hn : n ∈ directionNeighbors g v d) : n ∈ g.searchNeighbors [] v := by
  rw [(searchNeighbors_perm g v hinfo).mem_iff, List.mem_flatMap]
  exact ⟨d, hd, hn⟩

/-- C3: let `A` and `B` be the state vertices, at one yaw key, of two cells of the
terrain map; if the search from `A` finds `B` at ring `r` along direction `d` (the
nearest ring with a cell on that ray), then the search from `B` finds `A` at the
same ring `r` along the opposite direction; the space model obeys its round-trip
laws. -/
theorem searchNeighbors_symmetric (g : GridBasedBodyAdjacency) (key_yaw : Int) (keyA : Key)
    (d : Int × Int) (r : Int)
    (hlaw : g.terrain_.getTerrainSpaceModel.RoundTrip)
    (hinfo : g.terrain_.isTerrainInformation = true)
    (hd : d ∈ directions)
    (hA : g.terrain_.count (g.terrain_.getTerrainSpaceModel.keyToVertex keyA true) > 0)
    (h1 : 1 ≤ r) (h2 : r ≤ g.neighboring_definition_)
    (hnear : isNearestRing g.terrain_ keyA d r = true) :
    neighborStateVertex g.terrain_.getTerrainSpaceModel key_yaw (searchingKey keyA r d) ∈
        g.searchNeighbors [] (neighborStateVertex g.terrain_.getTerrainSpaceModel key_yaw keyA)
    ∧ isNearestRing g.terrain_ (searchingKey keyA r d) (oppositeDirection d) r = true
    ∧ directionNeighbors g
        (neighborStateVertex g.terrain_.getTerrainSpaceModel key_yaw (searchingKey keyA r d))
        (oppositeDirection d)
      = [neighborStateVertex g.terrain_.getTerrainSpaceModel key_yaw keyA]
    ∧ neighborStateVertex g.terrain_.getTerrainSpaceModel key_yaw keyA ∈
        g.searchNeighbors []
          (neighborStateVertex g.terrain_.getTerrainSpaceModel key_yaw (searchingKey keyA r d)) := by
  have hback : isNearestRing g.terrain_ (searchingKey keyA r d) (oppositeDirection d) r
      = true := by
    rw [isNearestRing_iff] at hnear ⊢
    constructor
    · unfold hasCell
      rw [searchingKey_back, sub_self, searchingKey_zero]
      simpa using hA
    · intro r2 h3 h4
      have := hnear.2 (r - r2) (by omega) (by omega)
      unfold hasCell at this ⊢
      rw [searchingKey_back]
      exact this
  have hdir : directionNeighbors g
        (neighborStateVertex g.terrain_.getTerrainSpaceModel key_yaw (searchingKey keyA r d))
        (oppositeDirection d)
      = [neighborStateVertex g.terrain_.getTerrainSpaceModel key_yaw keyA] := by
    rw [directionNeighbors_of_nearest g _ (oppositeDirection d) r h1 h2
      (by rw [terrainKeyOf_neighborStateVertex hlaw]; exact hback)]
    rw [terrainKeyOf_neighborStateVertex hlaw, yawKeyOf_neighborStateVertex hlaw,
      searchingKey_back, sub_self, searchingKey_zero]
  refine ⟨?_, hback, hdir, ?_⟩
  · refine mem_searchNeighbors_of_direction g _ _ d hinfo hd ?_
    rw [directionNeighbors_of_nearest g _ d r h1 h2
      (by rw [terrainKeyOf_neighborStateVertex hlaw]; exact hnear)]
    rw [terrainKeyOf_neighborStateVertex hlaw, yawKeyOf_neighborStateVertex hlaw]
    simp
  · exact mem_searchNeighbors_of_direction g _ _ (oppositeDirection d) hinfo
      (oppositeDirection_mem hd) (by rw [hdir]; simp)

theorem plusTerrain_nearest :
    isNearestRing plusGrid.terrain_ ⟨0, 0⟩ (1, 0) 1 = true := by
  norm_num [isNearestRing, hasCell, ringsUpTo, plusGrid, GridBasedBodyAdjacency.reset,
    plusTerrain, unitTerrain, unitSpaceModel, cellVertex, TerrainMap.count, TerrainMap.find,
    searchingKey, encodeIndex_inj]

theorem plusTerrain_origin :
    plusGrid.terrain_.count (plusGrid.terrain_.getTerrainSpaceModel.keyToVertex ⟨0, 0⟩ true)
      > 0 := by
  norm_num [plusGrid, GridBasedBodyAdjacency.reset, plusTerrain, unitTerrain, unitSpaceModel,
    cellVertex, TerrainMap.count, TerrainMap.find, encodeIndex_inj]

/-- Witness of C3 on the plus-shaped terrain: the centre cell finds the cell at
`(1, 0)` along `+x`, and that cell finds the centre along `-x`. -/
theorem searchNeighbors_symmetric_witness :
    isNearestRing plusGrid.terrain_ ⟨0, 0⟩ (1, 0) 1 = true ∧
    neighborStateVertex plusGrid.terrain_.getTerrainSpaceModel 0 ⟨0, 0⟩ ∈
      plusGrid.searchNeighbors []
        (neighborStateVertex plusGrid.terrain_.getTerrainSpaceModel 0
          (searchingKey ⟨0, 0⟩ 1 (1, 0))) :=
  ⟨plusTerrain_nearest,
   (searchNeighbors_symmetric plusGrid 0 ⟨0, 0⟩ (1, 0) 1 unitSpaceModel_roundTrip rfl
      (by simp [directions]) plusTerrain_origin (le_refl 1) (le_refl 1)
      plusTerrain_nearest).2.2.2⟩

/-! ## Successors of the grid adjacency -/

theorem getTerrainCost_of_mem (t : TerrainMap) (v : Vertex)
    (h : v ∈ t.getTerrainDataMap.map Prod.fst) : ∃ c, t.getTerrainCost v = some c := by
  rw [← count_pos_iff] at h
  unfold TerrainMap.count at h
  unfold TerrainMap.getTerrainCost
  cases hf : t.find v with
  | none => simp [hf] at h
  | some d => exact ⟨d.cost, rfl⟩

theorem successorsLoop_terrain (g : GridBasedBodyAdjacency) (fuel : Nat)
    (hstance : g.is_stance_adjacency_ = false) :
    ∀ (ns : List Vertex) (successors : List Edge),
      (∀ n ∈ ns,
        g.terrain_.getTerrainSpaceModel.stateVertexToEnvironmentVertex n TypeOfState.XY_Y ∈
          g.terrain_.getTerrainDataMap.map Prod.fst) →
      ∃ es : List Edge, g.successorsLoop fuel ns successors = some (successors ++ es) ∧
        es.map Prod.fst = ns ∧
        ∀ e ∈ es, g.terrain_.getTerrainCost
          (g.terrain_.getTerrainSpaceModel.stateVertexToEnvironmentVertex e.1 TypeOfState.XY_Y)
            = some e.2 := by
  intro ns
  induction ns with
  | nil =>
    intro successors _
    exact ⟨[], by simp [GridBasedBodyAdjacency.successorsLoop], rfl, by simp⟩
  | cons n rest ih =>
    intro successors hmem
    obtain ⟨c, hc⟩ := getTerrainCost_of_mem g.terrain_ _ (hmem n (List.mem_cons_self n rest))
    obtain ⟨es, h1, h2, h3⟩ := ih (successors ++ [(n, c)])
      (fun m hm => hmem m (List.mem_cons_of_mem n hm))
    refine ⟨(n, c) :: es, ?_, by simp [h2], ?_⟩
    · simp only [GridBasedBodyAdjacency.successorsLoop, GridBasedBodyAdjacency.isStanceAdjacency,
        hstance, Bool.not_false, if_true, hc, Option.some_bind, h1]
      simp
    · intro e he
      rcases List.mem_cons.mp he with rfl | he
      · exact hc
      · exact h3 e he

/-- C4: with terrain information present and stance adjacency disabled,
`getSuccessors` returns the given list extended by exactly one edge per vertex of
`searchNeighbors`, in the same order, each edge having that vertex as target and
the terrain cost of its environment vertex as weight; the space model obeys its
round-trip laws. -/
theorem getSuccessors_terrain_cost (g : GridBasedBodyAdjacency) (fuel : Nat)
    (successors : List Edge) (v : Vertex)
    (hlaw : g.terrain_.getTerrainSpaceModel.RoundTrip)
    (hinfo : g.terrain_.isTerrainInformation = true)
    (hstance : g.is_stance_adjacency_ = false) :
    ∃ es : List Edge, g.getSuccessors fuel successors v = some (successors ++ es) ∧
      es.map Prod.fst = g.searchNeighbors [] v ∧
      ∀ e ∈ es, g.terrain_.getTerrainCost
        (g.terrain_.getTerrainSpaceModel.stateVertexToEnvironmentVertex e.1 TypeOfState.XY_Y)
          = some e.2 := by
  unfold GridBasedBodyAdjacency.getSuccessors
  simp only [hinfo, if_true]
  exact successorsLoop_terrain g fuel hstance _ successors
    (fun n hn => searchNeighbors_projects_to_key g v n hlaw hn)

theorem plusGrid_getSuccessors (fuel : Nat) :
    plusGrid.getSuccessors fuel [] (poseVertex 0 0 0) =
      some [(poseVertex 1 0 0, 1), (poseVertex (-1) 0 0, 1), (poseVertex 0 1 0, 1),
        (poseVertex 0 (-1) 0, 1)] := by
  norm_num [GridBasedBodyAdjacency.getSuccessors, GridBasedBodyAdjacency.successorsLoop,
    GridBasedBodyAdjacency.isStanceAdjacency, TerrainMap.getTerrainCost,
    GridBasedBodyAdjacency.searchNeighbors, plusGrid, GridBasedBodyAdjacency.reset, plusTerrain,
    unitTerrain, unitSpaceModel, poseVertex, cellVertex, rings, searchRing, probeFrom, directions,
    probeDirection, TerrainMap.count, TerrainMap.find, searchingKey, neighborStateVertex,
    encodeIndex_decode, encodeIndex_inj, Nat.unpair_pair, List.range_succ]

/-- Witness of C4: on the plus-shaped terrain with all costs 1 and horizon 1 the
successors of the centre are exactly 4 edges of weight 1. -/
theorem getSuccessors_terrain_cost_witness :
    plusGrid.getSuccessors 0 [] (poseVertex 0 0 0) =
      some [(poseVertex 1 0 0, 1), (poseVertex (-1) 0 0, 1), (poseVertex 0 1 0, 1),
        (poseVertex 0 (-1) 0, 1)] ∧
    ∃ es : List Edge, plusGrid.getSuccessors 0 [] (poseVertex 0 0 0) = some ([] ++ es) ∧
      es.map Prod.fst = plusGrid.searchNeighbors [] (poseVertex 0 0 0) ∧
      ∀ e ∈ es, plusGrid.terrain_.getTerrainCost
        (plusGrid.terrain_.getTerrainSpaceModel.stateVertexToEnvironmentVertex e.1
          TypeOfState.XY_Y) = some e.2 :=
  ⟨plusGrid_getSuccessors 0,
   getSuccessors_terrain_cost plusGrid 0 [] (poseVertex 0 0 0) unitSpaceModel_roundTrip rfl rfl⟩

/-- C5 (evaluation at the failing input): on an adjacency object that has been reset
but on which `computeAdjacencyMap` was never called, `getSuccessors` averages over
the empty cached list of stance areas (0 divided by 0, which the rational model
reads as 0), whereas the stance cost over the footstep search areas of the robot
for the zero action is 1 at the same neighbour. -/
theorem getSuccessors_fresh_object_uses_empty_cache :
    freshGrid.getSuccessors 2 [] (poseVertex 0 0 0) =
      some [(poseVertex 1 0 0, 0), (poseVertex (-1) 0 0, 0), (poseVertex 0 1 0, 0),
        (poseVertex 0 (-1) 0, 0)] ∧
    stanceCostForZeroAction freshGrid 2 (poseVertex 1 0 0) = some 1 := by
  constructor
  · norm_num [GridBasedBodyAdjacency.getSuccessors, GridBasedBodyAdjacency.successorsLoop,
      GridBasedBodyAdjacency.isStanceAdjacency, GridBasedBodyAdjacency.computeBodyCost,
      meanStanceCost, sumStanceCosts, addFeatureCosts,
      GridBasedBodyAdjacency.searchNeighbors, freshGrid, GridBasedBodyAdjacency.reset, plusTerrain,
      unitTerrain, unitSpaceModel, poseVertex, cellVertex, rings, searchRing, probeFrom,
      directions, probeDirection, TerrainMap.count, TerrainMap.find, searchingKey,
      neighborStateVertex, encodeIndex_decode, encodeIndex_inj, Nat.unpair_pair,
      List.range_succ]
  · norm_num [stanceCostForZeroAction, GridBasedBodyAdjacency.computeBodyCost,
      meanStanceCost, sumStanceCosts, stanceCost, stanceCostQueue, forLoop, sampleCell,
      rotatedPoint, setInsert, averageLowest, toUnsigned, sumLowest, addFeatureCosts,
      TerrainMap.getTerrainCost, plainRobot, pointArea, yawZeroLibm,
      freshGrid, GridBasedBodyAdjacency.reset, plusTerrain,
      unitTerrain, unitSpaceModel, poseVertex, cellVertex, TerrainMap.count, TerrainMap.find,
      encodeIndex_decode, encodeIndex_inj, Nat.unpair_pair]

/-! ## The sampling loops -/

theorem sampleCount_step {v hi step : ℚ} (hstep : 0 < step) (hv : v ≤ hi) :
    sampleCount v hi step = sampleCount (v + step) hi step + 1 := by
  unfold sampleCount
  rw [if_pos hv]
  by_cases h2 : v + step ≤ hi
  · rw [if_pos h2]
    have hx : (hi - (v + step)) / step = (hi - v) / step - 1 := by
      field_simp
      ring
    have h0 : 0 ≤ (hi - (v + step)) / step := div_nonneg (by linarith) hstep.le
    rw [hx] at h0 ⊢
    rw [Int.floor_sub_one]
    have : 0 ≤ ⌊(hi - v) / step - 1⌋ := Int.floor_nonneg.mpr h0
    rw [Int.floor_sub_one] at this
    omega
  · rw [if_neg h2]
    have h1 : 0 ≤ (hi - v) / step := div_nonneg (by linarith) hstep.le
    have h3 : (hi - v) / step < 1 := by
      rw [div_lt_one hstep]
      linarith
    have : ⌊(hi - v) / step⌋ = 0 := by
      rw [Int.floor_eq_iff]
      constructor
      · simpa using h1
      · simpa using h3
    rw [this]
    rfl

theorem sampleCount_shift (lo hi step c : ℚ) :
    sampleCount (lo + c) (hi + c) step = sampleCount lo hi step := by
  unfold sampleCount
  simp only [add_le_add_iff_right, add_sub_add_right_eq_sub]

theorem forLoop_total {σ : Type} (body : ℚ → σ → Option σ) (f : ℚ → σ → σ)
    (hbody : ∀ x s, body x s = some (f x s)) (hi step : ℚ) (hstep : 0 < step) :
    ∀ (fuel : Nat) (v : ℚ) (s : σ), sampleCount v hi step < fuel →
      forLoop body hi step fuel v s =
        some ((loopValues (sampleCount v hi step) v step).foldl (fun s1 x => f x s1) s) := by
  intro fuel
  induction fuel with
  | zero => intro v s h; omega
  | succ fuel ih =>
    intro v s h
    unfold forLoop
    by_cases hv : v ≤ hi
    · rw [if_pos hv, hbody, Option.some_bind]
      have hc := sampleCount_step hstep hv
      rw [ih (v + step) (f v s) (by omega), hc]
      rfl
    · rw [if_neg hv]
      have : sampleCount v hi step = 0 := by
        unfold sampleCount
        rw [if_neg hv]
      rw [this]
      rfl

theorem sampleCell_eq (t : TerrainMap) (m : Libm) (state : Vector3d) (y x : ℚ)
    (q : List (Weight × Vertex)) :
    sampleCell t m state y x q = some (insertSample t m state y x q) := by
  unfold sampleCell insertSample TerrainMap.count TerrainMap.getTerrainCost
  cases hf : t.find (t.getTerrainSpaceModel.coordToVertex (rotatedPoint m state x y)) with
  | none => simp [hf]
  | some d => simp [hf]

theorem stanceCostQueue_eq (t : TerrainMap) (m : Libm) (state : Vector3d) (area : SearchArea)
    (hres : 0 < area.resolution) (fuel : Nat) (hfuel : areaFuel area ≤ fuel) :
    stanceCostQueue t m state area fuel = some (collectedQueue t m state area) := by
  unfold areaFuel at hfuel
  have hx : sampleCount (area.min_x + state.c0) (area.max_x + state.c0) area.resolution < fuel := by
    rw [sampleCount_shift]
    omega
  have hy : sampleCount (area.min_y + state.c1) (area.max_y + state.c1) area.resolution < fuel := by
    rw [sampleCount_shift]
    omega
  unfold stanceCostQueue collectedQueue
  simp only
  rw [forLoop_total _
    (fun y q =>
      (loopValues (sampleCount (area.min_x + state.c0) (area.max_x + state.c0) area.resolution)
          (area.min_x + state.c0) area.resolution).foldl
        (fun q1 x => insertSample t m state y x q1) q)
    _ _ _ hres fuel _ _ hy]
  intro y q
  exact forLoop_total _ (fun x q1 => insertSample t m state y x q1)
    (fun x q1 => sampleCell_eq t m state y x q1) _ _ hres fuel _ _ hx

/-! ## Ordered statistics of the stance cost -/

theorem setInsert_ne_nil (q : List (Weight × Vertex)) (e : Weight × Vertex) :
    setInsert q e ≠ [] := by
  cases q with
  | nil => simp [setInsert]
  | cons h t =>
    unfold setInsert
    split_ifs <;> simp

theorem setInsert_head_ge (q : List (Weight × Vertex)) (e a : Weight × Vertex)
    (ha : ∀ b ∈ q, a.1 < b.1) (hae : a.1 < e.1) : ∀ b ∈ setInsert q e, a.1 < b.1 := by
  induction q with
  | nil =>
    intro b hb
    simp only [setInsert, List.mem_singleton] at hb
    rw [hb]
    exact hae
  | cons h t ih =>
    intro b hb
    unfold setInsert at hb
    split_ifs at hb with h1 h2
    · rcases List.mem_cons.mp hb with rfl | hb
      · exact hae
      · exact ha b hb
    · rcases List.mem_cons.mp hb with rfl | hb
      · exact ha _ (List.mem_cons_self _ _)
      · exact ih (fun c hc => ha c (List.mem_cons_of_mem _ hc)) b hb
    · exact ha b hb

theorem setInsert_sorted (q : List (Weight × Vertex)) (e : Weight × Vertex)
    (hq : q.Pairwise (fun a b => a.1 < b.1)) :
    (setInsert q e).Pairwise (fun a b => a.1 < b.1) := by
  induction q with
  | nil => simp [setInsert]
  | cons h t ih =>
    rw [List.pairwise_cons] at hq
    unfold setInsert
    split_ifs with h1 h2
    · have h1a : e.1 < h.1 := by simpa [pair_first_less] using h1
      refine List.pairwise_cons.mpr ⟨?_, List.pairwise_cons.mpr hq⟩
      intro b hb
      rcases List.mem_cons.mp hb with rfl | hb
      · exact h1a
      · exact lt_trans h1a (hq.1 b hb)
    · have h2a : h.1 < e.1 := by simpa [pair_first_less] using h2
      exact List.pairwise_cons.mpr ⟨setInsert_head_ge t e h hq.1 h2a, ih hq.2⟩
    · exact List.pairwise_cons.mpr hq

theorem insertSample_sorted (t : TerrainMap) (m : Libm) (state : Vector3d) (y x : ℚ)
    (q : List (Weight × Vertex)) (hq : q.Pairwise (fun a b => a.1 < b.1)) :
    (insertSample t m state y x q).Pairwise (fun a b => a.1 < b.1) := by
  unfold insertSample
  split
  · exact setInsert_sorted q _ hq
  · exact hq

theorem insertSample_ne_nil (t : TerrainMap) (m : Libm) (state : Vector3d) (y x : ℚ)
    (q : List (Weight × Vertex)) (hq : q ≠ []) : insertSample t m state y x q ≠ [] := by
  unfold insertSample
  split
  · exact setInsert_ne_nil q _
  · exact hq

theorem insertSample_on_cell (t : TerrainMap) (m : Libm) (state : Vector3d) (y x : ℚ)
    (q : List (Weight × Vertex))
    (h : t.count (t.getTerrainSpaceModel.coordToVertex (rotatedPoint m state x y)) > 0) :
    insertSample t m state y x q ≠ [] := by
  unfold insertSample
  unfold TerrainMap.count at h
  split
  · exact setInsert_ne_nil q _
  · rename_i hnone
    simp [hnone] at h

theorem foldl_invariant {α β : Type} (P : β → Prop) (g : β → α → β)
    (hg : ∀ b a, P b → P (g b a)) : ∀ (l : List α) (b : β), P b → P (l.foldl g b) := by
  intro l
  induction l with
  | nil => intro b hb; exact hb
  | cons a l ih => intro b hb; exact ih (g b a) (hg b a hb)

theorem foldl_reaches {α β : Type} (P : β → Prop) (g : β → α → β)
    (hg : ∀ b a, P b → P (g b a)) (a0 : α) (ha0 : ∀ b, P (g b a0)) :
    ∀ (l : List α) (b : β), a0 ∈ l → P (l.foldl g b) := by
  intro l
  induction l with
  | nil => intro b h; exact absurd h (List.not_mem_nil a0)
  | cons a l ih =>
    intro b h
    rcases List.mem_cons.mp h with rfl | h
    · exact foldl_invariant P g hg l _ (ha0 b)
    · exact ih (g b a) h

theorem collectedQueue_sorted (t : TerrainMap) (m : Libm) (state : Vector3d)
    (area : SearchArea) :
    (collectedQueue t m state area).Pairwise (fun a b => a.1 < b.1) := by
  unfold collectedQueue
  refine foldl_invariant (fun q : List (Weight × Vertex) => q.Pairwise (fun a b => a.1 < b.1)) _ ?_ _ _ List.Pairwise.nil
  intro q y hq
  exact foldl_invariant (fun q : List (Weight × Vertex) => q.Pairwise (fun a b => a.1 < b.1)) _
    (fun q1 x hq1 => insertSample_sorted t m state y x q1 hq1) _ _ hq

theorem collectedQueue_ne_nil (t : TerrainMap) (m : Libm) (state : Vector3d)
    (area : SearchArea) (y x : ℚ)
    (hy : y ∈ loopValues
      (sampleCount (area.min_y + state.c1) (area.max_y + state.c1) area.resolution)
      (area.min_y + state.c1) area.resolution)
    (hx : x ∈ loopValues
      (sampleCount (area.min_x + state.c0) (area.max_x + state.c0) area.resolution)
      (area.min_x + state.c0) area.resolution)
    (h : t.count (t.getTerrainSpaceModel.coordToVertex (rotatedPoint m state x y)) > 0) :
    collectedQueue t m state area ≠ [] := by
  unfold collectedQueue
  refine foldl_reaches (fun q : List (Weight × Vertex) => q ≠ []) _ ?_ y ?_ _ _ hy
  · intro q y2 hq
    exact foldl_invariant (fun q : List (Weight × Vertex) => q ≠ []) _
      (fun q1 x2 hq1 => insertSample_ne_nil t m state y2 x2 q1 hq1) _ _ hq
  · intro q
    exact foldl_reaches (fun q : List (Weight × Vertex) => q ≠ []) _
      (fun q1 x2 hq1 => insertSample_ne_nil t m state y x2 q1 hq1) x
      (fun q1 => insertSample_on_cell t m state y x q1 h) _ _ hx

theorem sumLowest_eq (n : Nat) : ∀ (q : List (Weight × Vertex)) (acc : ℚ),
    sumLowest n q acc = acc + ((q.take n).map Prod.fst).sum := by
  induction n with
  | zero => intro q acc; simp [sumLowest]
  | succ n ih =>
    intro q acc
    cases q with
    | nil => simp [sumLowest]
    | cons h t =>
      simp only [sumLowest, ih, List.take_succ_cons, List.map_cons, List.sum_cons]
      ring

theorem toUnsigned_of_pos {n : Int} (h1 : 0 ≤ n) (h2 : n < 2 ^ 32) : toUnsigned n = n.toNat := by
  unfold toUnsigned
  rw [Int.emod_eq_of_lt h1 h2]

theorem averageLowest_eq (n : Int) (uf avg : ℚ) (q : List (Weight × Vertex))
    (h1 : 1 ≤ n) (h2 : n < 2 ^ 31) (hq : q ≠ []) :
    averageLowest n uf avg q =
      ((q.take (min n.toNat q.length)).map Prod.fst).sum / ((min n.toNat q.length : Nat) : ℚ) := by
  unfold averageLowest
  rw [toUnsigned_of_pos (by omega) (by omega)]
  have hlen : 0 < q.length := List.length_pos.mpr hq
  simp only
  by_cases hlt : q.length < n.toNat
  · rw [if_pos hlt, if_neg (by omega), sumLowest_eq, zero_add, min_eq_right (by omega)]
  · rw [if_neg hlt, if_neg (by omega), sumLowest_eq, zero_add, min_eq_left (by omega)]

theorem rowTerrain_sample :
    rowTerrain.count (rowTerrain.getTerrainSpaceModel.coordToVertex
      (rotatedPoint yawZeroLibm ⟨0, 0, 0⟩ 0 0)) > 0 := by
  norm_num [rowTerrain, unitTerrain, unitSpaceModel, rotatedPoint, yawZeroLibm, cellVertex,
    TerrainMap.count, TerrainMap.find, encodeIndex_inj]

theorem rowGrid_computeBodyCost :
    rowGrid.computeBodyCost 9 (poseVertex 0 0 0) = some 3 := by
  norm_num [GridBasedBodyAdjacency.computeBodyCost,
      meanStanceCost, sumStanceCosts, stanceCost, stanceCostQueue, forLoop, sampleCell,
      rotatedPoint, setInsert, pair_first_less, averageLowest, toUnsigned, sumLowest,
      addFeatureCosts, TerrainMap.getTerrainCost, plainRobot, rowArea, yawZeroLibm,
      rowGrid, GridBasedBodyAdjacency.reset, rowTerrain,
      unitTerrain, unitSpaceModel, poseVertex, cellVertex, TerrainMap.count, TerrainMap.find,
      encodeIndex_decode, encodeIndex_inj, Nat.unpair_pair,
      show Int.toNat 5 = 5 from rfl]

theorem rowLattice_computeBodyCost :
    (rowLattice.computeBodyCost 9 ⟨0, 0, 0⟩).map Prod.snd = some 3 := by
  norm_num [LatticeBasedBodyAdjacency.computeBodyCost,
      meanStanceCost, sumStanceCosts, stanceCost, stanceCostQueue, forLoop, sampleCell,
      rotatedPoint, setInsert, pair_first_less, averageLowest, toUnsigned, sumLowest,
      addFeatureCosts, TerrainMap.getTerrainCost, plainRobot, rowArea, yawZeroLibm,
      rowLattice, rowTerrain,
      unitTerrain, unitSpaceModel, poseVertex, cellVertex, TerrainMap.count, TerrainMap.find,
      encodeIndex_decode, encodeIndex_inj, Nat.unpair_pair,
      show Int.toNat 5 = 5 from rfl]

/-- C9: for a stance area with a positive resolution in which at least one rotated
sample `(x, y)` falls on a cell of the terrain data map, and for
`1 ≤ number_top_cost` (an `int`, hence below `2 ^ 31`), every sufficient fuel makes
the sampling end with the queue
`collectedQueue`, whose `k` entries are in strictly ascending order of cost, and
the contribution of the area (which the loop over the areas of both
`computeBodyCost` adds to `terrain_cost`) is the arithmetic mean of the
`min(number_top_cost, k)` first, hence lowest, costs of the queue. -/
theorem stanceCost_mean_of_lowest (t : TerrainMap) (m : Libm) (number_top_cost : Int)
    (uncertainty_factor : ℚ) (state : Vector3d) (area : SearchArea) (y x : ℚ) (fuel : Nat)
    (hres : 0 < area.resolution) (h1 : 1 ≤ number_top_cost) (h2 : number_top_cost < 2 ^ 31)
    (hy : y ∈ loopValues
      (sampleCount (area.min_y + state.c1) (area.max_y + state.c1) area.resolution)
      (area.min_y + state.c1) area.resolution)
    (hx : x ∈ loopValues
      (sampleCount (area.min_x + state.c0) (area.max_x + state.c0) area.resolution)
      (area.min_x + state.c0) area.resolution)
    (hcell : t.count (t.getTerrainSpaceModel.coordToVertex (rotatedPoint m state x y)) > 0)
    (hfuel : areaFuel area ≤ fuel) :
    stanceCostQueue t m state area fuel = some (collectedQueue t m state area) ∧
    (collectedQueue t m state area).Pairwise (fun a b => a.1 < b.1) ∧
    stanceCost t m number_top_cost uncertainty_factor state area fuel =
      some ((((collectedQueue t m state area).take
          (min number_top_cost.toNat (collectedQueue t m state area).length)).map Prod.fst).sum /
        ((min number_top_cost.toNat (collectedQueue t m state area).length : Nat) : ℚ)) ∧
    ∀ (rest : List SearchArea) (terrain_cost : ℚ),
      sumStanceCosts t m number_top_cost uncertainty_factor state fuel (area :: rest)
          terrain_cost =
        sumStanceCosts t m number_top_cost uncertainty_factor state fuel rest
          (terrain_cost +
            (((collectedQueue t m state area).take
              (min number_top_cost.toNat (collectedQueue t m state area).length)).map
                Prod.fst).sum /
            ((min number_top_cost.toNat (collectedQueue t m state area).length : Nat) : ℚ)) := by
  have hq := stanceCostQueue_eq t m state area hres fuel hfuel
  have hne := collectedQueue_ne_nil t m state area y x hy hx hcell
  have hs : stanceCost t m number_top_cost uncertainty_factor state area fuel =
      some ((((collectedQueue t m state area).take
          (min number_top_cost.toNat (collectedQueue t m state area).length)).map Prod.fst).sum /
        ((min number_top_cost.toNat (collectedQueue t m state area).length : Nat) : ℚ)) := by
    unfold stanceCost
    rw [hq, Option.map_some', averageLowest_eq _ _ _ _ h1 h2 hne]
  refine ⟨hq, collectedQueue_sorted t m state area, hs, ?_⟩
  intro rest terrain_cost
  rw [sumStanceCosts, hs, Option.some_bind]

/-- Witness of C9: sampled costs `1, ..., 8` with `number_top_cost = 5` give the
stance cost 3 in the grid and in the lattice `computeBodyCost`. -/
theorem stanceCost_mean_of_lowest_witness :
    rowGrid.computeBodyCost 9 (poseVertex 0 0 0) = some 3 ∧
    (rowLattice.computeBodyCost 9 ⟨0, 0, 0⟩).map Prod.snd = some 3 ∧
    stanceCost rowTerrain yawZeroLibm 5 (115 / 100) ⟨0, 0, 0⟩ rowArea 9 =
      some ((((collectedQueue rowTerrain yawZeroLibm ⟨0, 0, 0⟩ rowArea).take
          (min (5 : Int).toNat
            (collectedQueue rowTerrain yawZeroLibm ⟨0, 0, 0⟩ rowArea).length)).map Prod.fst).sum /
        ((min (5 : Int).toNat
          (collectedQueue rowTerrain yawZeroLibm ⟨0, 0, 0⟩ rowArea).length : Nat) : ℚ)) :=
  ⟨rowGrid_computeBodyCost, rowLattice_computeBodyCost,
   (stanceCost_mean_of_lowest rowTerrain yawZeroLibm 5 (115 / 100) ⟨0, 0, 0⟩ rowArea 0 0 9
      (by norm_num [rowArea]) (by norm_num) (by norm_num)
      (by norm_num [sampleCount, loopValues, rowArea])
      (by norm_num [sampleCount, loopValues, rowArea])
      rowTerrain_sample
      (by norm_num [areaFuel, sampleCount, rowArea, show Int.toNat 7 = 7 from rfl])).2.2.1⟩

/-! ## Stance cost of unperceived areas -/

theorem foldl_invariant_mem {α β : Type} (P : β → Prop) (g : β → α → β) :
    ∀ (l : List α) (b : β), (∀ b2, ∀ a ∈ l, P b2 → P (g b2 a)) → P b → P (l.foldl g b) := by
  intro l
  induction l with
  | nil => intro b _ hb; exact hb
  | cons a l ih =>
    intro b hg hb
    exact ih (g b a) (fun b2 a2 ha2 => hg b2 a2 (List.mem_cons_of_mem a ha2))
      (hg b a (List.mem_cons_self a l) hb)

theorem insertSample_off_cell (t : TerrainMap) (m : Libm) (state : Vector3d) (y x : ℚ)
    (q : List (Weight × Vertex))
    (h : t.count (t.getTerrainSpaceModel.coordToVertex (rotatedPoint m state x y)) = 0) :
    insertSample t m state y x q = q := by
  unfold insertSample
  unfold TerrainMap.count at h
  split
  · rename_i d hd
    simp [hd] at h
  · rfl

theorem collectedQueue_nil (t : TerrainMap) (m : Libm) (state : Vector3d) (area : SearchArea)
    (h : noSampleOnCell t m state area) : collectedQueue t m state area = [] := by
  unfold collectedQueue
  refine foldl_invariant_mem (fun q : List (Weight × Vertex) => q = []) _ _ _ ?_ rfl
  intro q y hy hq
  refine foldl_invariant_mem (fun q : List (Weight × Vertex) => q = []) _ _ _ ?_ hq
  intro q1 x hx hq1
  rw [insertSample_off_cell t m state y x q1 (h y hy x hx)]
  exact hq1

theorem averageLowest_nil (n : Int) (uf avg : ℚ) : averageLowest n uf avg [] = uf * avg := by
  unfold averageLowest
  simp only [List.length_nil]
  split_ifs with h1 h2 h3
  · exact zero_add _
  · exact absurd rfl h2
  · exact zero_add _
  · omega

theorem areaFuel_le_areasFuel {a : SearchArea} :
    ∀ {areas : List SearchArea}, a ∈ areas → areaFuel a ≤ areasFuel areas := by
  intro areas
  induction areas with
  | nil => intro h; exact absurd h (List.not_mem_nil a)
  | cons b rest ih =>
    intro h
    unfold areasFuel
    rcases List.mem_cons.mp h with rfl | h
    · exact le_max_left _ _
    · exact le_trans (ih h) (le_max_right _ _)

theorem sumStanceCosts_missing (t : TerrainMap) (m : Libm) (n : Int) (uf : ℚ)
    (state : Vector3d) (fuel : Nat) :
    ∀ (areas : List SearchArea) (acc : ℚ),
      (∀ a ∈ areas, 0 < a.resolution) → (∀ a ∈ areas, noSampleOnCell t m state a) →
      (∀ a ∈ areas, areaFuel a ≤ fuel) →
      sumStanceCosts t m n uf state fuel areas acc =
        some (acc + (areas.length : ℚ) * (uf * t.getAverageCostOfTerrain)) := by
  intro areas
  induction areas with
  | nil => intro acc _ _ _; simp [sumStanceCosts]
  | cons a rest ih =>
    intro acc hres hmiss hfuel
    have ha := List.mem_cons_self a rest
    rw [sumStanceCosts, stanceCost, stanceCostQueue_eq t m state a (hres a ha) fuel (hfuel a ha),
      collectedQueue_nil t m state a (hmiss a ha), Option.map_some', averageLowest_nil,
      Option.some_bind,
      ih _ (fun b hb => hres b (List.mem_cons_of_mem a hb))
        (fun b hb => hmiss b (List.mem_cons_of_mem a hb))
        (fun b hb => hfuel b (List.mem_cons_of_mem a hb))]
    congr 1
    simp only [List.length_cons]
    push_cast
    ring

theorem meanStanceCost_missing (t : TerrainMap) (m : Libm) (n : Int) (uf : ℚ)
    (state : Vector3d) (fuel : Nat) (areas : List SearchArea) (hne : areas ≠ [])
    (hres : ∀ a ∈ areas, 0 < a.resolution) (hmiss : ∀ a ∈ areas, noSampleOnCell t m state a)
    (hfuel : areasFuel areas ≤ fuel) :
    meanStanceCost t m n uf state areas fuel = some (uf * t.getAverageCostOfTerrain) := by
  unfold meanStanceCost
  rw [sumStanceCosts_missing t m n uf state fuel areas 0 hres hmiss
    (fun a ha => le_trans (areaFuel_le_areasFuel ha) hfuel), Option.map_some']
  congr 1
  have hlen : (areas.length : ℚ) ≠ 0 := by
    have := List.length_pos.mpr hne
    exact_mod_cast this.ne'
  field_simp

/-- C10: for a non-empty list of stance areas of positive resolution, none of whose
samples falls on a cell of the terrain data map, and with no feature registered,
the grid and the lattice `computeBodyCost` return
`uncertainty_factor * average_cost_of_terrain` for every sufficient fuel, whatever
the number of areas. -/
theorem computeBodyCost_all_missing (g : GridBasedBodyAdjacency) (l : LatticeBasedBodyAdjacency)
    (state_vertex : Vertex) (state : Vector3d) (fuel : Nat)
    (hg_areas : g.stance_areas_ ≠ []) (hg_features : g.features_ = [])
    (hg_res : ∀ a ∈ g.stance_areas_, 0 < a.resolution)
    (hg_miss : ∀ a ∈ g.stance_areas_,
      noSampleOnCell g.terrain_ g.libm
        (g.terrain_.getTerrainSpaceModel.vertexToState state_vertex) a)
    (hg_fuel : areasFuel g.stance_areas_ ≤ fuel)
    (hl_areas : l.robot_.getFootstepSearchAreas l.current_action_ ≠ [])
    (hl_features : l.features_ = [])
    (hl_res : ∀ a ∈ l.robot_.getFootstepSearchAreas l.current_action_, 0 < a.resolution)
    (hl_miss : ∀ a ∈ l.robot_.getFootstepSearchAreas l.current_action_,
      noSampleOnCell l.terrain_ l.libm state a)
    (hl_fuel : areasFuel (l.robot_.getFootstepSearchAreas l.current_action_) ≤ fuel) :
    g.computeBodyCost fuel state_vertex =
        some (g.uncertainty_factor_ * g.terrain_.getAverageCostOfTerrain) ∧
    (l.computeBodyCost fuel state).map Prod.snd =
        some (l.uncertainty_factor_ * l.terrain_.getAverageCostOfTerrain) := by
  constructor
  · unfold GridBasedBodyAdjacency.computeBodyCost
    simp only
    rw [meanStanceCost_missing _ _ _ _ _ fuel _ hg_areas hg_res hg_miss hg_fuel,
      Option.map_some', hg_features]
    rfl
  · unfold LatticeBasedBodyAdjacency.computeBodyCost
    simp only
    rw [meanStanceCost_missing _ _ _ _ _ fuel _ hl_areas hl_res hl_miss hl_fuel,
      Option.map_some', Option.map_some', hl_features]
    rfl

theorem emptyTerrain_noSample (state : Vector3d) (area : SearchArea) :
    noSampleOnCell emptyTerrain yawZeroLibm state area := by
  intro y _ x _
  simp [emptyTerrain, unitTerrain, TerrainMap.count, TerrainMap.find]

/-- Witness of C10: empty terrain data map, a square stance area of side 0.2,
average terrain cost 2.0 and uncertainty factor 1.15 give the stance cost 2.30. -/
theorem computeBodyCost_all_missing_witness :
    emptyGrid.computeBodyCost 4 (poseVertex 0 0 0) = some (23 / 10) ∧
    (emptyLattice.computeBodyCost 4 ⟨0, 0, 0⟩).map Prod.snd = some (23 / 10) := by
  have h := computeBodyCost_all_missing emptyGrid emptyLattice (poseVertex 0 0 0) ⟨0, 0, 0⟩ 4
    (by simp [emptyGrid]) rfl
    (by simp [emptyGrid, squareArea])
    (fun a _ => emptyTerrain_noSample _ a)
    (by norm_num [emptyGrid, areasFuel, areaFuel, sampleCount, squareArea,
      show Int.toNat 2 = 2 from rfl])
    (by simp [emptyLattice, plainRobot]) rfl
    (by simp [emptyLattice, plainRobot, squareArea])
    (fun a _ => emptyTerrain_noSample _ a)
    (by norm_num [emptyLattice, plainRobot, areasFuel, areaFuel, sampleCount, squareArea,
      show Int.toNat 2 = 2 from rfl])
  have hv : (115 / 100 : ℚ) * 2 = 23 / 10 := by norm_num
  exact ⟨h.1.trans (congrArg some hv), h.2.trans (congrArg some hv)⟩

/-! ## The adjacency map -/

theorem edgesOf_pushBack_same (m : AdjacencyMap) (k : Vertex) (e : Edge) :
    edgesOf (adjacencyPushBack m k e) k = edgesOf m k ++ [e] := by
  induction m with
  | nil => simp [adjacencyPushBack, edgesOf]
  | cons h rest ih =>
    obtain ⟨k2, es⟩ := h
    unfold adjacencyPushBack
    by_cases hk : k2 = k
    · simp [hk, edgesOf]
    · simp [hk, edgesOf, ih]

theorem edgesOf_pushBack_other (m : AdjacencyMap) (k k2 : Vertex) (e : Edge) (h : k2 ≠ k) :
    edgesOf (adjacencyPushBack m k e) k2 = edgesOf m k2 := by
  induction m with
  | nil => simp [adjacencyPushBack, edgesOf, h.symm]
  | cons hd rest ih =>
    obtain ⟨k3, es⟩ := hd
    unfold adjacencyPushBack
    by_cases hk : k3 = k
    · subst hk
      simp [edgesOf, h.symm]
    · by_cases hk2 : k3 = k2
      · subst hk2
        simp [hk, edgesOf]
      · simp [hk, hk2, edgesOf, ih]

theorem edgesOf_pushBack_mono (m : AdjacencyMap) (k k2 : Vertex) (e x : Edge)
    (h : x ∈ edgesOf m k2) : x ∈ edgesOf (adjacencyPushBack m k e) k2 := by
  by_cases hk : k2 = k
  · subst hk
    rw [edgesOf_pushBack_same]
    exact List.mem_append_left _ h
  · rw [edgesOf_pushBack_other m k k2 e hk]
    exact h

theorem edgesOf_pushBack_mem (m : AdjacencyMap) (k : Vertex) (e : Edge) :
    e ∈ edgesOf (adjacencyPushBack m k e) k := by
  rw [edgesOf_pushBack_same]
  simp

theorem pushNeighborEdges_mono (sv : Vertex) (c : Weight) (k : Vertex) (x : Edge) :
    ∀ (ns : List Vertex) (m : AdjacencyMap), x ∈ edgesOf m k →
      x ∈ edgesOf (pushNeighborEdges sv c ns m) k := by
  intro ns
  induction ns with
  | nil => intro m h; exact h
  | cons n rest ih =>
    intro m h
    exact ih _ (edgesOf_pushBack_mono m n k (sv, c) x h)

theorem pushNeighborEdges_mem (sv : Vertex) (c : Weight) (n : Vertex) :
    ∀ (ns : List Vertex) (m : AdjacencyMap), n ∈ ns →
      (sv, c) ∈ edgesOf (pushNeighborEdges sv c ns m) n := by
  intro ns
  induction ns with
  | nil => intro m h; exact absurd h (List.not_mem_nil n)
  | cons n2 rest ih =>
    intro m h
    rcases List.mem_cons.mp h with rfl | h
    · exact pushNeighborEdges_mono sv c n (sv, c) rest _ (edgesOf_pushBack_mem m n (sv, c))
    · exact ih _ h

theorem sumStanceCosts_isSome (t : TerrainMap) (m : Libm) (n : Int) (uf : ℚ)
    (state : Vector3d) (fuel : Nat) :
    ∀ (areas : List SearchArea) (acc : ℚ),
      (∀ a ∈ areas, 0 < a.resolution) → areasFuel areas ≤ fuel →
      ∃ c, sumStanceCosts t m n uf state fuel areas acc = some c := by
  intro areas
  induction areas with
  | nil => intro acc _ _; exact ⟨acc, rfl⟩
  | cons a rest ih =>
    intro acc hres hfuel
    have ha := List.mem_cons_self a rest
    unfold areasFuel at hfuel
    rw [sumStanceCosts, stanceCost,
      stanceCostQueue_eq t m state a (hres a ha) fuel (le_trans (le_max_left _ _) hfuel),
      Option.map_some', Option.some_bind]
    exact ih _ (fun b hb => hres b (List.mem_cons_of_mem a hb))
      (le_trans (le_max_right _ _) hfuel)

theorem computeBodyCost_isSome (g : GridBasedBodyAdjacency) (fuel : Nat) (sv : Vertex)
    (hres : ∀ a ∈ g.stance_areas_, 0 < a.resolution) (hfuel : areasFuel g.stance_areas_ ≤ fuel) :
    ∃ c, g.computeBodyCost fuel sv = some c := by
  unfold GridBasedBodyAdjacency.computeBodyCost meanStanceCost
  obtain ⟨c, hc⟩ := sumStanceCosts_isSome g.terrain_ g.libm g.number_top_cost_
    g.uncertainty_factor_ (g.terrain_.getTerrainSpaceModel.vertexToState sv) fuel
    g.stance_areas_ 0 hres hfuel
  simp only [hc, Option.map_some']
  exact ⟨_, rfl⟩

theorem cellCost_isSome (g : GridBasedBodyAdjacency) (fuel : Nat) (e : Vertex × TerrainData)
    (sv : Vertex) (h : samplingEnds g.is_stance_adjacency_ g.stance_areas_ fuel) :
    ∃ c, cellCost g fuel e sv = some c := by
  unfold cellCost GridBasedBodyAdjacency.isStanceAdjacency
  rcases h with h | ⟨h1, h2⟩
  · simp [h]
  · cases hs : g.is_stance_adjacency_ with
    | false => simp
    | true =>
      simp only [Bool.not_true, Bool.false_eq_true, if_false]
      exact computeBodyCost_isSome g fuel sv h1 h2

theorem terrainLoop_step (g : GridBasedBodyAdjacency) (fuel : Nat) (yaw : ℚ)
    (e : Vertex × TerrainData) (rest : List (Vertex × TerrainData)) (m : AdjacencyMap) (c : ℚ)
    (hc : cellCost g fuel e (cellStateVertex g.terrain_.getTerrainSpaceModel yaw e.1) = some c) :
    g.terrainLoop fuel yaw (e :: rest) m =
      g.terrainLoop fuel yaw rest
        (pushNeighborEdges (cellStateVertex g.terrain_.getTerrainSpaceModel yaw e.1) c
          (g.searchNeighbors [] (cellStateVertex g.terrain_.getTerrainSpaceModel yaw e.1)) m) := by
  unfold cellCost at hc
  rw [GridBasedBodyAdjacency.terrainLoop]
  cases hs : (!g.isStanceAdjacency) with
  | true =>
    rw [hs] at hc
    simp only [if_true, Option.some.injEq] at hc
    simp only [if_true, hc]
  | false =>
    rw [hs] at hc
    simp only [Bool.false_eq_true, if_false] at hc
    simp only [Bool.false_eq_true, if_false, hc, Option.some_bind]

theorem terrainLoop_spec (g : GridBasedBodyAdjacency) (fuel : Nat) (yaw : ℚ)
    (h : samplingEnds g.is_stance_adjacency_ g.stance_areas_ fuel) :
    ∀ (entries : List (Vertex × TerrainData)) (m : AdjacencyMap),
      ∃ m2, g.terrainLoop fuel yaw entries m = some m2 ∧
        (∀ k x, x ∈ edgesOf m k → x ∈ edgesOf m2 k) ∧
        ∀ e ∈ entries,
          ∀ n ∈ g.searchNeighbors [] (cellStateVertex g.terrain_.getTerrainSpaceModel yaw e.1),
            ∃ c, cellCost g fuel e (cellStateVertex g.terrain_.getTerrainSpaceModel yaw e.1)
                = some c ∧
              (cellStateVertex g.terrain_.getTerrainSpaceModel yaw e.1, c) ∈ edgesOf m2 n := by
  intro entries
  induction entries with
  | nil =>
    intro m
    exact ⟨m, rfl, fun _ _ hx => hx, fun e he => absurd he (List.not_mem_nil e)⟩
  | cons e rest ih =>
    intro m
    obtain ⟨c, hc⟩ := cellCost_isSome g fuel e
      (cellStateVertex g.terrain_.getTerrainSpaceModel yaw e.1) h
    obtain ⟨m2, h1, h2, h3⟩ := ih
      (pushNeighborEdges (cellStateVertex g.terrain_.getTerrainSpaceModel yaw e.1) c
        (g.searchNeighbors [] (cellStateVertex g.terrain_.getTerrainSpaceModel yaw e.1)) m)
    refine ⟨m2, by rw [terrainLoop_step g fuel yaw e rest m c hc]; exact h1, ?_, ?_⟩
    · intro k x hx
      exact h2 k x (pushNeighborEdges_mono _ _ k x _ m hx)
    · intro e2 he2 n hn
      rcases List.mem_cons.mp he2 with rfl | he2
      · exact ⟨c, hc, h2 n _ (pushNeighborEdges_mem _ c n _ m hn)⟩
      · exact h3 e2 he2 n hn

theorem encodeIndex_values :
    encodeIndex 0 = 0 ∧ encodeIndex 1 = 2 ∧ encodeIndex (-1) = 1 ∧ encodeIndex 2 = 4 := by
  decide

theorem decodeIndex_values :
    decodeIndex 0 = 0 ∧ decodeIndex 1 = -1 ∧ decodeIndex 2 = 1 ∧ decodeIndex 4 = 2 := by
  decide

/-- C6 (counterexample): on the two-cell terrain (cell `(0,0)` of cost 1, cell `(1,0)`
of cost 2, stance adjacency disabled) the state vertex of the cell `(0,0)` has the
state vertex of `(1,0)` as neighbour, yet the only edge stored under it after
`computeAdjacencyMap` on an empty map has weight 2, the cost of the neighbour: no
edge with target the neighbour and weight 1, the cost of the cell itself. -/
theorem computeAdjacencyMap_edge_under_cell_counterexample :
    (cellVertex 0 0, (⟨1, 0⟩ : TerrainData)) ∈ twoCellGrid.terrain_.getTerrainDataMap ∧
    cellStateVertex twoCellGrid.terrain_.getTerrainSpaceModel
      (sourceYaw twoCellGrid.terrain_.getTerrainSpaceModel (poseVertex 0 0 0)) (cellVertex 0 0)
      = poseVertex 0 0 0 ∧
    poseVertex 1 0 0 ∈ twoCellGrid.searchNeighbors [] (poseVertex 0 0 0) ∧
    (twoCellGrid.computeAdjacencyMap 0 false 0 0 [] (poseVertex 0 0 0) (poseVertex 0 0 0)).map
        (fun r => edgesOf r.2 (poseVertex 0 0 0)) = some [(poseVertex 1 0 0, 2)] ∧
    (poseVertex 1 0 0, (1 : ℚ)) ∉ [(poseVertex 1 0 0, (2 : ℚ))] := by
  refine ⟨?_, ?_, ?_, ?_, ?_⟩
  · simp [twoCellGrid, GridBasedBodyAdjacency.reset, twoCellTerrain, unitTerrain]
  · norm_num [cellStateVertex, sourceYaw, twoCellGrid, GridBasedBodyAdjacency.reset,
      twoCellTerrain, unitTerrain, unitSpaceModel, poseVertex, cellVertex, Nat.unpair_pair,
      encodeIndex_decode]
  · norm_num [GridBasedBodyAdjacency.searchNeighbors, twoCellGrid, GridBasedBodyAdjacency.reset,
      twoCellTerrain, unitTerrain, unitSpaceModel, poseVertex, cellVertex, rings, searchRing,
      probeFrom, directions, probeDirection, TerrainMap.count, TerrainMap.find, searchingKey,
      neighborStateVertex, encodeIndex_decode, encodeIndex_inj, Nat.unpair_pair,
      List.range_succ]
  · norm_num [GridBasedBodyAdjacency.computeAdjacencyMap,
      GridBasedBodyAdjacency.getTheClosestStartAndGoalVertex, presenceLoop, closestLoop,
      GridBasedBodyAdjacency.terrainLoop, pushNeighborEdges, adjacencyPushBack, edgesOf,
      cellStateVertex, sourceYaw, GridBasedBodyAdjacency.isStanceAdjacency,
      GridBasedBodyAdjacency.searchNeighbors, twoCellGrid, GridBasedBodyAdjacency.reset,
      twoCellTerrain, unitTerrain, unitSpaceModel, poseVertex, cellVertex, rings, searchRing,
      probeFrom, directions, probeDirection, TerrainMap.count, TerrainMap.find, searchingKey,
      neighborStateVertex, encodeIndex_values, decodeIndex_values, Nat.pair, Nat.unpair,
      List.range_succ]
  · simp

/-- C6 (amended): after `computeAdjacencyMap` with terrain information present, for
every entry `(v, data)` of the terrain data map, with `sv` the state vertex of `v`
at the quantised yaw of the source, and for every neighbour `n` in
`searchNeighbors(sv)`, the edge sequence stored under `n` contains an edge with
target `sv` and weight `cost(v)`: the stored terrain cost when stance adjacency is
disabled, the body cost at `sv` otherwise. -/
theorem computeAdjacencyMap_edges_into_cell (g : GridBasedBodyAdjacency) (fuel : Nat)
    (start_flag0 : Bool) (closest_source0 closest_target0 : Vertex)
    (adjacency_map : AdjacencyMap) (source target : Vertex)
    (hinfo : g.terrain_.isTerrainInformation = true)
    (hends : samplingEnds g.is_stance_adjacency_
      (g.robot_.getFootstepSearchAreas Vector3d.zero) fuel) :
    ∃ (g1 : GridBasedBodyAdjacency) (m : AdjacencyMap),
      g.computeAdjacencyMap fuel start_flag0 closest_source0 closest_target0 adjacency_map
          source target = some (g1, m) ∧
      g1 = { g with stance_areas_ := g.robot_.getFootstepSearchAreas Vector3d.zero } ∧
      ∀ e ∈ g.terrain_.getTerrainDataMap,
        ∀ n ∈ g.searchNeighbors []
            (cellStateVertex g.terrain_.getTerrainSpaceModel
              (sourceYaw g.terrain_.getTerrainSpaceModel source) e.1),
          ∃ c, cellCost g1 fuel e
                (cellStateVertex g.terrain_.getTerrainSpaceModel
                  (sourceYaw g.terrain_.getTerrainSpaceModel source) e.1) = some c ∧
            (cellStateVertex g.terrain_.getTerrainSpaceModel
              (sourceYaw g.terrain_.getTerrainSpaceModel source) e.1, c) ∈ edgesOf m n := by
  unfold GridBasedBodyAdjacency.computeAdjacencyMap
  simp only [hinfo, if_true]
  obtain ⟨m2, h1, _, h3⟩ := terrainLoop_spec
    { g with stance_areas_ := g.robot_.getFootstepSearchAreas Vector3d.zero } fuel
    (sourceYaw g.terrain_.getTerrainSpaceModel source) hends g.terrain_.getTerrainDataMap
    (if (GridBasedBodyAdjacency.getTheClosestStartAndGoalVertex
          { g with stance_areas_ := g.robot_.getFootstepSearchAreas Vector3d.zero }
          start_flag0 closest_source0 closest_target0 source target).2 ≠ target then
        adjacencyPushBack
          (if (GridBasedBodyAdjacency.getTheClosestStartAndGoalVertex
                { g with stance_areas_ := g.robot_.getFootstepSearchAreas Vector3d.zero }
                start_flag0 closest_source0 closest_target0 source target).1 ≠ source then
              adjacencyPushBack adjacency_map source
                ((GridBasedBodyAdjacency.getTheClosestStartAndGoalVertex
                  { g with stance_areas_ := g.robot_.getFootstepSearchAreas Vector3d.zero }
                  start_flag0 closest_source0 closest_target0 source target).1, 0)
            else adjacency_map)
          (GridBasedBodyAdjacency.getTheClosestStartAndGoalVertex
            { g with stance_areas_ := g.robot_.getFootstepSearchAreas Vector3d.zero }
            start_flag0 closest_source0 closest_target0 source target).2 (target, 0)
      else
        (if (GridBasedBodyAdjacency.getTheClosestStartAndGoalVertex
              { g with stance_areas_ := g.robot_.getFootstepSearchAreas Vector3d.zero }
              start_flag0 closest_source0 closest_target0 source target).1 ≠ source then
            adjacencyPushBack adjacency_map source
              ((GridBasedBodyAdjacency.getTheClosestStartAndGoalVertex
                { g with stance_areas_ := g.robot_.getFootstepSearchAreas Vector3d.zero }
                start_flag0 closest_source0 closest_target0 source target).1, 0)
          else adjacency_map))
  exact ⟨_, m2, by rw [h1]; rfl, rfl, h3⟩

/-- Witness of the amended C6 on the two-cell terrain. -/
theorem computeAdjacencyMap_edges_into_cell_witness :
    ∃ (g1 : GridBasedBodyAdjacency) (m : AdjacencyMap),
      twoCellGrid.computeAdjacencyMap 0 false 0 0 [] (poseVertex 0 0 0) (poseVertex 0 0 0)
        = some (g1, m) ∧
      g1 = { twoCellGrid with
        stance_areas_ := twoCellGrid.robot_.getFootstepSearchAreas Vector3d.zero } ∧
      ∀ e ∈ twoCellGrid.terrain_.getTerrainDataMap,
        ∀ n ∈ twoCellGrid.searchNeighbors []
            (cellStateVertex twoCellGrid.terrain_.getTerrainSpaceModel
              (sourceYaw twoCellGrid.terrain_.getTerrainSpaceModel (poseVertex 0 0 0)) e.1),
          ∃ c, cellCost g1 0 e
                (cellStateVertex twoCellGrid.terrain_.getTerrainSpaceModel
                  (sourceYaw twoCellGrid.terrain_.getTerrainSpaceModel (poseVertex 0 0 0)) e.1)
                = some c ∧
            (cellStateVertex twoCellGrid.terrain_.getTerrainSpaceModel
              (sourceYaw twoCellGrid.terrain_.getTerrainSpaceModel (poseVertex 0 0 0)) e.1, c)
              ∈ edgesOf m n :=
  computeAdjacencyMap_edges_into_cell twoCellGrid 0 false 0 0 [] (poseVertex 0 0 0)
    (poseVertex 0 0 0) rfl (Or.inl rfl)

/-- C7 (evaluation at the failing input): terrain with the single cell `(2,2)`,
target the state vertex of `(2,2,0)`, empty map. When the uninitialised flag
`is_there_start_vertex` reads as false, the edge leaving the source goes to the key
of the terrain map (the environment vertex of the cell), whatever the yaw of the
source: for the source `(0,0,0)` and for the source `(0,0,1)` alike, although the
state vertices of `(2,2,0)` and `(2,2,1)` are other vertices. When the flag reads
as true, `closest_source` is never assigned, and if it holds the value of the
source no edge leaves the source at all. -/
theorem computeAdjacencyMap_source_snapping_defect :
    (farCellGrid.computeAdjacencyMap 0 false 0 0 [] (poseVertex 0 0 0) (poseVertex 2 2 0)).map
        Prod.snd =
      some [(poseVertex 0 0 0, [(cellVertex 2 2, 0)]), (cellVertex 2 2, [(poseVertex 2 2 0, 0)])] ∧
    (farCellGrid.computeAdjacencyMap 0 false 0 0 [] (poseVertex 0 0 1) (poseVertex 2 2 0)).map
        (fun r => edgesOf r.2 (poseVertex 0 0 1)) = some [(cellVertex 2 2, 0)] ∧
    cellVertex 2 2 ≠ poseVertex 2 2 0 ∧ cellVertex 2 2 ≠ poseVertex 2 2 1 ∧
    (farCellGrid.computeAdjacencyMap 0 true (poseVertex 0 0 0) 0 [] (poseVertex 0 0 0)
        (poseVertex 2 2 0)).map (fun r => edgesOf r.2 (poseVertex 0 0 0)) = some [] := by
  refine ⟨?_, ?_, ?_, ?_, ?_⟩
  · norm_num [GridBasedBodyAdjacency.computeAdjacencyMap,
      GridBasedBodyAdjacency.getTheClosestStartAndGoalVertex, presenceLoop, closestLoop,
      closerThan, squaredDistance,
      GridBasedBodyAdjacency.terrainLoop, pushNeighborEdges, adjacencyPushBack, cellStateVertex,
      sourceYaw, GridBasedBodyAdjacency.isStanceAdjacency,
      GridBasedBodyAdjacency.searchNeighbors, farCellGrid, GridBasedBodyAdjacency.reset,
      farCellTerrain, unitTerrain, unitSpaceModel, poseVertex, cellVertex, rings, searchRing,
      probeFrom, directions, probeDirection, TerrainMap.count, TerrainMap.find, searchingKey,
      neighborStateVertex, encodeIndex_values, decodeIndex_values, Nat.pair, Nat.unpair,
      List.range_succ]
  · norm_num [GridBasedBodyAdjacency.computeAdjacencyMap,
      GridBasedBodyAdjacency.getTheClosestStartAndGoalVertex, presenceLoop, closestLoop,
      closerThan, squaredDistance, edgesOf,
      GridBasedBodyAdjacency.terrainLoop, pushNeighborEdges, adjacencyPushBack, cellStateVertex,
      sourceYaw, GridBasedBodyAdjacency.isStanceAdjacency,
      GridBasedBodyAdjacency.searchNeighbors, farCellGrid, GridBasedBodyAdjacency.reset,
      farCellTerrain, unitTerrain, unitSpaceModel, poseVertex, cellVertex, rings, searchRing,
      probeFrom, directions, probeDirection, TerrainMap.count, TerrainMap.find, searchingKey,
      neighborStateVertex, encodeIndex_values, decodeIndex_values, Nat.pair, Nat.unpair,
      List.range_succ]
  · norm_num [poseVertex, cellVertex, encodeIndex_values, Nat.pair]
  · norm_num [poseVertex, cellVertex, encodeIndex_values, Nat.pair]
  · norm_num [GridBasedBodyAdjacency.computeAdjacencyMap,
      GridBasedBodyAdjacency.getTheClosestStartAndGoalVertex, presenceLoop, closestLoop,
      closerThan, squaredDistance, edgesOf,
      GridBasedBodyAdjacency.terrainLoop, pushNeighborEdges, adjacencyPushBack, cellStateVertex,
      sourceYaw, GridBasedBodyAdjacency.isStanceAdjacency,
      GridBasedBodyAdjacency.searchNeighbors, farCellGrid, GridBasedBodyAdjacency.reset,
      farCellTerrain, unitTerrain, unitSpaceModel, poseVertex, cellVertex, rings, searchRing,
      probeFrom, directions, probeDirection, TerrainMap.count, TerrainMap.find, searchingKey,
      neighborStateVertex, encodeIndex_values, decodeIndex_values, Nat.pair, Nat.unpair,
      List.range_succ]

/-! ## Snapping of the target -/

theorem presenceLoop_absent_target (source target : Vertex) :
    ∀ (entries : List (Vertex × TerrainData)) (st : PresenceState),
      target ∉ entries.map Prod.fst → st.is_there_goal_vertex = false →
      ∃ st2, presenceLoop source target entries st = Sum.inl st2 ∧
        st2.is_there_goal_vertex = false ∧
        st2.vertex_map = st.vertex_map ++ entries.map Prod.fst := by
  intro entries
  induction entries with
  | nil =>
    intro st _ hst
    exact ⟨st, rfl, hst, by simp⟩
  | cons e rest ih =>
    intro st hmem hst
    rw [List.map_cons, List.mem_cons, not_or] at hmem
    obtain ⟨hne, hrest⟩ := hmem
    unfold presenceLoop
    simp only [if_neg hne]
    by_cases hs : source = e.1
    · simp only [if_pos hs, hst, Bool.and_false, Bool.false_eq_true, if_false]
      obtain ⟨st2, h1, h2, h3⟩ := ih
        { is_there_start_vertex := true, is_there_goal_vertex := false,
          closest_source := e.1, closest_target := st.closest_target,
          vertex_map := st.vertex_map ++ [e.1] } hrest rfl
      exact ⟨st2, h1, h2, by rw [h3]; simp⟩
    · simp only [if_neg hs, hst, Bool.and_false, Bool.false_eq_true, if_false]
      obtain ⟨st2, h1, h2, h3⟩ := ih
        { st with is_there_goal_vertex := false, vertex_map := st.vertex_map ++ [e.1] }
        hrest rfl
      exact ⟨st2, h1, h2, by rw [h3]; simp⟩

theorem closestLoop_some (sm : SpaceModel) (origin : Vector3d) :
    ∀ (l : List Vertex) (v : Vertex),
      ((closestLoop sm origin l
            (v, some (squaredDistance origin.head2 (sm.vertexToState v).head2))).1 = v ∨
        (closestLoop sm origin l
            (v, some (squaredDistance origin.head2 (sm.vertexToState v).head2))).1 ∈ l) ∧
      squaredDistance origin.head2 (sm.vertexToState (closestLoop sm origin l
            (v, some (squaredDistance origin.head2 (sm.vertexToState v).head2))).1).head2 ≤
        squaredDistance origin.head2 (sm.vertexToState v).head2 ∧
      ∀ k ∈ l,
        squaredDistance origin.head2 (sm.vertexToState (closestLoop sm origin l
              (v, some (squaredDistance origin.head2 (sm.vertexToState v).head2))).1).head2 ≤
          squaredDistance origin.head2 (sm.vertexToState k).head2 := by
  intro l
  induction l with
  | nil =>
    intro v
    exact ⟨Or.inl rfl, le_refl _, fun k hk => absurd hk (List.not_mem_nil k)⟩
  | cons a rest ih =>
    intro v
    unfold closestLoop
    by_cases hlt : squaredDistance origin.head2 (sm.vertexToState a).head2 <
        squaredDistance origin.head2 (sm.vertexToState v).head2
    · have hc : closerThan (squaredDistance origin.head2 (sm.vertexToState a).head2)
          (some (squaredDistance origin.head2 (sm.vertexToState v).head2)) = true := by
        simpa [closerThan] using hlt
      simp only [hc, if_true]
      obtain ⟨h1, h2, h3⟩ := ih a
      refine ⟨?_, ?_, ?_⟩
      · right
        rcases h1 with h1 | h1
        · rw [h1]; exact List.mem_cons_self a rest
        · exact List.mem_cons_of_mem a h1
      · exact le_trans h2 hlt.le
      · intro k hk
        rcases List.mem_cons.mp hk with rfl | hk
        · exact h2
        · exact h3 k hk
    · have hc : closerThan (squaredDistance origin.head2 (sm.vertexToState a).head2)
          (some (squaredDistance origin.head2 (sm.vertexToState v).head2)) = false := by
        simpa [closerThan] using hlt
      simp only [hc, Bool.false_eq_true, if_false]
      obtain ⟨h1, h2, h3⟩ := ih v
      refine ⟨?_, h2, ?_⟩
      · rcases h1 with h1 | h1
        · exact Or.inl h1
        · exact Or.inr (List.mem_cons_of_mem a h1)
      · intro k hk
        rcases List.mem_cons.mp hk with rfl | hk
        · exact le_trans h2 (not_lt.mp hlt)
        · exact h3 k hk

theorem closestLoop_none (sm : SpaceModel) (origin : Vector3d) (l : List Vertex)
    (hl : l ≠ []) :
    (closestLoop sm origin l (0, none)).1 ∈ l ∧
    ∀ k ∈ l,
      squaredDistance origin.head2 (sm.vertexToState (closestLoop sm origin l (0, none)).1).head2 ≤
        squaredDistance origin.head2 (sm.vertexToState k).head2 := by
  cases l with
  | nil => exact absurd rfl hl
  | cons a rest =>
    have h0 : closestLoop sm origin (a :: rest) (0, none) =
        closestLoop sm origin rest
          (a, some (squaredDistance origin.head2 (sm.vertexToState a).head2)) := by
      simp [closestLoop, closerThan]
    rw [h0]
    obtain ⟨h1, h2, h3⟩ := closestLoop_some sm origin rest a
    refine ⟨?_, ?_⟩
    · rcases h1 with h1 | h1
      · rw [h1]; exact List.mem_cons_self a rest
      · exact List.mem_cons_of_mem a h1
    · intro k hk
      rcases List.mem_cons.mp hk with rfl | hk
      · exact h2
      · exact h3 k hk

theorem closest_target_eq (g : GridBasedBodyAdjacency) (start_flag0 : Bool)
    (closest_source0 closest_target0 source target : Vertex)
    (hinfo : g.terrain_.isTerrainInformation = true)
    (htarget : target ∉ g.terrain_.getTerrainDataMap.map Prod.fst) :
    (g.getTheClosestStartAndGoalVertex start_flag0 closest_source0 closest_target0
        source target).2 =
      (closestLoop g.terrain_.getTerrainSpaceModel
        (g.terrain_.getTerrainSpaceModel.vertexToState target)
        (g.terrain_.getTerrainDataMap.map Prod.fst) (0, none)).1 := by
  unfold GridBasedBodyAdjacency.getTheClosestStartAndGoalVertex
  simp only [hinfo, if_true]
  obtain ⟨st2, h1, h2, h3⟩ := presenceLoop_absent_target source target
    g.terrain_.getTerrainDataMap
    { is_there_start_vertex := start_flag0, is_there_goal_vertex := false,
      closest_source := closest_source0, closest_target := closest_target0,
      vertex_map := [] } htarget rfl
  rw [h1]
  simp only [h2, h3, List.nil_append, Bool.not_false, Bool.and_true]
  cases st2.is_there_start_vertex <;> simp

/-- The snapping of the target as the code performs it: with terrain information
present, a non-empty terrain data map and a target that is not a key of it,
`computeAdjacencyMap` returns (for every fuel that lets the sampling loops end) a
map in which a key `snapped` of the terrain data map holds the zero-weight edge to
the target, where `snapped` minimises, over the keys of the terrain data map, the
planar distance between the positions that `vertexToState` decodes for the target
and for the key. These are not the positions of the cells: the keys are environment
vertices and `vertexToState` reads them as state vertices. -/
theorem computeAdjacencyMap_connects_target (g : GridBasedBodyAdjacency) (fuel : Nat)
    (start_flag0 : Bool) (closest_source0 closest_target0 : Vertex)
    (adjacency_map : AdjacencyMap) (source target : Vertex)
    (hinfo : g.terrain_.isTerrainInformation = true)
    (hne : g.terrain_.getTerrainDataMap ≠ [])
    (htarget : target ∉ g.terrain_.getTerrainDataMap.map Prod.fst)
    (hends : samplingEnds g.is_stance_adjacency_
      (g.robot_.getFootstepSearchAreas Vector3d.zero) fuel) :
    ∃ (g1 : GridBasedBodyAdjacency) (m : AdjacencyMap) (snapped : Vertex),
      g.computeAdjacencyMap fuel start_flag0 closest_source0 closest_target0 adjacency_map
          source target = some (g1, m) ∧
      snapped ∈ g.terrain_.getTerrainDataMap.map Prod.fst ∧
      (∀ k ∈ g.terrain_.getTerrainDataMap.map Prod.fst,
        squaredDistance (decodedPosition g.terrain_.getTerrainSpaceModel target)
            (decodedPosition g.terrain_.getTerrainSpaceModel snapped) ≤
          squaredDistance (decodedPosition g.terrain_.getTerrainSpaceModel target)
            (decodedPosition g.terrain_.getTerrainSpaceModel k)) ∧
      (target, (0 : ℚ)) ∈ edgesOf m snapped := by
  have hkeys : g.terrain_.getTerrainDataMap.map Prod.fst ≠ [] := by
    intro h
    exact hne (List.map_eq_nil_iff.mp h)
  obtain ⟨hmem, hmin⟩ := closestLoop_none g.terrain_.getTerrainSpaceModel
    (g.terrain_.getTerrainSpaceModel.vertexToState target)
    (g.terrain_.getTerrainDataMap.map Prod.fst) hkeys
  have hsnap := closest_target_eq
    { g with stance_areas_ := g.robot_.getFootstepSearchAreas Vector3d.zero }
    start_flag0 closest_source0 closest_target0 source target hinfo htarget
  have hneq : (closestLoop g.terrain_.getTerrainSpaceModel
      (g.terrain_.getTerrainSpaceModel.vertexToState target)
      (g.terrain_.getTerrainDataMap.map Prod.fst) (0, none)).1 ≠ target := by
    intro h
    rw [h] at hmem
    exact htarget hmem
  unfold GridBasedBodyAdjacency.computeAdjacencyMap
  simp only [hinfo, if_true, hsnap, hneq, ne_eq, not_false_eq_true]
  obtain ⟨m2, h1, h2, _⟩ := terrainLoop_spec
    { g with stance_areas_ := g.robot_.getFootstepSearchAreas Vector3d.zero } fuel
    (sourceYaw g.terrain_.getTerrainSpaceModel source) hends g.terrain_.getTerrainDataMap
    (adjacencyPushBack
      (if ¬ (GridBasedBodyAdjacency.getTheClosestStartAndGoalVertex
            { g with stance_areas_ := g.robot_.getFootstepSearchAreas Vector3d.zero }
            start_flag0 closest_source0 closest_target0 source target).1 = source then
          adjacencyPushBack adjacency_map source
            ((GridBasedBodyAdjacency.getTheClosestStartAndGoalVertex
              { g with stance_areas_ := g.robot_.getFootstepSearchAreas Vector3d.zero }
              start_flag0 closest_source0 closest_target0 source target).1, 0)
        else adjacency_map)
      (closestLoop g.terrain_.getTerrainSpaceModel
        (g.terrain_.getTerrainSpaceModel.vertexToState target)
        (g.terrain_.getTerrainDataMap.map Prod.fst) (0, none)).1 (target, 0))
  refine ⟨_, m2, _, by rw [h1]; rfl, hmem, hmin, ?_⟩
  exact h2 _ _ (edgesOf_pushBack_mem _ _ _)

/-- The statement above on the two-cell terrain with the target at `(2,0,0)`. -/
theorem computeAdjacencyMap_connects_target_witness :
    poseVertex 2 0 0 ∉ twoCellGrid.terrain_.getTerrainDataMap.map Prod.fst ∧
    ∃ (g1 : GridBasedBodyAdjacency) (m : AdjacencyMap) (snapped : Vertex),
      twoCellGrid.computeAdjacencyMap 0 false 0 0 [] (poseVertex 0 0 0) (poseVertex 2 0 0)
        = some (g1, m) ∧
      snapped ∈ twoCellGrid.terrain_.getTerrainDataMap.map Prod.fst ∧
      (∀ k ∈ twoCellGrid.terrain_.getTerrainDataMap.map Prod.fst,
        squaredDistance
            (decodedPosition twoCellGrid.terrain_.getTerrainSpaceModel (poseVertex 2 0 0))
            (decodedPosition twoCellGrid.terrain_.getTerrainSpaceModel snapped) ≤
          squaredDistance
            (decodedPosition twoCellGrid.terrain_.getTerrainSpaceModel (poseVertex 2 0 0))
            (decodedPosition twoCellGrid.terrain_.getTerrainSpaceModel k)) ∧
      (poseVertex 2 0 0, (0 : ℚ)) ∈ edgesOf m snapped := by
  have hout : poseVertex 2 0 0 ∉ twoCellGrid.terrain_.getTerrainDataMap.map Prod.fst := by
    norm_num [twoCellGrid, GridBasedBodyAdjacency.reset, twoCellTerrain, unitTerrain,
      poseVertex, cellVertex, encodeIndex_values, Nat.pair]
  exact ⟨hout, computeAdjacencyMap_connects_target twoCellGrid 0 false 0 0 []
    (poseVertex 0 0 0) (poseVertex 2 0 0) rfl
    (by simp [twoCellGrid, GridBasedBodyAdjacency.reset, twoCellTerrain, unitTerrain])
    hout (Or.inl rfl)⟩

/-! ## Frame properties -/

/-- C20: the default `generateActions` of the abstract base class leaves the action
vector as it was, for every pose and every input vector. -/
theorem generateActions_default_produces_nothing (actions : List Action3d) (state : Pose3d) :
    MotorPrimitives.generateActions actions state = actions := rfl

/-- C15: when the terrain reports no terrain information, the grid and the lattice
`getSuccessors` return the successor list they were given, for every vertex and
every fuel. -/
theorem getSuccessors_without_terrain_information (g : GridBasedBodyAdjacency)
    (l : LatticeBasedBodyAdjacency) (fuel : Nat) (successors : List Edge) (v : Vertex)
    (hg : g.terrain_.isTerrainInformation = false)
    (hl : l.terrain_.isTerrainInformation = false) :
    g.getSuccessors fuel successors v = some successors ∧
    l.getSuccessors fuel successors v = some (l, successors) := by
  constructor
  · unfold GridBasedBodyAdjacency.getSuccessors
    simp [hg]
  · unfold LatticeBasedBodyAdjacency.getSuccessors
    simp [hl]

/-- Witness of C15 on a terrain that holds cells but reports no terrain
information. -/
theorem getSuccessors_without_terrain_information_witness :
    noInfoGrid.getSuccessors 0 [] (poseVertex 0 0 0) = some [] ∧
    noInfoLattice.getSuccessors 0 [] (poseVertex 0 0 0) = some (noInfoLattice, []) :=
  getSuccessors_without_terrain_information noInfoGrid noInfoLattice 0 [] (poseVertex 0 0 0)
    rfl rfl

/-- C16: when the terrain reports no terrain information, `computeAdjacencyMap`
returns the adjacency map it was given, for every source and target, every fuel and
every value of the uninitialised locals. -/
theorem computeAdjacencyMap_without_terrain_information (g : GridBasedBodyAdjacency)
    (fuel : Nat) (start_flag0 : Bool) (closest_source0 closest_target0 : Vertex)
    (adjacency_map : AdjacencyMap) (source target : Vertex)
    (hinfo : g.terrain_.isTerrainInformation = false) :
    (g.computeAdjacencyMap fuel start_flag0 closest_source0 closest_target0 adjacency_map
        source target).map Prod.snd = some adjacency_map := by
  unfold GridBasedBodyAdjacency.computeAdjacencyMap
  simp [hinfo]

/-- Witness of C16 on a terrain that holds cells but reports no terrain
information. -/
theorem computeAdjacencyMap_without_terrain_information_witness :
    (noInfoGrid.computeAdjacencyMap 0 false 0 0 [(7, [(8, 1)])] (poseVertex 0 0 0)
        (poseVertex 1 0 0)).map Prod.snd = some [(7, [(8, 1)])] :=
  computeAdjacencyMap_without_terrain_information noInfoGrid 0 false 0 0 [(7, [(8, 1)])]
    (poseVertex 0 0 0) (poseVertex 1 0 0) rfl

/-! ## Rotation of the samples -/

/-- C18: the sample `p = (x, y)` is mapped to `origin + R(yaw) * (p - origin)` with
`origin` the body position; when `cos yaw = 1` and `sin yaw = 0` the sample is
unchanged, and when `cos yaw = 0` and `sin yaw = 1` the sample at offset `(a, b)`
from the body position goes to the offset `(-b, a)`. This is the point looked up by
the sampling of both `computeBodyCost`. -/
theorem rotatedPoint_about_body_origin (m : Libm) (state : Vector3d) :
    (∀ x y : ℚ,
      rotatedPoint m state x y =
        ⟨state.c0 + (m.cos state.c2 * (x - state.c0) - m.sin state.c2 * (y - state.c1)),
         state.c1 + (m.sin state.c2 * (x - state.c0) + m.cos state.c2 * (y - state.c1))⟩) ∧
    (m.cos state.c2 = 1 → m.sin state.c2 = 0 →
      ∀ x y : ℚ, rotatedPoint m state x y = ⟨x, y⟩) ∧
    (m.cos state.c2 = 0 → m.sin state.c2 = 1 →
      ∀ a b : ℚ, rotatedPoint m state (state.c0 + a) (state.c1 + b) =
        ⟨state.c0 - b, state.c1 + a⟩) ∧
    (∀ (t : TerrainMap) (y x : ℚ) (q : List (Weight × Vertex)),
      sampleCell t m state y x q =
        some (match t.find (t.getTerrainSpaceModel.coordToVertex (rotatedPoint m state x y)) with
          | some d =>
            setInsert q (d.cost, t.getTerrainSpaceModel.coordToVertex (rotatedPoint m state x y))
          | none => q)) := by
  refine ⟨?_, ?_, ?_, ?_⟩
  · intro x y
    simp only [rotatedPoint, Vector2d.mk.injEq]
    constructor <;> ring
  · intro hc hs x y
    simp only [rotatedPoint, hc, hs, Vector2d.mk.injEq]
    constructor <;> ring
  · intro hc hs a b
    simp only [rotatedPoint, hc, hs, Vector2d.mk.injEq]
    constructor <;> ring
  · intro t y x q
    exact sampleCell_eq t m state y x q

/-- Witness of C18: yaw 0 with `cos = 1`, `sin = 0`, and a quarter turn with
`cos = 0`, `sin = 1`, about the body position `(3, 4)`. -/
theorem rotatedPoint_about_body_origin_witness :
    rotatedPoint yawZeroLibm ⟨3, 4, 0⟩ 5 6 = ⟨5, 6⟩ ∧
    rotatedPoint quarterTurnLibm ⟨3, 4, 0⟩ (3 + 1) (4 + 2) = ⟨3 - 2, 4 + 1⟩ :=
  ⟨(rotatedPoint_about_body_origin yawZeroLibm ⟨3, 4, 0⟩).2.1 rfl rfl 5 6,
   (rotatedPoint_about_body_origin quarterTurnLibm ⟨3, 4, 0⟩).2.2.1 rfl rfl 1 2⟩

/-! ## Window sizes below 1 -/

theorem toUnsigned_of_neg {n : Int} (h1 : -(2 ^ 31) ≤ n) (h2 : n < 0) :
    toUnsigned n = (n + 2 ^ 32).toNat := by
  unfold toUnsigned
  have h : n % 2 ^ 32 = n + 2 ^ 32 := by
    rw [Int.emod_eq_add_self_emod, Int.emod_eq_of_lt (by omega) (by omega)]
  rw [h]

theorem averageLowest_zero (uf avg : ℚ) (q : List (Weight × Vertex)) :
    averageLowest 0 uf avg q = uf * avg := by
  unfold averageLowest
  have h0 : toUnsigned 0 = 0 := rfl
  simp [h0]

theorem averageLowest_neg (n : Int) (uf avg : ℚ) (q : List (Weight × Vertex))
    (h1 : -(2 ^ 31) ≤ n) (h2 : n < 0) (hq : q ≠ []) :
    averageLowest n uf avg q =
      ((q.take (min (n + 2 ^ 32).toNat q.length)).map Prod.fst).sum /
        ((min (n + 2 ^ 32).toNat q.length : Nat) : ℚ) := by
  unfold averageLowest
  rw [toUnsigned_of_neg h1 h2]
  have hlen : 0 < q.length := List.length_pos.mpr hq
  have hbig : 0 < (n + 2 ^ 32).toNat := by omega
  simp only
  by_cases hlt : q.length < (n + 2 ^ 32).toNat
  · rw [if_pos hlt, if_neg (by omega), sumLowest_eq, zero_add, min_eq_right (by omega)]
  · rw [if_neg hlt, if_neg (by omega), sumLowest_eq, zero_add, min_eq_left (by omega)]

theorem rowGridWith_zero :
    (rowGridWith 0).computeBodyCost 9 (poseVertex 0 0 0) = some (23 / 10) := by
  norm_num [GridBasedBodyAdjacency.computeBodyCost,
      meanStanceCost, sumStanceCosts, stanceCost, stanceCostQueue, forLoop, sampleCell,
      rotatedPoint, setInsert, pair_first_less, averageLowest, toUnsigned, sumLowest,
      addFeatureCosts, TerrainMap.getTerrainCost, plainRobot, rowArea, yawZeroLibm,
      rowGridWith, rowGrid, GridBasedBodyAdjacency.reset, rowTerrain,
      unitTerrain, unitSpaceModel, poseVertex, cellVertex, TerrainMap.count, TerrainMap.find,
      encodeIndex_decode, encodeIndex_inj, Nat.unpair_pair]

theorem rowGridWith_minus_one :
    (rowGridWith (-1)).computeBodyCost 9 (poseVertex 0 0 0) = some (9 / 2) := by
  norm_num [GridBasedBodyAdjacency.computeBodyCost,
      meanStanceCost, sumStanceCosts, stanceCost, stanceCostQueue, forLoop, sampleCell,
      rotatedPoint, setInsert, pair_first_less, averageLowest, toUnsigned, sumLowest,
      addFeatureCosts, TerrainMap.getTerrainCost, plainRobot, rowArea, yawZeroLibm,
      rowGridWith, rowGrid, GridBasedBodyAdjacency.reset, rowTerrain,
      unitTerrain, unitSpaceModel, poseVertex, cellVertex, TerrainMap.count, TerrainMap.find,
      encodeIndex_decode, encodeIndex_inj, Nat.unpair_pair]

theorem rowGridWith_one :
    (rowGridWith 1).computeBodyCost 9 (poseVertex 0 0 0) = some 1 := by
  norm_num [GridBasedBodyAdjacency.computeBodyCost,
      meanStanceCost, sumStanceCosts, stanceCost, stanceCostQueue, forLoop, sampleCell,
      rotatedPoint, setInsert, pair_first_less, averageLowest, toUnsigned, sumLowest,
      addFeatureCosts, TerrainMap.getTerrainCost, plainRobot, rowArea, yawZeroLibm,
      rowGridWith, rowGrid, GridBasedBodyAdjacency.reset, rowTerrain,
      unitTerrain, unitSpaceModel, poseVertex, cellVertex, TerrainMap.count, TerrainMap.find,
      encodeIndex_decode, encodeIndex_inj, Nat.unpair_pair,
      show Int.toNat 1 = 1 from rfl]

/-- C11 (counterexample): on the row terrain (sampled costs `1, ..., 8`, average cost
2, uncertainty factor 1.15) the stance cost is 1, the lowest sampled cost, for
`number_top_cost = 1`, but 2.3 (the uncertainty cost) for `number_top_cost = 0` and
4.5 (the mean of all eight costs) for `number_top_cost = -1`. -/
theorem computeBodyCost_window_below_one_counterexample :
    (rowGridWith 1).computeBodyCost 9 (poseVertex 0 0 0) = some 1 ∧
    (rowGridWith 0).computeBodyCost 9 (poseVertex 0 0 0) = some (23 / 10) ∧
    (rowGridWith (-1)).computeBodyCost 9 (poseVertex 0 0 0) = some (9 / 2) :=
  ⟨rowGridWith_one, rowGridWith_zero, rowGridWith_minus_one⟩

/-- C11 (amended): for a stance area with a positive resolution in which at least
one rotated sample `(x, y)` falls on a cell of the terrain data map, and for every
sufficient fuel, the contribution of the area is
`uncertainty_factor * average_cost_of_terrain` when `number_top_cost = 0`, and for a
negative `number_top_cost` (an `int`, hence at least `-2 ^ 31`) it is the mean of
the `min(2 ^ 32 + number_top_cost, k)` lowest of the `k` collected costs: the
conversion to `unsigned int` wraps and nothing clamps the window to 1. -/
theorem stanceCost_window_below_one (t : TerrainMap) (m : Libm) (number_top_cost : Int)
    (uncertainty_factor : ℚ) (state : Vector3d) (area : SearchArea) (y x : ℚ) (fuel : Nat)
    (hres : 0 < area.resolution)
    (h1 : -(2 ^ 31) ≤ number_top_cost) (h2 : number_top_cost < 1)
    (hy : y ∈ loopValues
      (sampleCount (area.min_y + state.c1) (area.max_y + state.c1) area.resolution)
      (area.min_y + state.c1) area.resolution)
    (hx : x ∈ loopValues
      (sampleCount (area.min_x + state.c0) (area.max_x + state.c0) area.resolution)
      (area.min_x + state.c0) area.resolution)
    (hcell : t.count (t.getTerrainSpaceModel.coordToVertex (rotatedPoint m state x y)) > 0)
    (hfuel : areaFuel area ≤ fuel) :
    stanceCost t m number_top_cost uncertainty_factor state area fuel =
      some (if number_top_cost = 0 then uncertainty_factor * t.getAverageCostOfTerrain
        else
          (((collectedQueue t m state area).take
            (min (number_top_cost + 2 ^ 32).toNat
              (collectedQueue t m state area).length)).map Prod.fst).sum /
          ((min (number_top_cost + 2 ^ 32).toNat
            (collectedQueue t m state area).length : Nat) : ℚ)) := by
  have hq := stanceCostQueue_eq t m state area hres fuel hfuel
  have hne := collectedQueue_ne_nil t m state area y x hy hx hcell
  unfold stanceCost
  rw [hq, Option.map_some']
  congr 1
  by_cases h0 : number_top_cost = 0
  · rw [if_pos h0, h0, averageLowest_zero]
  · rw [if_neg h0, averageLowest_neg _ _ _ _ h1 (by omega) hne]

/-- Witness of the amended C11 on the row terrain with `number_top_cost = -1`. -/
theorem stanceCost_window_below_one_witness :
    stanceCost rowTerrain yawZeroLibm (-1) (115 / 100) ⟨0, 0, 0⟩ rowArea 9 =
      some (if (-1 : Int) = 0 then (115 / 100 : ℚ) * rowTerrain.getAverageCostOfTerrain
        else
          (((collectedQueue rowTerrain yawZeroLibm ⟨0, 0, 0⟩ rowArea).take
            (min ((-1 : Int) + 2 ^ 32).toNat
              (collectedQueue rowTerrain yawZeroLibm ⟨0, 0, 0⟩ rowArea).length)).map
                Prod.fst).sum /
          ((min ((-1 : Int) + 2 ^ 32).toNat
            (collectedQueue rowTerrain yawZeroLibm ⟨0, 0, 0⟩ rowArea).length : Nat) : ℚ)) :=
  stanceCost_window_below_one rowTerrain yawZeroLibm (-1) (115 / 100) ⟨0, 0, 0⟩ rowArea 0 0 9
    (by norm_num [rowArea]) (by norm_num) (by norm_num)
    (by norm_num [sampleCount, loopValues, rowArea])
    (by norm_num [sampleCount, loopValues, rowArea])
    rowTerrain_sample
    (by norm_num [areaFuel, sampleCount, rowArea, show Int.toNat 7 = 7 from rfl])

/-! ## The lattice successors -/

theorem scanRow_eq (t : TerrainMap) (m : Libm) (current : Vector3d) (hi step y : ℚ)
    (hstep : 0 < step) :
    ∀ (fuel : Nat) (x : ℚ), sampleCount x hi step < fuel →
      scanRow t m current hi step y fuel x =
        some ((loopValues (sampleCount x hi step) x step).any
          (fun x2 => t.isBlocked
            (t.getObstacleSpaceModel.coordToVertex (rotatedPoint m current x2 y)))) := by
  intro fuel
  induction fuel with
  | zero => intro x h; omega
  | succ fuel ih =>
    intro x h
    unfold scanRow
    by_cases hx : x ≤ hi
    · have hc := sampleCount_step hstep hx
      rw [if_pos hx, hc]
      simp only [loopValues, List.any_cons]
      cases hb : t.isBlocked
          (t.getObstacleSpaceModel.coordToVertex (rotatedPoint m current x y)) with
      | true => simp
      | false =>
        simp only [Bool.false_eq_true, if_false, Bool.false_or]
        exact ih (x + step) (by omega)
    · have h0 : sampleCount x hi step = 0 := by
        unfold sampleCount
        rw [if_neg hx]
      rw [if_neg hx, h0]
      rfl

theorem scanRows_eq (t : TerrainMap) (m : Libm) (current : Vector3d)
    (lo0 hi0 hi1 step : ℚ) (fuel0 : Nat) (hstep : 0 < step)
    (hfuel0 : sampleCount lo0 hi0 step < fuel0) :
    ∀ (fuel : Nat) (y : ℚ), sampleCount y hi1 step < fuel →
      scanRows t m current lo0 hi0 hi1 step fuel0 fuel y =
        some ((loopValues (sampleCount y hi1 step) y step).any
          (fun y2 => (loopValues (sampleCount lo0 hi0 step) lo0 step).any
            (fun x2 => t.isBlocked
              (t.getObstacleSpaceModel.coordToVertex (rotatedPoint m current x2 y2))))) := by
  intro fuel
  induction fuel with
  | zero => intro y h; omega
  | succ fuel ih =>
    intro y h
    unfold scanRows
    by_cases hy : y ≤ hi1
    · have hc := sampleCount_step hstep hy
      rw [if_pos hy, hc, scanRow_eq t m current hi0 step y hstep fuel0 lo0 hfuel0,
        Option.some_bind]
      simp only [loopValues, List.any_cons]
      cases hb : (loopValues (sampleCount lo0 hi0 step) lo0 step).any
          (fun x2 => t.isBlocked
            (t.getObstacleSpaceModel.coordToVertex (rotatedPoint m current x2 y))) with
      | true => simp
      | false =>
        simp only [Bool.false_eq_true, if_false, Bool.false_or]
        exact ih (y + step) (by omega)
    · have h0 : sampleCount y hi1 step = 0 := by
        unfold sampleCount
        rw [if_neg hy]
      rw [if_neg hy, h0]
      rfl

theorem isFreeOfObstacle_body (l : LatticeBasedBodyAdjacency) (fuel : Nat) (v : Vertex)
    (hends : l.obstacleScanEnds fuel) :
    l.isFreeOfObstacle fuel v TypeOfState.XY_Y true =
      some (!(l.terrain_.isObstacleInformation && l.footprintHit v)) := by
  unfold LatticeBasedBodyAdjacency.isFreeOfObstacle
  cases hinfo : l.terrain_.isObstacleInformation with
  | false => simp [hinfo]
  | true =>
    rcases hends with h | ⟨hstep, hfuel⟩
    · rw [hinfo] at h
      exact absurd h (by decide)
    · unfold areaFuel LatticeBasedBodyAdjacency.scannedWorkspace at hfuel
      simp only at hfuel
      have hx : sampleCount
          (l.robot_.getPredefinedBodyWorkspace.min_x +
            (l.terrain_.getObstacleSpaceModel.vertexToState v).c0)
          (l.robot_.getPredefinedBodyWorkspace.max_x +
            (l.terrain_.getObstacleSpaceModel.vertexToState v).c0) l.obstacleStep < fuel := by
        rw [sampleCount_shift]
        omega
      have hy : sampleCount
          (l.robot_.getPredefinedBodyWorkspace.min_y +
            (l.terrain_.getObstacleSpaceModel.vertexToState v).c1)
          (l.robot_.getPredefinedBodyWorkspace.max_y +
            (l.terrain_.getObstacleSpaceModel.vertexToState v).c1) l.obstacleStep < fuel := by
        rw [sampleCount_shift]
        omega
      have hs := scanRows_eq l.terrain_ l.libm
        (l.terrain_.getObstacleSpaceModel.vertexToState v)
        (l.robot_.getPredefinedBodyWorkspace.min_x +
          (l.terrain_.getObstacleSpaceModel.vertexToState v).c0)
        (l.robot_.getPredefinedBodyWorkspace.max_x +
          (l.terrain_.getObstacleSpaceModel.vertexToState v).c0)
        (l.robot_.getPredefinedBodyWorkspace.max_y +
          (l.terrain_.getObstacleSpaceModel.vertexToState v).c1)
        l.obstacleStep fuel hstep hx fuel
        (l.robot_.getPredefinedBodyWorkspace.min_y +
          (l.terrain_.getObstacleSpaceModel.vertexToState v).c1) hy
      unfold LatticeBasedBodyAdjacency.obstacleStep at hs
      simp only [hinfo, Bool.true_and, if_true,
        if_neg (show ¬ TypeOfState.XY_Y = TypeOfState.XY by decide)]
      rw [hs]
      rfl

theorem computeBodyCost_snd (l : LatticeBasedBodyAdjacency) (fuel : Nat) (state : Vector3d) :
    (l.computeBodyCost fuel state).map Prod.snd = l.stanceCostFor fuel state l.current_action_ := by
  unfold LatticeBasedBodyAdjacency.computeBodyCost LatticeBasedBodyAdjacency.stanceCostFor
  simp only [Option.map_map]
  rfl

theorem computeBodyCost_fst (l : LatticeBasedBodyAdjacency) (fuel : Nat) (state : Vector3d)
    (r : LatticeBasedBodyAdjacency × ℚ) (h : l.computeBodyCost fuel state = some r) :
    r.1 = { l with stance_areas_ := l.robot_.getFootstepSearchAreas l.current_action_ } := by
  unfold LatticeBasedBodyAdjacency.computeBodyCost at h
  simp only [Option.map_eq_some'] at h
  obtain ⟨c, _, hc⟩ := h
  rw [← hc]

theorem terrainWeight_eq (l : LatticeBasedBodyAdjacency) (a : Action3d) :
    (if l.terrain_.count
          (l.terrain_.getTerrainSpaceModel.stateVertexToEnvironmentVertex (l.actionVertex a)
            TypeOfState.XY_Y) = 0 then
        some (l.uncertainty_factor_ * l.terrain_.getAverageCostOfTerrain)
      else l.terrain_.getTerrainCost
          (l.terrain_.getTerrainSpaceModel.stateVertexToEnvironmentVertex (l.actionVertex a)
            TypeOfState.XY_Y)) = some (l.terrainWeight a) := by
  unfold LatticeBasedBodyAdjacency.terrainWeight TerrainMap.count TerrainMap.getTerrainCost
  cases hf : l.terrain_.find
      (l.terrain_.getTerrainSpaceModel.stateVertexToEnvironmentVertex (l.actionVertex a)
        TypeOfState.XY_Y) with
  | none => simp
  | some d => simp

theorem computeBodyCost_rebound (l : LatticeBasedBodyAdjacency) (fuel : Nat)
    (action : Vector3d) (areas : List SearchArea) (state : Vector3d) :
    LatticeBasedBodyAdjacency.computeBodyCost
        { l with current_action_ := action, stance_areas_ := areas } fuel state =
      (l.stanceCostFor fuel state action).map (fun c =>
        ({ l with current_action_ := action,
                  stance_areas_ := l.robot_.getFootstepSearchAreas action }, c)) := by
  unfold LatticeBasedBodyAdjacency.computeBodyCost LatticeBasedBodyAdjacency.stanceCostFor
  simp only [Option.map_map]
  rfl

theorem successorsLoop_eq (l : LatticeBasedBodyAdjacency) (fuel : Nat)
    (current_state : Vector3d) :
    ∀ (actions : List Action3d) (action : Vector3d) (areas : List SearchArea)
      (successors : List Edge),
      (LatticeBasedBodyAdjacency.successorsLoop fuel current_state actions
          { l with current_action_ := action, stance_areas_ := areas } successors).map Prod.snd =
        (l.expectedEdges fuel current_state actions).map (fun es => successors ++ es) := by
  intro actions
  induction actions with
  | nil =>
    intro action areas successors
    simp [LatticeBasedBodyAdjacency.successorsLoop, LatticeBasedBodyAdjacency.expectedEdges]
  | cons a rest ih =>
    intro action areas successors
    have hfree : ∀ (act : Vector3d) (ars : List SearchArea) (v : Vertex),
        LatticeBasedBodyAdjacency.isFreeOfObstacle
          { l with current_action_ := act, stance_areas_ := ars } fuel v TypeOfState.XY_Y true =
        l.isFreeOfObstacle fuel v TypeOfState.XY_Y true := fun _ _ _ => rfl
    have hw := terrainWeight_eq l a
    rw [LatticeBasedBodyAdjacency.successorsLoop, LatticeBasedBodyAdjacency.expectedEdges]
    simp only [hfree, computeBodyCost_rebound, LatticeBasedBodyAdjacency.actionWeight,
      LatticeBasedBodyAdjacency.isStanceAdjacency, LatticeBasedBodyAdjacency.actionVertex,
      actionState] at hw ⊢
    set s : Vector3d := ⟨a.pose.position.c0, a.pose.position.c1, a.pose.orientation⟩ with hs
    set v : Vertex := l.terrain_.getTerrainSpaceModel.stateToVertex s with hv
    cases hf : l.isFreeOfObstacle fuel v TypeOfState.XY_Y true with
    | none => rfl
    | some free =>
      simp only [Option.some_bind]
      cases free with
      | false =>
        simp only [Bool.false_eq_true, if_false]
        exact ih _ _ _
      | true =>
        simp only [if_true]
        by_cases hst : (!l.is_stance_adjacency_) = true
        · simp only [if_pos hst, Option.some_bind]
          by_cases hc : l.terrain_.count
              (l.terrain_.getTerrainSpaceModel.stateVertexToEnvironmentVertex v
                TypeOfState.XY_Y) = 0
          · rw [if_pos hc] at hw
            rw [if_pos hc, ih, ← Option.some.inj hw]
            cases l.expectedEdges fuel current_state rest <;> simp
          · rw [if_neg hc] at hw
            rw [if_neg hc, hw, Option.some_bind, ih]
            cases l.expectedEdges fuel current_state rest <;> simp
        · simp only [if_neg hst]
          cases hb : l.stanceCostFor fuel s (s.sub current_state) with
          | none => rfl
          | some c =>
            simp only [Option.map_some', Option.some_bind]
            rw [ih]
            cases l.expectedEdges fuel current_state rest <;> simp

theorem lattice_getSuccessors_eq (l : LatticeBasedBodyAdjacency) (fuel : Nat)
    (successors : List Edge) (v : Vertex)
    (hinfo : l.terrain_.isTerrainInformation = true) :
    (l.getSuccessors fuel successors v).map Prod.snd =
      (l.expectedEdges fuel (l.terrain_.getTerrainSpaceModel.vertexToState v)
        (l.generatedActions v)).map (fun es => successors ++ es) := by
  unfold LatticeBasedBodyAdjacency.getSuccessors
  simp only [hinfo, if_true]
  exact successorsLoop_eq l fuel _ (l.generatedActions v) l.current_action_ l.stance_areas_
    successors

theorem expectedEdges_closed (l : LatticeBasedBodyAdjacency) (fuel : Nat)
    (current_state : Vector3d) (w : Action3d → ℚ) :
    ∀ actions : List Action3d,
      (∀ a ∈ actions,
        l.isFreeOfObstacle fuel (l.actionVertex a) TypeOfState.XY_Y true =
          some (l.accepted a)) →
      (∀ a ∈ actions, l.actionWeight fuel current_state a = some (w a)) →
      l.expectedEdges fuel current_state actions =
        some ((actions.filter l.accepted).map (fun a => (l.actionVertex a, w a))) := by
  intro actions
  induction actions with
  | nil => intro _ _; rfl
  | cons a rest ih =>
    intro hfree hw
    have ha := List.mem_cons_self a rest
    rw [LatticeBasedBodyAdjacency.expectedEdges, hfree a ha, Option.some_bind, hw a ha,
      ih (fun b hb => hfree b (List.mem_cons_of_mem a hb))
        (fun b hb => hw b (List.mem_cons_of_mem a hb))]
    cases hacc : l.accepted a with
    | true => simp [List.filter_cons, hacc]
    | false => simp [List.filter_cons, hacc]

theorem stanceCostFor_isSome (l : LatticeBasedBodyAdjacency) (fuel : Nat)
    (state action : Vector3d)
    (hres : ∀ area ∈ l.robot_.getFootstepSearchAreas action, 0 < area.resolution)
    (hfuel : areasFuel (l.robot_.getFootstepSearchAreas action) ≤ fuel) :
    ∃ c, l.stanceCostFor fuel state action = some c := by
  unfold LatticeBasedBodyAdjacency.stanceCostFor meanStanceCost
  obtain ⟨c, hc⟩ := sumStanceCosts_isSome l.terrain_ l.libm l.number_top_cost_
    l.uncertainty_factor_ state fuel (l.robot_.getFootstepSearchAreas action) 0 hres hfuel
  simp only [hc, Option.map_some']
  exact ⟨_, rfl⟩

theorem actionWeight_isSome (l : LatticeBasedBodyAdjacency) (fuel : Nat)
    (current_state : Vector3d) (actions : List Action3d)
    (h : l.stanceSamplingEnds fuel current_state actions) :
    ∀ a ∈ actions, l.actionWeight fuel current_state a =
      some ((l.actionWeight fuel current_state a).getD 0) := by
  intro a ha
  unfold LatticeBasedBodyAdjacency.actionWeight LatticeBasedBodyAdjacency.isStanceAdjacency
  by_cases hst : (!l.is_stance_adjacency_) = true
  · simp only [if_pos hst, Option.getD_some]
  · rcases h with h | h
    · rw [h] at hst
      exact absurd rfl hst
    · obtain ⟨c, hc⟩ := stanceCostFor_isSome l fuel (actionState a)
        ((actionState a).sub current_state) (h a ha).1 (h a ha).2
      simp only [if_neg hst, hc, Option.map_some', Option.getD_some]

theorem lattice_getSuccessors_closed (l : LatticeBasedBodyAdjacency) (fuel : Nat)
    (successors : List Edge) (v : Vertex)
    (hinfo : l.terrain_.isTerrainInformation = true)
    (hscan : l.obstacleScanEnds fuel)
    (hstance : l.stanceSamplingEnds fuel (l.terrain_.getTerrainSpaceModel.vertexToState v)
      (l.generatedActions v)) :
    ∃ l2 : LatticeBasedBodyAdjacency,
      l.getSuccessors fuel successors v =
        some (l2, successors ++
          ((l.generatedActions v).filter l.accepted).map (fun a =>
            (l.actionVertex a,
              (l.actionWeight fuel (l.terrain_.getTerrainSpaceModel.vertexToState v) a).getD 0))) := by
  have h := lattice_getSuccessors_eq l fuel successors v hinfo
  rw [expectedEdges_closed l fuel _ _ (l.generatedActions v)
    (fun a _ => isFreeOfObstacle_body l fuel (l.actionVertex a) hscan)
    (actionWeight_isSome l fuel _ _ hstance), Option.map_some'] at h
  obtain ⟨r, hr, hr2⟩ := Option.map_eq_some'.mp h
  exact ⟨r.1, by rw [hr, ← hr2]⟩

/-- C19: two lattice adjacency objects bound to the same robot, terrain and features
with the same configuration, which differ only in the members `current_action_` and
`stance_areas_`, give the same outcome of `getSuccessors` for every vertex, fuel and
input list: the same edges in the same order (or no return for either). -/
theorem lattice_getSuccessors_independent_of_earlier_calls (l : LatticeBasedBodyAdjacency)
    (action : Vector3d) (areas : List SearchArea) (fuel : Nat) (successors : List Edge)
    (v : Vertex) :
    (LatticeBasedBodyAdjacency.getSuccessors
        { l with current_action_ := action, stance_areas_ := areas } fuel successors v).map
        Prod.snd =
      (l.getSuccessors fuel successors v).map Prod.snd := by
  unfold LatticeBasedBodyAdjacency.getSuccessors
  cases hinfo : l.terrain_.isTerrainInformation with
  | false => simp [hinfo]
  | true =>
    simp only [hinfo, if_true]
    rw [successorsLoop_eq l fuel _ _ action areas successors]
    exact (successorsLoop_eq l fuel _ _ l.current_action_ l.stance_areas_ successors).symm

/-- C12: with terrain information present, and a fuel that lets the body scan and
the stance sampling end, the lattice `getSuccessors` returns the given list
extended by exactly one edge per generated action that `isFreeOfObstacle` (body
scan) reports free, in the order of the motor primitive, the target of the edge
being the state vertex of the target state of the action; `isFreeOfObstacle`
reports an action free exactly when there is no obstacle information or no sample
of the body workspace at the decoded target pose falls on a blocked vertex. -/
theorem lattice_getSuccessors_one_edge_per_free_action (l : LatticeBasedBodyAdjacency)
    (fuel : Nat) (successors : List Edge) (v : Vertex)
    (hinfo : l.terrain_.isTerrainInformation = true)
    (hscan : l.obstacleScanEnds fuel)
    (hstance : l.stanceSamplingEnds fuel (l.terrain_.getTerrainSpaceModel.vertexToState v)
      (l.generatedActions v)) :
    ∃ (l2 : LatticeBasedBodyAdjacency) (es : List Edge),
      l.getSuccessors fuel successors v = some (l2, successors ++ es) ∧
      es.map Prod.fst = ((l.generatedActions v).filter l.accepted).map l.actionVertex ∧
      ∀ a ∈ l.generatedActions v,
        l.isFreeOfObstacle fuel (l.actionVertex a) TypeOfState.XY_Y true =
          some (!(l.terrain_.isObstacleInformation && l.footprintHit (l.actionVertex a))) := by
  obtain ⟨l2, h⟩ := lattice_getSuccessors_closed l fuel successors v hinfo hscan hstance
  refine ⟨l2, _, h, ?_, ?_⟩
  · rw [List.map_map]
    rfl
  · intro a _
    exact isFreeOfObstacle_body l fuel (l.actionVertex a) hscan

theorem laneLattice_actions (s : Bool) :
    (laneLattice s).generatedActions (poseVertex 0 0 0) =
      [laneAction 2 1, laneAction 5 3, laneAction 8 2] := by
  norm_num [LatticeBasedBodyAdjacency.generatedActions, laneLattice, laneRobot, laneTerrain,
    unitTerrain, unitSpaceModel, poseVertex, cellVertex, Vector3d.head2, laneAction,
    encodeIndex_decode, Nat.unpair_pair]

theorem laneLattice_accepted (s : Bool) :
    (laneLattice s).accepted (laneAction 2 1) = false ∧
    (laneLattice s).accepted (laneAction 5 3) = true ∧
    (laneLattice s).accepted (laneAction 8 2) = true := by
  refine ⟨?_, ?_, ?_⟩ <;>
  norm_num [LatticeBasedBodyAdjacency.accepted, LatticeBasedBodyAdjacency.footprintHit,
    LatticeBasedBodyAdjacency.actionVertex, LatticeBasedBodyAdjacency.obstacleStep, actionState,
    laneAction, sampleCount, loopValues, rotatedPoint, TerrainMap.isBlocked,
    TerrainMap.findObstacle, laneLattice, laneRobot, laneTerrain, unitTerrain, unitSpaceModel,
    yawZeroLibm, cellVertex, encodeIndex_decode, encodeIndex_inj, Nat.unpair_pair,
    show Int.toNat 2 = 2 from rfl]

theorem laneLattice_vertices (s : Bool) :
    (laneLattice s).actionVertex (laneAction 5 3) = poseVertex 5 0 0 ∧
    (laneLattice s).actionVertex (laneAction 8 2) = poseVertex 8 0 0 := by
  constructor <;>
  norm_num [LatticeBasedBodyAdjacency.actionVertex, actionState, laneAction, laneLattice,
    laneTerrain, unitTerrain, unitSpaceModel, poseVertex, cellVertex]

theorem laneLattice_scan (s : Bool) : (laneLattice s).obstacleScanEnds 4 := by
  right
  norm_num [LatticeBasedBodyAdjacency.obstacleStep, LatticeBasedBodyAdjacency.scannedWorkspace,
    areaFuel, sampleCount, laneLattice, laneRobot, laneTerrain, unitTerrain,
    show Int.toNat 2 = 2 from rfl]

theorem laneLattice_sampling (s : Bool) (current_state : Vector3d) (actions : List Action3d) :
    (laneLattice s).stanceSamplingEnds 4 current_state actions := by
  right
  intro a _
  norm_num [laneLattice, laneRobot, pointArea, areasFuel, areaFuel, sampleCount]

/-- Witness of C12 on the lane terrain: the primitive that places the body next to
the blocked cell is rejected, the two others give one edge each, in order. -/
theorem lattice_getSuccessors_one_edge_per_free_action_witness :
    ∃ (l2 : LatticeBasedBodyAdjacency) (es : List Edge),
      (laneLattice false).getSuccessors 4 [] (poseVertex 0 0 0) = some (l2, [] ++ es) ∧
      es.map Prod.fst = [poseVertex 5 0 0, poseVertex 8 0 0] := by
  obtain ⟨l2, es, h1, h2, _⟩ :=
    lattice_getSuccessors_one_edge_per_free_action (laneLattice false) 4 [] (poseVertex 0 0 0)
      rfl (laneLattice_scan false) (laneLattice_sampling false _ _)
  refine ⟨l2, es, h1, ?_⟩
  rw [h2, laneLattice_actions]
  simp [List.filter_cons, laneLattice_accepted, laneLattice_vertices]

theorem unitSpaceModel_environmentVertex (a b : Nat) (r : TypeOfState) :
    unitSpaceModel.stateVertexToEnvironmentVertex (Nat.pair a b) r = a := by
  show (Nat.unpair (Nat.pair a b)).1 = a
  rw [Nat.unpair_pair]

theorem unitSpaceModel_stateToVertex (s : Vector3d) :
    unitSpaceModel.stateToVertex s =
      Nat.pair (Nat.pair (encodeIndex ⌊s.c0⌋) (encodeIndex ⌊s.c1⌋)) (encodeIndex ⌊s.c2⌋) := rfl

theorem terrainWeight_of_some (l : LatticeBasedBodyAdjacency) (a : Action3d) (d : TerrainData)
    (h : l.terrain_.find
      (l.terrain_.getTerrainSpaceModel.stateVertexToEnvironmentVertex (l.actionVertex a)
        TypeOfState.XY_Y) = some d) :
    l.terrainWeight a = d.cost := by
  unfold LatticeBasedBodyAdjacency.terrainWeight
  rw [h]

theorem terrainWeight_of_none (l : LatticeBasedBodyAdjacency) (a : Action3d)
    (h : l.terrain_.find
      (l.terrain_.getTerrainSpaceModel.stateVertexToEnvironmentVertex (l.actionVertex a)
        TypeOfState.XY_Y) = none) :
    l.terrainWeight a = l.uncertainty_factor_ * l.terrain_.getAverageCostOfTerrain := by
  unfold LatticeBasedBodyAdjacency.terrainWeight
  rw [h]

/-- C13: with terrain information present and stance adjacency disabled, and a fuel
that lets the body scan end, the lattice `getSuccessors` returns the given list
extended by one edge per accepted action whose weight is `terrainWeight`: the stored
cost of the environment vertex of the target state when that vertex is a key of the
terrain data map, `uncertainty_factor * average_cost_of_terrain` when it is not; the
cost of the action does not enter the weight. -/
theorem lattice_getSuccessors_weight_without_stance (l : LatticeBasedBodyAdjacency)
    (fuel : Nat) (successors : List Edge) (v : Vertex)
    (hinfo : l.terrain_.isTerrainInformation = true)
    (hstance : l.isStanceAdjacency = false)
    (hscan : l.obstacleScanEnds fuel) :
    (∃ l2 : LatticeBasedBodyAdjacency,
      l.getSuccessors fuel successors v =
        some (l2, successors ++
          ((l.generatedActions v).filter l.accepted).map (fun a =>
            (l.actionVertex a, l.terrainWeight a)))) ∧
    ∀ a : Action3d,
      (∀ d : TerrainData,
        l.terrain_.find
            (l.terrain_.getTerrainSpaceModel.stateVertexToEnvironmentVertex
              (l.terrain_.getTerrainSpaceModel.stateToVertex (actionState a))
              TypeOfState.XY_Y) = some d →
          l.terrainWeight a = d.cost) ∧
      (l.terrain_.count
            (l.terrain_.getTerrainSpaceModel.stateVertexToEnvironmentVertex
              (l.terrain_.getTerrainSpaceModel.stateToVertex (actionState a))
              TypeOfState.XY_Y) = 0 →
          l.terrainWeight a = l.uncertainty_factor_ * l.terrain_.getAverageCostOfTerrain) := by
  constructor
  · obtain ⟨l2, h⟩ := lattice_getSuccessors_closed l fuel successors v hinfo hscan
      (Or.inl hstance)
    refine ⟨l2, ?_⟩
    rw [h]
    have hw : ∀ a, l.actionWeight fuel (l.terrain_.getTerrainSpaceModel.vertexToState v) a =
        some (l.terrainWeight a) := by
      intro a
      unfold LatticeBasedBodyAdjacency.actionWeight
      rw [hstance]
      rfl
    simp only [hw, Option.getD_some]
  · intro a
    constructor
    · intro d hd
      unfold LatticeBasedBodyAdjacency.terrainWeight LatticeBasedBodyAdjacency.actionVertex
      rw [hd]
    · intro hc
      have hf : l.terrain_.find
            (l.terrain_.getTerrainSpaceModel.stateVertexToEnvironmentVertex
              (l.terrain_.getTerrainSpaceModel.stateToVertex (actionState a))
              TypeOfState.XY_Y) = none := by
        unfold TerrainMap.count at hc
        cases hf : l.terrain_.find
            (l.terrain_.getTerrainSpaceModel.stateVertexToEnvironmentVertex
              (l.terrain_.getTerrainSpaceModel.stateToVertex (actionState a))
              TypeOfState.XY_Y) with
        | none => rfl
        | some d => simp [hf] at hc
      unfold LatticeBasedBodyAdjacency.terrainWeight LatticeBasedBodyAdjacency.actionVertex
      rw [hf]

theorem laneLattice_find (s : Bool) :
    (laneLattice s).terrain_.find
      ((laneLattice s).terrain_.getTerrainSpaceModel.stateVertexToEnvironmentVertex
        ((laneLattice s).actionVertex (laneAction 5 3)) TypeOfState.XY_Y) = some ⟨4, 0⟩ ∧
    (laneLattice s).terrain_.find
      ((laneLattice s).terrain_.getTerrainSpaceModel.stateVertexToEnvironmentVertex
        ((laneLattice s).actionVertex (laneAction 8 2)) TypeOfState.XY_Y) = none := by
  constructor <;>
  norm_num [LatticeBasedBodyAdjacency.actionVertex,
    actionState, laneAction, laneLattice, laneTerrain, unitTerrain,
    unitSpaceModel_stateToVertex, unitSpaceModel_environmentVertex,
    TerrainMap.find, cellVertex, encodeIndex_inj]

theorem laneLattice_terrainWeight (s : Bool) :
    (laneLattice s).terrainWeight (laneAction 5 3) = 4 ∧
    (laneLattice s).terrainWeight (laneAction 8 2) = 23 / 10 := by
  constructor
  · exact terrainWeight_of_some _ _ _ (laneLattice_find s).1
  · rw [terrainWeight_of_none _ _ (laneLattice_find s).2]
    norm_num [laneLattice, laneTerrain, unitTerrain]

/-- Witness of C13 on the lane terrain: the action onto the stored cell of cost 4
has weight 4 and the action onto an unknown cell has weight 1.15 * 2, the costs 3
and 2 of the actions being left out. -/
theorem lattice_getSuccessors_weight_without_stance_witness :
    ∃ l2 : LatticeBasedBodyAdjacency,
      (laneLattice false).getSuccessors 4 [] (poseVertex 0 0 0) =
        some (l2, [(poseVertex 5 0 0, 4), (poseVertex 8 0 0, 23 / 10)]) := by
  obtain ⟨l2, h⟩ :=
    (lattice_getSuccessors_weight_without_stance (laneLattice false) 4 [] (poseVertex 0 0 0)
      rfl rfl (laneLattice_scan false)).1
  refine ⟨l2, ?_⟩
  rw [h, laneLattice_actions]
  simp [List.filter_cons, laneLattice_accepted, laneLattice_vertices, laneLattice_terrainWeight]

/-- C14: with terrain information present and stance adjacency enabled, and a fuel
that lets the body scan and the stance sampling of every generated action end, the
lattice `getSuccessors` returns the given list extended by one edge per accepted
action `a` of weight `c + a.cost`, where `c` is the stance cost `stanceCostFor` of
the target state of `a` computed for the delta between that target state and the
decoded state of the vertex: the stance areas are the footstep search areas of the
robot for that delta and the feature context carries the same delta as body action.
That stance cost is the value that `computeBodyCost` writes when the member
`current_action_` holds that delta. -/
theorem lattice_getSuccessors_weight_with_stance (l : LatticeBasedBodyAdjacency)
    (fuel : Nat) (successors : List Edge) (v : Vertex)
    (hinfo : l.terrain_.isTerrainInformation = true)
    (hstance : l.isStanceAdjacency = true)
    (hscan : l.obstacleScanEnds fuel)
    (hsampling : ∀ a ∈ l.generatedActions v,
      (∀ area ∈ l.robot_.getFootstepSearchAreas
          ((actionState a).sub (l.terrain_.getTerrainSpaceModel.vertexToState v)),
        0 < area.resolution) ∧
      areasFuel (l.robot_.getFootstepSearchAreas
          ((actionState a).sub (l.terrain_.getTerrainSpaceModel.vertexToState v))) ≤ fuel) :
    ∃ (l2 : LatticeBasedBodyAdjacency) (c : Action3d → ℚ),
      l.getSuccessors fuel successors v =
        some (l2, successors ++
          ((l.generatedActions v).filter l.accepted).map (fun a =>
            (l.terrain_.getTerrainSpaceModel.stateToVertex (actionState a), c a + a.cost))) ∧
      ∀ a ∈ l.generatedActions v,
        l.stanceCostFor fuel (actionState a)
            ((actionState a).sub (l.terrain_.getTerrainSpaceModel.vertexToState v)) =
          some (c a) ∧
        (LatticeBasedBodyAdjacency.computeBodyCost
            { l with current_action_ :=
              (actionState a).sub (l.terrain_.getTerrainSpaceModel.vertexToState v) }
            fuel (actionState a)).map Prod.snd = some (c a) := by
  obtain ⟨l2, h⟩ := lattice_getSuccessors_closed l fuel successors v hinfo hscan
    (Or.inr hsampling)
  have hc : ∀ a ∈ l.generatedActions v,
      l.stanceCostFor fuel (actionState a)
          ((actionState a).sub (l.terrain_.getTerrainSpaceModel.vertexToState v)) =
        some ((l.stanceCostFor fuel (actionState a)
          ((actionState a).sub (l.terrain_.getTerrainSpaceModel.vertexToState v))).getD 0) := by
    intro a ha
    obtain ⟨c, hc⟩ := stanceCostFor_isSome l fuel (actionState a)
      ((actionState a).sub (l.terrain_.getTerrainSpaceModel.vertexToState v))
      (hsampling a ha).1 (hsampling a ha).2
    rw [hc]
    rfl
  refine ⟨l2, fun a => (l.stanceCostFor fuel (actionState a)
    ((actionState a).sub (l.terrain_.getTerrainSpaceModel.vertexToState v))).getD 0, ?_, ?_⟩
  · rw [h]
    congr 2
    congr 1
    apply List.map_congr_left
    intro a ha
    have ha2 : a ∈ l.generatedActions v := (List.mem_filter.mp ha).1
    have hw : l.actionWeight fuel (l.terrain_.getTerrainSpaceModel.vertexToState v) a =
        some ((l.stanceCostFor fuel (actionState a)
          ((actionState a).sub (l.terrain_.getTerrainSpaceModel.vertexToState v))).getD 0 +
            a.cost) := by
      unfold LatticeBasedBodyAdjacency.actionWeight
      rw [hstance, hc a ha2]
      rfl
    rw [hw]
    rfl
  · intro a ha
    refine ⟨hc a ha, ?_⟩
    rw [computeBodyCost_snd]
    exact hc a ha

theorem laneLattice_stanceCost (s : Bool) (action : Vector3d) :
    (laneLattice s).stanceCostFor 4 (actionState (laneAction 5 3)) action = some 4 ∧
    (laneLattice s).stanceCostFor 4 (actionState (laneAction 8 2)) action = some (23 / 10) := by
  constructor <;>
  norm_num [LatticeBasedBodyAdjacency.stanceCostFor, actionState, laneAction,
    meanStanceCost, sumStanceCosts, stanceCost, stanceCostQueue, forLoop, sampleCell,
    rotatedPoint, setInsert, pair_first_less, averageLowest, toUnsigned, sumLowest,
    addFeatureCosts, TerrainMap.getTerrainCost, laneRobot, pointArea, yawZeroLibm,
    laneLattice, laneTerrain, unitTerrain, unitSpaceModel, cellVertex, TerrainMap.count,
    TerrainMap.find, encodeIndex_decode, encodeIndex_inj, Nat.unpair_pair,
    show Int.toNat 10 = 10 from rfl]

theorem laneLattice_areas (s : Bool) (action : Vector3d) :
    (∀ area ∈ (laneLattice s).robot_.getFootstepSearchAreas action, 0 < area.resolution) ∧
      areasFuel ((laneLattice s).robot_.getFootstepSearchAreas action) ≤ 4 := by
  norm_num [laneLattice, laneRobot, pointArea, areasFuel, areaFuel, sampleCount]

/-- Witness of C14 on the lane terrain: the accepted actions of costs 3 and 2 reach
stance costs 4 and 1.15 * 2, hence the weights 7 and 4.3. -/
theorem lattice_getSuccessors_weight_with_stance_witness :
    ∃ (l2 : LatticeBasedBodyAdjacency) (c : Action3d → ℚ),
      (laneLattice true).getSuccessors 4 [] (poseVertex 0 0 0) =
        some (l2, [(poseVertex 5 0 0, c (laneAction 5 3) + 3),
          (poseVertex 8 0 0, c (laneAction 8 2) + 2)]) ∧
      c (laneAction 5 3) = 4 ∧ c (laneAction 8 2) = 23 / 10 := by
  obtain ⟨l2, c, h, hc⟩ :=
    lattice_getSuccessors_weight_with_stance (laneLattice true) 4 [] (poseVertex 0 0 0)
      rfl rfl (laneLattice_scan true) (fun a _ => laneLattice_areas true _)
  have h5 := (hc (laneAction 5 3) (by rw [laneLattice_actions]; simp)).1
  have h8 := (hc (laneAction 8 2) (by rw [laneLattice_actions]; simp)).1
  rw [(laneLattice_stanceCost true _).1] at h5
  rw [(laneLattice_stanceCost true _).2] at h8
  refine ⟨l2, c, ?_, (Option.some.inj h5).symm, (Option.some.inj h8).symm⟩
  have hf : ((laneLattice true).generatedActions (poseVertex 0 0 0)).filter
      (laneLattice true).accepted = [laneAction 5 3, laneAction 8 2] := by
    rw [laneLattice_actions]
    simp [List.filter_cons, laneLattice_accepted]
  have hv := laneLattice_vertices true
  simp only [LatticeBasedBodyAdjacency.actionVertex] at hv
  rw [h, hf]
  simp only [List.map, List.nil_append, hv.1, hv.2,
    show (laneAction 5 3).cost = 3 from rfl, show (laneAction 8 2).cost = 2 from rfl]

/-! ## Non-negative edge weights -/

theorem getTerrainCost_nonneg (t : TerrainMap)
    (h : ∀ e ∈ t.getTerrainDataMap, 0 ≤ e.2.cost) (v : Vertex) (c : ℚ)
    (hc : t.getTerrainCost v = some c) : 0 ≤ c := by
  unfold TerrainMap.getTerrainCost TerrainMap.find at hc
  simp only [Option.map_map, Option.map_eq_some'] at hc
  obtain ⟨e, he, rfl⟩ := hc
  exact h e (List.mem_of_find?_eq_some he)

theorem setInsert_nonneg (e : Weight × Vertex) (he : 0 ≤ e.1) :
    ∀ q : List (Weight × Vertex), (∀ x ∈ q, 0 ≤ x.1) → ∀ x ∈ setInsert q e, 0 ≤ x.1 := by
  intro q
  induction q with
  | nil =>
    intro _ x hx
    rw [setInsert, List.mem_singleton] at hx
    rw [hx]
    exact he
  | cons a rest ih =>
    intro hq x hx
    unfold setInsert at hx
    split_ifs at hx
    · rcases List.mem_cons.mp hx with rfl | hx
      · exact he
      · exact hq x hx
    · rcases List.mem_cons.mp hx with rfl | hx
      · exact hq _ (List.mem_cons_self _ _)
      · exact ih (fun y hy => hq y (List.mem_cons_of_mem _ hy)) x hx
    · exact hq x hx

theorem forLoop_invariant {σ : Type} (P : σ → Prop) (body : ℚ → σ → Option σ)
    (hbody : ∀ v s s2, P s → body v s = some s2 → P s2) (hi step : ℚ) :
    ∀ (fuel : Nat) (v : ℚ) (s s2 : σ), P s → forLoop body hi step fuel v s = some s2 → P s2 := by
  intro fuel
  induction fuel with
  | zero =>
    intro v s s2 _ h
    simp [forLoop] at h
  | succ fuel ih =>
    intro v s s2 hs h
    unfold forLoop at h
    by_cases hv : v ≤ hi
    · rw [if_pos hv] at h
      obtain ⟨s1, h1, h2⟩ := Option.bind_eq_some.mp h
      exact ih _ s1 s2 (hbody v s s1 hs h1) h2
    · rw [if_neg hv] at h
      rw [← Option.some.inj h]
      exact hs

theorem sampleCell_nonneg (t : TerrainMap) (m : Libm) (state : Vector3d)
    (h : ∀ e ∈ t.getTerrainDataMap, 0 ≤ e.2.cost) (y x : ℚ) (q q2 : List (Weight × Vertex))
    (hq : ∀ e ∈ q, 0 ≤ e.1) (hs : sampleCell t m state y x q = some q2) :
    ∀ e ∈ q2, 0 ≤ e.1 := by
  unfold sampleCell at hs
  simp only at hs
  split_ifs at hs
  · obtain ⟨c, hc, rfl⟩ := Option.map_eq_some'.mp hs
    exact setInsert_nonneg _ (getTerrainCost_nonneg t h _ c hc) q hq
  · rw [← Option.some.inj hs]
    exact hq

theorem stanceCostQueue_nonneg (t : TerrainMap) (m : Libm) (state : Vector3d)
    (area : SearchArea) (fuel : Nat) (h : ∀ e ∈ t.getTerrainDataMap, 0 ≤ e.2.cost)
    (q : List (Weight × Vertex)) (hq : stanceCostQueue t m state area fuel = some q) :
    ∀ e ∈ q, 0 ≤ e.1 := by
  unfold stanceCostQueue at hq
  refine forLoop_invariant (fun q : List (Weight × Vertex) => ∀ e ∈ q, 0 ≤ e.1) _ ?_ _ _ fuel _
    [] q (fun e he => absurd he (List.not_mem_nil e)) hq
  intro y s s2 hs hbody
  exact forLoop_invariant (fun q : List (Weight × Vertex) => ∀ e ∈ q, 0 ≤ e.1) _
    (fun x q1 q2 hq1 hc => sampleCell_nonneg t m state h y x q1 q2 hq1 hc) _ _ fuel _ s s2 hs
    hbody

theorem sumLowest_nonneg : ∀ (n : Nat) (q : List (Weight × Vertex)) (acc : ℚ),
    (∀ e ∈ q, 0 ≤ e.1) → 0 ≤ acc → 0 ≤ sumLowest n q acc := by
  intro n
  induction n with
  | zero =>
    intro q acc _ hacc
    simpa [sumLowest] using hacc
  | succ n ih =>
    intro q acc hq hacc
    cases q with
    | nil => simpa [sumLowest] using hacc
    | cons a rest =>
      rw [sumLowest]
      exact ih rest _ (fun e he => hq e (List.mem_cons_of_mem _ he))
        (add_nonneg hacc (hq a (List.mem_cons_self _ _)))

theorem averageLowest_nonneg (n : Int) (uf avg : ℚ) (q : List (Weight × Vertex))
    (huf : 0 ≤ uf) (havg : 0 ≤ avg) (hq : ∀ e ∈ q, 0 ≤ e.1) :
    0 ≤ averageLowest n uf avg q := by
  unfold averageLowest
  simp only
  split_ifs
  · rw [zero_add]
    exact mul_nonneg huf havg
  · exact div_nonneg (sumLowest_nonneg _ q 0 hq le_rfl) (Nat.cast_nonneg _)
  · rw [zero_add]
    exact mul_nonneg huf havg
  · exact div_nonneg (sumLowest_nonneg _ q 0 hq le_rfl) (Nat.cast_nonneg _)

theorem stanceCost_nonneg (t : TerrainMap) (m : Libm) (n : Int) (uf : ℚ) (state : Vector3d)
    (area : SearchArea) (fuel : Nat) (h : ∀ e ∈ t.getTerrainDataMap, 0 ≤ e.2.cost)
    (huf : 0 ≤ uf) (havg : 0 ≤ t.getAverageCostOfTerrain) (c : ℚ)
    (hc : stanceCost t m n uf state area fuel = some c) : 0 ≤ c := by
  unfold stanceCost at hc
  obtain ⟨q, hq, rfl⟩ := Option.map_eq_some'.mp hc
  exact averageLowest_nonneg n uf _ q huf havg (stanceCostQueue_nonneg t m state area fuel h q hq)

theorem sumStanceCosts_nonneg (t : TerrainMap) (m : Libm) (n : Int) (uf : ℚ)
    (state : Vector3d) (fuel : Nat) (h : ∀ e ∈ t.getTerrainDataMap, 0 ≤ e.2.cost)
    (huf : 0 ≤ uf) (havg : 0 ≤ t.getAverageCostOfTerrain) :
    ∀ (areas : List SearchArea) (acc c : ℚ), 0 ≤ acc →
      sumStanceCosts t m n uf state fuel areas acc = some c → 0 ≤ c := by
  intro areas
  induction areas with
  | nil =>
    intro acc c hacc hc
    rw [sumStanceCosts] at hc
    rw [← Option.some.inj hc]
    exact hacc
  | cons area rest ih =>
    intro acc c hacc hc
    rw [sumStanceCosts] at hc
    obtain ⟨s, hs, hrest⟩ := Option.bind_eq_some.mp hc
    exact ih _ c (add_nonneg hacc (stanceCost_nonneg t m n uf state area fuel h huf havg s hs))
      hrest

theorem addFeatureCosts_nonneg (info : RobotAndTerrain) :
    ∀ (features : List Feature) (cost : ℚ),
      (∀ f ∈ features, 0 ≤ f.getWeight ∧ ∀ info, 0 ≤ f.computeCost info) → 0 ≤ cost →
      0 ≤ addFeatureCosts features info cost := by
  intro features
  induction features with
  | nil =>
    intro cost _ hcost
    exact hcost
  | cons f rest ih =>
    intro cost hf hcost
    unfold addFeatureCosts
    rw [List.foldl_cons]
    exact ih _ (fun f2 hf2 => hf f2 (List.mem_cons_of_mem _ hf2))
      (add_nonneg hcost
        (mul_nonneg (hf f (List.mem_cons_self _ _)).1 ((hf f (List.mem_cons_self _ _)).2 info)))

theorem bodyCost_nonneg (t : TerrainMap) (m : Libm) (n : Int) (uf : ℚ) (state : Vector3d)
    (areas : List SearchArea) (fuel : Nat) (features : List Feature) (info : RobotAndTerrain)
    (h : nonNegativeInputs t features uf) (c : ℚ)
    (hc : (meanStanceCost t m n uf state areas fuel).map (addFeatureCosts features info) =
      some c) : 0 ≤ c := by
  obtain ⟨hcost, havg, hfeat, huf⟩ := h
  obtain ⟨mean, hmean, rfl⟩ := Option.map_eq_some'.mp hc
  unfold meanStanceCost at hmean
  obtain ⟨s, hs, rfl⟩ := Option.map_eq_some'.mp hmean
  exact addFeatureCosts_nonneg info features _ hfeat
    (div_nonneg
      (sumStanceCosts_nonneg t m n uf state fuel hcost (le_trans zero_le_one huf) havg areas 0 s
        le_rfl hs)
      (Nat.cast_nonneg _))

theorem grid_computeBodyCost_nonneg (g : GridBasedBodyAdjacency) (fuel : Nat) (v : Vertex)
    (h : nonNegativeInputs g.terrain_ g.features_ g.uncertainty_factor_) (c : ℚ)
    (hc : g.computeBodyCost fuel v = some c) : 0 ≤ c :=
  bodyCost_nonneg _ _ _ _ _ _ _ _ _ h c hc

theorem grid_successorsLoop_nonneg (g : GridBasedBodyAdjacency) (fuel : Nat)
    (h : nonNegativeInputs g.terrain_ g.features_ g.uncertainty_factor_) :
    ∀ (ns : List Vertex) (successors r : List Edge),
      g.successorsLoop fuel ns successors = some r →
      ∃ es : List Edge, r = successors ++ es ∧ ∀ e ∈ es, 0 ≤ e.2 := by
  intro ns
  induction ns with
  | nil =>
    intro successors r hr
    rw [GridBasedBodyAdjacency.successorsLoop] at hr
    exact ⟨[], by rw [← Option.some.inj hr, List.append_nil],
      fun e he => absurd he (List.not_mem_nil e)⟩
  | cons n rest ih =>
    intro successors r hr
    rw [GridBasedBodyAdjacency.successorsLoop] at hr
    have key : ∀ c : ℚ, 0 ≤ c →
        g.successorsLoop fuel rest (successors ++ [(n, c)]) = some r →
        ∃ es : List Edge, r = successors ++ es ∧ ∀ e ∈ es, 0 ≤ e.2 := by
      intro c hc hrest
      obtain ⟨es, hes, hpos⟩ := ih _ r hrest
      refine ⟨(n, c) :: es, by rw [hes, List.append_assoc, List.singleton_append], ?_⟩
      intro e he
      rcases List.mem_cons.mp he with rfl | he
      · exact hc
      · exact hpos e he
    split_ifs at hr
    · obtain ⟨c, hc, hrest⟩ := Option.bind_eq_some.mp hr
      exact key c (getTerrainCost_nonneg g.terrain_ h.1 _ c hc) hrest
    · obtain ⟨c, hc, hrest⟩ := Option.bind_eq_some.mp hr
      exact key c (grid_computeBodyCost_nonneg g fuel n h c hc) hrest

theorem grid_getSuccessors_nonneg (g : GridBasedBodyAdjacency) (fuel : Nat)
    (h : nonNegativeInputs g.terrain_ g.features_ g.uncertainty_factor_)
    (successors : List Edge) (v : Vertex) (r : List Edge)
    (hr : g.getSuccessors fuel successors v = some r) :
    ∃ es : List Edge, r = successors ++ es ∧ ∀ e ∈ es, 0 ≤ e.2 := by
  unfold GridBasedBodyAdjacency.getSuccessors at hr
  simp only at hr
  split_ifs at hr
  · exact grid_successorsLoop_nonneg g fuel h _ successors r hr
  · exact ⟨[], by rw [← Option.some.inj hr, List.append_nil],
      fun e he => absurd he (List.not_mem_nil e)⟩

theorem edgesOf_pushBack_cases (m : AdjacencyMap) (k k2 : Vertex) (x e : Edge)
    (h : e ∈ edgesOf (adjacencyPushBack m k x) k2) : e ∈ edgesOf m k2 ∨ e = x := by
  by_cases hk : k2 = k
  · subst hk
    rw [edgesOf_pushBack_same] at h
    rcases List.mem_append.mp h with h | h
    · exact Or.inl h
    · exact Or.inr (List.mem_singleton.mp h)
  · rw [edgesOf_pushBack_other m k k2 x hk] at h
    exact Or.inl h

theorem pushNeighborEdges_cases (sv : Vertex) (c : Weight) (k : Vertex) (e : Edge) :
    ∀ (ns : List Vertex) (m : AdjacencyMap), e ∈ edgesOf (pushNeighborEdges sv c ns m) k →
      e ∈ edgesOf m k ∨ e = (sv, c) := by
  intro ns
  induction ns with
  | nil => intro m h; exact Or.inl h
  | cons n rest ih =>
    intro m h
    rw [pushNeighborEdges] at h
    rcases ih _ h with h | h
    · exact edgesOf_pushBack_cases m n k (sv, c) e h
    · exact Or.inr h

theorem terrainLoop_nonneg (g : GridBasedBodyAdjacency) (fuel : Nat) (yaw : ℚ)
    (h : nonNegativeInputs g.terrain_ g.features_ g.uncertainty_factor_)
    (m0 : AdjacencyMap) :
    ∀ (entries : List (Vertex × TerrainData)) (m r : AdjacencyMap),
      (∀ e ∈ entries, 0 ≤ e.2.cost) →
      (∀ k, ∀ e ∈ edgesOf m k, e ∈ edgesOf m0 k ∨ 0 ≤ e.2) →
      g.terrainLoop fuel yaw entries m = some r →
      ∀ k, ∀ e ∈ edgesOf r k, e ∈ edgesOf m0 k ∨ 0 ≤ e.2 := by
  intro entries
  induction entries with
  | nil =>
    intro m r _ hm hr
    rw [GridBasedBodyAdjacency.terrainLoop] at hr
    rw [← Option.some.inj hr]
    exact hm
  | cons en rest ih =>
    intro m r hen hm hr
    rw [GridBasedBodyAdjacency.terrainLoop] at hr
    simp only at hr
    have key : ∀ (c : ℚ) (ns : List Vertex), 0 ≤ c →
        ∀ k, ∀ e ∈ edgesOf
            (pushNeighborEdges (cellStateVertex g.terrain_.getTerrainSpaceModel yaw en.1) c ns m) k,
          e ∈ edgesOf m0 k ∨ 0 ≤ e.2 := by
      intro c ns hc k e he
      rcases pushNeighborEdges_cases _ c k e ns m he with he | he
      · exact hm k e he
      · rw [he]
        exact Or.inr hc
    have hrest : ∀ e ∈ rest, 0 ≤ e.2.cost := fun e he => hen e (List.mem_cons_of_mem _ he)
    split_ifs at hr
    · exact ih _ r hrest (key _ _ (hen en (List.mem_cons_self _ _))) hr
    · obtain ⟨c, hc, hr2⟩ := Option.bind_eq_some.mp hr
      exact ih _ r hrest (key c _ (grid_computeBodyCost_nonneg g fuel _ h c hc)) hr2

theorem computeAdjacencyMap_nonneg (g : GridBasedBodyAdjacency) (fuel : Nat)
    (h : nonNegativeInputs g.terrain_ g.features_ g.uncertainty_factor_)
    (start_flag0 : Bool) (closest_source0 closest_target0 : Vertex)
    (adjacency_map : AdjacencyMap) (source target : Vertex)
    (r : GridBasedBodyAdjacency × AdjacencyMap)
    (hr : g.computeAdjacencyMap fuel start_flag0 closest_source0 closest_target0 adjacency_map
      source target = some r) :
    ∀ k, ∀ e ∈ edgesOf r.2 k, e ∈ edgesOf adjacency_map k ∨ 0 ≤ e.2 := by
  have h0 : ∀ k, ∀ e ∈ edgesOf adjacency_map k, e ∈ edgesOf adjacency_map k ∨ 0 ≤ e.2 :=
    fun k e he => Or.inl he
  have step : ∀ (c : Prop) [Decidable c] (m1 : AdjacencyMap) (k1 v1 : Vertex),
      (∀ k, ∀ e ∈ edgesOf m1 k, e ∈ edgesOf adjacency_map k ∨ 0 ≤ e.2) →
      ∀ k, ∀ e ∈ edgesOf (if c then adjacencyPushBack m1 k1 (v1, 0) else m1) k,
        e ∈ edgesOf adjacency_map k ∨ 0 ≤ e.2 := by
    intro c _ m1 k1 v1 hm1 k e he
    by_cases hc : c
    · rw [if_pos hc] at he
      rcases edgesOf_pushBack_cases m1 k1 k (v1, 0) e he with he | he
      · exact hm1 k e he
      · rw [he]
        exact Or.inr le_rfl
    · rw [if_neg hc] at he
      exact hm1 k e he
  unfold GridBasedBodyAdjacency.computeAdjacencyMap at hr
  by_cases hinfo : g.terrain_.isTerrainInformation = true
  · simp only [hinfo, if_true] at hr
    obtain ⟨m, hm, rfl⟩ := Option.map_eq_some'.mp hr
    exact terrainLoop_nonneg
      { g with stance_areas_ := g.robot_.getFootstepSearchAreas Vector3d.zero } fuel _ h
      adjacency_map _ _ m h.1 (step _ _ _ _ (step _ _ _ _ h0)) hm
  · simp only [hinfo] at hr
    rw [← Option.some.inj hr]
    exact h0

theorem terrainWeight_nonneg (l : LatticeBasedBodyAdjacency)
    (h : nonNegativeInputs l.terrain_ l.features_ l.uncertainty_factor_) (a : Action3d) :
    0 ≤ l.terrainWeight a := by
  cases hf : l.terrain_.find
      (l.terrain_.getTerrainSpaceModel.stateVertexToEnvironmentVertex (l.actionVertex a)
        TypeOfState.XY_Y) with
  | none =>
    rw [terrainWeight_of_none l a hf]
    exact mul_nonneg (le_trans zero_le_one h.2.2.2) h.2.1
  | some d =>
    rw [terrainWeight_of_some l a d hf]
    refine getTerrainCost_nonneg l.terrain_ h.1
      (l.terrain_.getTerrainSpaceModel.stateVertexToEnvironmentVertex (l.actionVertex a)
        TypeOfState.XY_Y) d.cost ?_
    unfold TerrainMap.getTerrainCost
    rw [hf]
    rfl

theorem stanceCostFor_nonneg (l : LatticeBasedBodyAdjacency) (fuel : Nat)
    (state action : Vector3d)
    (h : nonNegativeInputs l.terrain_ l.features_ l.uncertainty_factor_) (c : ℚ)
    (hc : l.stanceCostFor fuel state action = some c) : 0 ≤ c :=
  bodyCost_nonneg _ _ _ _ _ _ _ _ _ h c hc

theorem actionWeight_nonneg (l : LatticeBasedBodyAdjacency) (fuel : Nat)
    (current_state : Vector3d)
    (h : nonNegativeInputs l.terrain_ l.features_ l.uncertainty_factor_) (a : Action3d)
    (ha : 0 ≤ a.cost) (w : ℚ) (hw : l.actionWeight fuel current_state a = some w) : 0 ≤ w := by
  unfold LatticeBasedBodyAdjacency.actionWeight at hw
  split_ifs at hw
  · rw [← Option.some.inj hw]
    exact terrainWeight_nonneg l h a
  · obtain ⟨c, hc, rfl⟩ := Option.map_eq_some'.mp hw
    exact add_nonneg (stanceCostFor_nonneg l fuel _ _ h c hc) ha

theorem expectedEdges_nonneg (l : LatticeBasedBodyAdjacency) (fuel : Nat)
    (current_state : Vector3d)
    (h : nonNegativeInputs l.terrain_ l.features_ l.uncertainty_factor_) :
    ∀ (actions : List Action3d) (es : List Edge), (∀ a ∈ actions, 0 ≤ a.cost) →
      l.expectedEdges fuel current_state actions = some es → ∀ e ∈ es, 0 ≤ e.2 := by
  intro actions
  induction actions with
  | nil =>
    intro es _ hes e he
    rw [LatticeBasedBodyAdjacency.expectedEdges] at hes
    rw [← Option.some.inj hes] at he
    exact absurd he (List.not_mem_nil e)
  | cons a rest ih =>
    intro es hcost hes
    rw [LatticeBasedBodyAdjacency.expectedEdges] at hes
    obtain ⟨free, _, hes⟩ := Option.bind_eq_some.mp hes
    have hrest : ∀ b ∈ rest, 0 ≤ b.cost := fun b hb => hcost b (List.mem_cons_of_mem _ hb)
    cases free with
    | false => exact ih es hrest hes
    | true =>
      simp only [if_true] at hes
      obtain ⟨w, hw, hes⟩ := Option.bind_eq_some.mp hes
      obtain ⟨es2, hes2, rfl⟩ := Option.map_eq_some'.mp hes
      intro e he
      rcases List.mem_cons.mp he with rfl | he
      · exact actionWeight_nonneg l fuel current_state h a (hcost a (List.mem_cons_self _ _)) w hw
      · exact ih es2 hrest hes2 e he

theorem lattice_getSuccessors_nonneg (l : LatticeBasedBodyAdjacency) (fuel : Nat)
    (h : nonNegativeInputs l.terrain_ l.features_ l.uncertainty_factor_)
    (successors : List Edge) (v : Vertex)
    (hcost : ∀ a ∈ l.generatedActions v, 0 ≤ a.cost)
    (r : LatticeBasedBodyAdjacency × List Edge)
    (hr : l.getSuccessors fuel successors v = some r) :
    ∃ es : List Edge, r.2 = successors ++ es ∧ ∀ e ∈ es, 0 ≤ e.2 := by
  by_cases hinfo : l.terrain_.isTerrainInformation = true
  · have heq := lattice_getSuccessors_eq l fuel successors v hinfo
    rw [hr, Option.map_some'] at heq
    obtain ⟨es, hes, hes2⟩ := Option.map_eq_some'.mp heq.symm
    exact ⟨es, hes2.symm, expectedEdges_nonneg l fuel _ h _ es hcost hes⟩
  · unfold LatticeBasedBodyAdjacency.getSuccessors at hr
    simp only [hinfo] at hr
    rw [← Option.some.inj hr]
    exact ⟨[], by rw [List.append_nil], fun e he => absurd he (List.not_mem_nil e)⟩

theorem bareLattice_successors (fuel : Nat) :
    ∃ l2 : LatticeBasedBodyAdjacency,
      bareLattice.getSuccessors fuel [] (poseVertex 0 0 0) = some (l2, [(poseVertex 1 0 0, 1)]) := by
  obtain ⟨l2, h⟩ := lattice_getSuccessors_closed bareLattice fuel [] (poseVertex 0 0 0) rfl
    (Or.inl rfl)
    (Or.inr (fun a _ => ⟨fun area harea => absurd harea (List.not_mem_nil area),
      Nat.zero_le fuel⟩))
  have hactions : bareLattice.generatedActions (poseVertex 0 0 0) = [⟨⟨⟨1, 0⟩, 0⟩, 1⟩] := by
    norm_num [LatticeBasedBodyAdjacency.generatedActions, bareLattice, stepRobot, plusTerrain,
      unitTerrain, unitSpaceModel, poseVertex, cellVertex, Vector3d.head2,
      encodeIndex_decode, Nat.unpair_pair]
  have haccepted : bareLattice.accepted ⟨⟨⟨1, 0⟩, 0⟩, 1⟩ = true := rfl
  have hvertex : bareLattice.actionVertex ⟨⟨⟨1, 0⟩, 0⟩, 1⟩ = poseVertex 1 0 0 := by
    norm_num [LatticeBasedBodyAdjacency.actionVertex, actionState, bareLattice, plusTerrain,
      unitTerrain, unitSpaceModel_stateToVertex, poseVertex, cellVertex]
  have hweight : ∀ current_state : Vector3d,
      bareLattice.actionWeight fuel current_state ⟨⟨⟨1, 0⟩, 0⟩, 1⟩ = some 1 := by
    intro current_state
    norm_num [LatticeBasedBodyAdjacency.actionWeight, LatticeBasedBodyAdjacency.isStanceAdjacency,
      LatticeBasedBodyAdjacency.stanceCostFor, meanStanceCost, sumStanceCosts, addFeatureCosts,
      bareLattice, stepRobot]
  refine ⟨l2, ?_⟩
  rw [h, hactions]
  simp only [List.filter_cons, haccepted, if_true, List.filter_nil, List.map, List.nil_append,
    hvertex, hweight, Option.getD_some]

theorem laneLattice_inputs (s : Bool) :
    nonNegativeInputs (laneLattice s).terrain_ (laneLattice s).features_
      (laneLattice s).uncertainty_factor_ := by
  refine ⟨?_, ?_, ?_, ?_⟩
  · intro e he
    simp only [laneLattice, laneTerrain, unitTerrain, List.mem_singleton] at he
    rw [he]
    norm_num
  · norm_num [laneLattice, laneTerrain, unitTerrain]
  · intro f hf
    exact absurd hf (List.not_mem_nil f)
  · norm_num [laneLattice]

theorem laneLattice_primitives (s : Bool) :
    ∀ pose, ∀ a ∈ (laneLattice s).robot_.generateActions [] pose, 0 ≤ a.cost := by
  intro pose a ha
  simp only [laneLattice, laneRobot, List.nil_append, List.mem_cons, List.mem_singleton,
    List.not_mem_nil, or_false] at ha
  rcases ha with rfl | rfl | rfl <;> norm_num

/-! ## The obstacle check -/

/-- C24: when the terrain reports no obstacle information, `isFreeOfObstacle` returns
true for every state vertex, every state representation, both values of the body
flag, every content of the obstacle map and every fuel. -/
theorem isFreeOfObstacle_without_obstacle_information (l : LatticeBasedBodyAdjacency)
    (fuel : Nat) (state_vertex : Vertex) (state_representation : TypeOfState) (body : Bool)
    (hinfo : l.terrain_.isObstacleInformation = false) :
    l.isFreeOfObstacle fuel state_vertex state_representation body = some true := by
  unfold LatticeBasedBodyAdjacency.isFreeOfObstacle
  simp [hinfo]

/-- Witness of C24: the lattice on the row terrain, which reports no obstacle
information, with an obstacle map that marks the probed cell as blocked. -/
theorem isFreeOfObstacle_without_obstacle_information_witness :
    LatticeBasedBodyAdjacency.isFreeOfObstacle
      { rowLattice with
        terrain_ := { rowTerrain with getObstacleMap := [(cellVertex 0 0, true)] } }
      0 (poseVertex 0 0 0) TypeOfState.XY_Y true = some true :=
  isFreeOfObstacle_without_obstacle_information _ 0 (poseVertex 0 0 0) TypeOfState.XY_Y true rfl

theorem isBlocked_eq_true_iff (t : TerrainMap) (v : Vertex) :
    t.isBlocked v = true ↔ t.findObstacle v = some true := by
  unfold TerrainMap.isBlocked
  cases h : t.findObstacle v with
  | none => simp
  | some b => simp

/-- C23: with obstacle information present and `body = false`, `isFreeOfObstacle`
returns, for every fuel, and its result is false if and only if the environment
vertex that `stateVertexToEnvironmentVertex` gives for the state vertex is a key of
the obstacle map with the value true; for a vertex that is absent from the obstacle
map the result is true. -/
theorem isFreeOfObstacle_point (l : LatticeBasedBodyAdjacency) (fuel : Nat)
    (state_vertex : Vertex) (state_representation : TypeOfState)
    (hinfo : l.terrain_.isObstacleInformation = true) :
    ∃ free : Bool,
      l.isFreeOfObstacle fuel state_vertex state_representation false = some free ∧
      (free = false ↔
        l.terrain_.findObstacle
          (l.terrain_.getObstacleSpaceModel.stateVertexToEnvironmentVertex state_vertex
            state_representation) = some true) ∧
      (l.terrain_.findObstacle
          (l.terrain_.getObstacleSpaceModel.stateVertexToEnvironmentVertex state_vertex
            state_representation) = none → free = true) := by
  refine ⟨!l.terrain_.isBlocked
    (l.terrain_.getObstacleSpaceModel.stateVertexToEnvironmentVertex state_vertex
      state_representation), ?_, ?_, ?_⟩
  · unfold LatticeBasedBodyAdjacency.isFreeOfObstacle
    simp [hinfo]
  · rw [← isBlocked_eq_true_iff]
    simp
  · intro h
    unfold TerrainMap.isBlocked
    rw [h]
    rfl

theorem laneLattice_obstacle (s : Bool) :
    (laneLattice s).terrain_.findObstacle
      ((laneLattice s).terrain_.getObstacleSpaceModel.stateVertexToEnvironmentVertex
        (poseVertex 2 0 0) TypeOfState.XY_Y) = some true ∧
    (laneLattice s).terrain_.findObstacle
      ((laneLattice s).terrain_.getObstacleSpaceModel.stateVertexToEnvironmentVertex
        (poseVertex 5 0 0) TypeOfState.XY_Y) = none := by
  constructor <;>
  norm_num [TerrainMap.findObstacle, laneLattice, laneTerrain, unitTerrain, poseVertex,
    unitSpaceModel_environmentVertex, cellVertex, encodeIndex_inj]

/-- Witness of C23 on the lane terrain: the state vertex over the blocked cell
`(2,0)` is reported as not free, the state vertex over the cell `(5,0)`, which is
absent from the obstacle map, as free. -/
theorem isFreeOfObstacle_point_witness :
    (laneLattice true).isFreeOfObstacle 0 (poseVertex 2 0 0) TypeOfState.XY_Y false =
      some false ∧
    (laneLattice true).isFreeOfObstacle 0 (poseVertex 5 0 0) TypeOfState.XY_Y false =
      some true := by
  obtain ⟨free2, h2, hiff2, _⟩ :=
    isFreeOfObstacle_point (laneLattice true) 0 (poseVertex 2 0 0) TypeOfState.XY_Y rfl
  obtain ⟨free5, h5, _, hnone5⟩ :=
    isFreeOfObstacle_point (laneLattice true) 0 (poseVertex 5 0 0) TypeOfState.XY_Y rfl
  rw [h2, h5, hiff2.mpr (laneLattice_obstacle true).1, hnone5 (laneLattice_obstacle true).2]
  exact ⟨rfl, rfl⟩

theorem mem_loopValues (step : ℚ) : ∀ (n : Nat) (v x : ℚ),
    x ∈ loopValues n v step ↔ ∃ k : Nat, k < n ∧ x = v + (k : ℚ) * step := by
  intro n
  induction n with
  | zero =>
    intro v x
    simp [loopValues]
  | succ n ih =>
    intro v x
    rw [loopValues, List.mem_cons, ih]
    constructor
    · rintro (h | ⟨k, hk, h⟩)
      · exact ⟨0, Nat.succ_pos n, by rw [h]; simp⟩
      · exact ⟨k + 1, Nat.succ_lt_succ hk, by rw [h]; push_cast; ring⟩
    · rintro ⟨k, hk, h⟩
      cases k with
      | zero =>
        left
        rw [h]
        simp
      | succ k =>
        right
        exact ⟨k, Nat.lt_of_succ_lt_succ hk, by rw [h]; push_cast; ring⟩

theorem lt_sampleCount_iff {lo hi step : ℚ} (hstep : 0 < step) (k : Nat) :
    k < sampleCount lo hi step ↔ lo + (k : ℚ) * step ≤ hi := by
  unfold sampleCount
  by_cases h : lo ≤ hi
  · rw [if_pos h]
    have h0 : 0 ≤ ⌊(hi - lo) / step⌋ := Int.floor_nonneg.mpr (div_nonneg (by linarith) hstep.le)
    have h1 : ((k : Int) ≤ ⌊(hi - lo) / step⌋) ↔ lo + (k : ℚ) * step ≤ hi := by
      rw [Int.le_floor, le_div_iff₀ hstep]
      push_cast
      constructor <;> intro h2 <;> linarith
    rw [← h1]
    omega
  · rw [if_neg h]
    constructor
    · intro h2
      omega
    · intro h2
      have : 0 ≤ (k : ℚ) * step := mul_nonneg (Nat.cast_nonneg k) hstep.le
      exact absurd (by linarith) h

theorem footprintHit_eq (l : LatticeBasedBodyAdjacency) (v : Vertex) :
    l.footprintHit v = l.footprintHitAt (l.terrain_.getObstacleSpaceModel.vertexToState v) :=
  rfl

theorem isFreeOfObstacle_scan (l : LatticeBasedBodyAdjacency) (fuel : Nat) (v : Vertex)
    (state_representation : TypeOfState)
    (hinfo : l.terrain_.isObstacleInformation = true)
    (hstep : 0 < l.obstacleStep) (hfuel : areaFuel l.scannedWorkspace ≤ fuel) :
    l.isFreeOfObstacle fuel v state_representation true =
      some (!l.footprintHitAt (l.scanPose v state_representation)) := by
  unfold areaFuel LatticeBasedBodyAdjacency.scannedWorkspace at hfuel
  simp only at hfuel
  have hx : sampleCount
      (l.robot_.getPredefinedBodyWorkspace.min_x + (l.scanPose v state_representation).c0)
      (l.robot_.getPredefinedBodyWorkspace.max_x + (l.scanPose v state_representation).c0)
      l.obstacleStep < fuel := by
    rw [sampleCount_shift]
    omega
  have hy : sampleCount
      (l.robot_.getPredefinedBodyWorkspace.min_y + (l.scanPose v state_representation).c1)
      (l.robot_.getPredefinedBodyWorkspace.max_y + (l.scanPose v state_representation).c1)
      l.obstacleStep < fuel := by
    rw [sampleCount_shift]
    omega
  have hs := scanRows_eq l.terrain_ l.libm (l.scanPose v state_representation)
    (l.robot_.getPredefinedBodyWorkspace.min_x + (l.scanPose v state_representation).c0)
    (l.robot_.getPredefinedBodyWorkspace.max_x + (l.scanPose v state_representation).c0)
    (l.robot_.getPredefinedBodyWorkspace.max_y + (l.scanPose v state_representation).c1)
    l.obstacleStep fuel hstep hx fuel
    (l.robot_.getPredefinedBodyWorkspace.min_y + (l.scanPose v state_representation).c1) hy
  unfold LatticeBasedBodyAdjacency.isFreeOfObstacle
  simp only [hinfo, if_true]
  exact congrArg (Option.map (fun found => !found)) hs

theorem obstacleStep_eq_max (l : LatticeBasedBodyAdjacency) :
    l.obstacleStep =
      max l.robot_.getPredefinedBodyWorkspace.resolution l.terrain_.getObstacleResolution := by
  unfold LatticeBasedBodyAdjacency.obstacleStep
  split_ifs with h
  · exact (max_eq_left (le_of_lt h)).symm
  · exact (max_eq_right (not_lt.mp h)).symm

theorem footprintHitAt_iff (l : LatticeBasedBodyAdjacency) (current : Vector3d)
    (hstep : 0 < l.obstacleStep) :
    l.footprintHitAt current = true ↔
      ∃ i j : Nat,
        l.robot_.getPredefinedBodyWorkspace.min_y + current.c1 + (i : ℚ) * l.obstacleStep ≤
          l.robot_.getPredefinedBodyWorkspace.max_y + current.c1 ∧
        l.robot_.getPredefinedBodyWorkspace.min_x + current.c0 + (j : ℚ) * l.obstacleStep ≤
          l.robot_.getPredefinedBodyWorkspace.max_x + current.c0 ∧
        l.terrain_.findObstacle
          (l.terrain_.getObstacleSpaceModel.coordToVertex
            (rotatedPoint l.libm current
              (l.robot_.getPredefinedBodyWorkspace.min_x + current.c0 +
                (j : ℚ) * l.obstacleStep)
              (l.robot_.getPredefinedBodyWorkspace.min_y + current.c1 +
                (i : ℚ) * l.obstacleStep))) = some true := by
  unfold LatticeBasedBodyAdjacency.footprintHitAt
  simp only [List.any_eq_true, mem_loopValues, isBlocked_eq_true_iff]
  constructor
  · rintro ⟨y, ⟨i, hi, rfl⟩, x, ⟨j, hj, rfl⟩, hb⟩
    exact ⟨i, j, (lt_sampleCount_iff hstep i).mp hi, (lt_sampleCount_iff hstep j).mp hj, hb⟩
  · rintro ⟨i, j, hi, hj, hb⟩
    exact ⟨_, ⟨i, (lt_sampleCount_iff hstep i).mpr hi, rfl⟩, _,
      ⟨j, (lt_sampleCount_iff hstep j).mpr hj, rfl⟩, hb⟩

/-- C22: with obstacle information present and `body = true`, for a positive
sampling step and a fuel that covers the body workspace, `isFreeOfObstacle` returns,
and its result is false if and only if some sample of the body workspace maps to a
vertex marked true in the obstacle map. The samples are the points
`(min_x + j * step, min_y + i * step)` of the workspace rectangle placed at the
decoded pose (`i`, `j` natural numbers, the points not beyond the maximum corner),
rotated by the yaw of the pose about its position; the step is the maximum of the
resolution of the body workspace and the resolution of the obstacle map. A sample
whose vertex is absent from the obstacle map or marked false does not count. -/
theorem isFreeOfObstacle_body_footprint (l : LatticeBasedBodyAdjacency) (fuel : Nat)
    (state_vertex : Vertex) (state_representation : TypeOfState)
    (hinfo : l.terrain_.isObstacleInformation = true)
    (hstep : 0 < l.obstacleStep) (hfuel : areaFuel l.scannedWorkspace ≤ fuel) :
    l.obstacleStep =
      max l.robot_.getPredefinedBodyWorkspace.resolution l.terrain_.getObstacleResolution ∧
    ∃ free : Bool,
      l.isFreeOfObstacle fuel state_vertex state_representation true = some free ∧
      (free = false ↔
        ∃ i j : Nat,
          l.robot_.getPredefinedBodyWorkspace.min_y +
              (l.scanPose state_vertex state_representation).c1 + (i : ℚ) * l.obstacleStep ≤
            l.robot_.getPredefinedBodyWorkspace.max_y +
              (l.scanPose state_vertex state_representation).c1 ∧
          l.robot_.getPredefinedBodyWorkspace.min_x +
              (l.scanPose state_vertex state_representation).c0 + (j : ℚ) * l.obstacleStep ≤
            l.robot_.getPredefinedBodyWorkspace.max_x +
              (l.scanPose state_vertex state_representation).c0 ∧
          l.terrain_.findObstacle
            (l.terrain_.getObstacleSpaceModel.coordToVertex
              (rotatedPoint l.libm (l.scanPose state_vertex state_representation)
                (l.robot_.getPredefinedBodyWorkspace.min_x +
                  (l.scanPose state_vertex state_representation).c0 +
                  (j : ℚ) * l.obstacleStep)
                (l.robot_.getPredefinedBodyWorkspace.min_y +
                  (l.scanPose state_vertex state_representation).c1 +
                  (i : ℚ) * l.obstacleStep))) = some true) := by
  refine ⟨obstacleStep_eq_max l, _,
    isFreeOfObstacle_scan l fuel state_vertex state_representation hinfo hstep hfuel, ?_⟩
  rw [← footprintHitAt_iff l _ hstep]
  simp

theorem scanPose_XY_Y (l : LatticeBasedBodyAdjacency) (v : Vertex) :
    l.scanPose v TypeOfState.XY_Y = l.terrain_.getObstacleSpaceModel.vertexToState v := by
  unfold LatticeBasedBodyAdjacency.scanPose
  rw [if_neg (by decide)]

theorem laneLattice_footprint (s : Bool) :
    (laneLattice s).footprintHitAt ((laneLattice s).scanPose (poseVertex 2 0 0) TypeOfState.XY_Y)
      = true ∧
    (laneLattice s).footprintHitAt ((laneLattice s).scanPose (poseVertex 5 0 0) TypeOfState.XY_Y)
      = false := by
  rw [scanPose_XY_Y, scanPose_XY_Y]
  constructor <;>
  norm_num [LatticeBasedBodyAdjacency.footprintHitAt,
    LatticeBasedBodyAdjacency.obstacleStep, sampleCount, loopValues, rotatedPoint,
    TerrainMap.isBlocked, TerrainMap.findObstacle, laneLattice, laneRobot, laneTerrain,
    unitTerrain, unitSpaceModel, yawZeroLibm, poseVertex, cellVertex, encodeIndex_decode,
    encodeIndex_inj, Nat.unpair_pair, show Int.toNat 2 = 2 from rfl]

/-- Witness of C22 on the lane terrain (body workspace `[-1,1] x [-1,1]`, step 1,
cell `(2,0)` blocked): the body placed on `(2,0)` is not free, the body placed on
`(5,0)` is free. -/
theorem isFreeOfObstacle_body_footprint_witness :
    (laneLattice true).isFreeOfObstacle 4 (poseVertex 2 0 0) TypeOfState.XY_Y true =
      some false ∧
    (laneLattice true).isFreeOfObstacle 4 (poseVertex 5 0 0) TypeOfState.XY_Y true =
      some true := by
  have hstep : 0 < (laneLattice true).obstacleStep := by
    norm_num [LatticeBasedBodyAdjacency.obstacleStep, laneLattice, laneRobot, laneTerrain,
      unitTerrain]
  have hfuel : areaFuel (laneLattice true).scannedWorkspace ≤ 4 := by
    norm_num [LatticeBasedBodyAdjacency.obstacleStep, LatticeBasedBodyAdjacency.scannedWorkspace,
      areaFuel, sampleCount, laneLattice, laneRobot, laneTerrain, unitTerrain,
      show Int.toNat 2 = 2 from rfl]
  obtain ⟨_, free2, h2, hiff2⟩ := isFreeOfObstacle_body_footprint (laneLattice true) 4
    (poseVertex 2 0 0) TypeOfState.XY_Y rfl hstep hfuel
  obtain ⟨_, free5, h5, hiff5⟩ := isFreeOfObstacle_body_footprint (laneLattice true) 4
    (poseVertex 5 0 0) TypeOfState.XY_Y rfl hstep hfuel
  rw [← footprintHitAt_iff _ _ hstep] at hiff2 hiff5
  rw [h2, h5]
  have e2 : free2 = false := hiff2.mpr (laneLattice_footprint true).1
  have e5 : free5 = true := by
    cases free5 with
    | true => rfl
    | false =>
      have := hiff5.mp rfl
      rw [(laneLattice_footprint true).2] at this
      exact absurd this (by decide)
  rw [e2, e5]
  exact ⟨rfl, rfl⟩

/-! ## The number of samples visited -/

theorem length_loopValues (step : ℚ) : ∀ (n : Nat) (v : ℚ), (loopValues n v step).length = n := by
  intro n
  induction n with
  | zero => intro v; rfl
  | succ n ih => intro v; rw [loopValues, List.length_cons, ih]

theorem length_gridSamples (lo0 hi0 lo1 hi1 step : ℚ) :
    (gridSamples lo0 hi0 lo1 hi1 step).length =
      sampleCount lo1 hi1 step * sampleCount lo0 hi0 step := by
  unfold gridSamples
  rw [List.length_flatMap]
  have hconst : (List.length ∘ fun (y : ℚ) =>
      (loopValues (sampleCount lo0 hi0 step) lo0 step).map (fun x => (x, y))) =
      fun _ => sampleCount lo0 hi0 step := by
    funext y
    rw [Function.comp_apply, List.length_map, length_loopValues]
  rw [hconst, List.map_const', List.sum_replicate, length_loopValues, smul_eq_mul]

theorem sampleCount_mul_eq_expected (area : SearchArea) :
    sampleCount area.min_y area.max_y area.resolution *
      sampleCount area.min_x area.max_x area.resolution = expectedSamples area := by
  unfold sampleCount expectedSamples
  by_cases hy : area.min_y ≤ area.max_y
  · by_cases hx : area.min_x ≤ area.max_x
    · rw [if_pos hy, if_pos hx,
        if_pos (show area.min_y ≤ area.max_y ∧ area.min_x ≤ area.max_x from ⟨hy, hx⟩)]
    · rw [if_pos hy, if_neg hx,
        if_neg (show ¬ (area.min_y ≤ area.max_y ∧ area.min_x ≤ area.max_x) from
          fun h => hx h.2), Nat.mul_zero]
  · rw [if_neg hy,
      if_neg (show ¬ (area.min_y ≤ area.max_y ∧ area.min_x ≤ area.max_x) from
        fun h => hy h.1), Nat.zero_mul]

theorem forLoop_erase {σ : Type} (body2 : ℚ → σ × Nat → Option (σ × Nat))
    (body : ℚ → σ → Option σ)
    (h : ∀ x s n, (body2 x (s, n)).map Prod.fst = body x s) (hi step : ℚ) :
    ∀ (fuel : Nat) (v : ℚ) (s : σ) (n : Nat),
      (forLoop body2 hi step fuel v (s, n)).map Prod.fst = forLoop body hi step fuel v s := by
  intro fuel
  induction fuel with
  | zero => intro v s n; rfl
  | succ fuel ih =>
    intro v s n
    unfold forLoop
    by_cases hv : v ≤ hi
    · rw [if_pos hv, if_pos hv, ← h v s n]
      cases hb : body2 v (s, n) with
      | none => rfl
      | some r =>
        obtain ⟨s1, n1⟩ := r
        simp only [Option.some_bind, Option.map_some']
        exact ih _ s1 n1
    · rw [if_neg hv, if_neg hv]
      rfl

theorem stanceCostQueueCounted_fst (t : TerrainMap) (m : Libm) (state : Vector3d)
    (area : SearchArea) (fuel : Nat) :
    (stanceCostQueueCounted t m state area fuel).map Prod.fst =
      stanceCostQueue t m state area fuel := by
  unfold stanceCostQueueCounted stanceCostQueue
  refine forLoop_erase _ _ ?_ _ _ fuel _ [] 0
  intro y s n
  refine forLoop_erase _ _ ?_ _ _ fuel _ s n
  intro x s1 n1
  simp only [Option.map_map]
  cases sampleCell t m state y x s1 <;> rfl

theorem foldl_counted {α σ : Type} (f : α → σ → σ) :
    ∀ (xs : List α) (s : σ) (n : Nat),
      xs.foldl (fun (p : σ × Nat) x => (f x p.1, p.2 + 1)) (s, n) =
        (xs.foldl (fun s1 x => f x s1) s, n + xs.length) := by
  intro xs
  induction xs with
  | nil => intro s n; rfl
  | cons x rest ih =>
    intro s n
    rw [List.foldl_cons, List.foldl_cons, ih, List.length_cons]
    congr 1
    omega

theorem foldl_counted_rows {α σ : Type} (g : α → σ → σ) (k : Nat) :
    ∀ (ys : List α) (s : σ) (n : Nat),
      ys.foldl (fun (p : σ × Nat) y => (g y p.1, p.2 + k)) (s, n) =
        (ys.foldl (fun s1 y => g y s1) s, n + ys.length * k) := by
  intro ys
  induction ys with
  | nil => intro s n; simp
  | cons y rest ih =>
    intro s n
    rw [List.foldl_cons, List.foldl_cons, ih, List.length_cons]
    congr 1
    rw [Nat.succ_mul]
    omega

theorem stanceCostQueueCounted_eq (t : TerrainMap) (m : Libm) (state : Vector3d)
    (area : SearchArea) (hres : 0 < area.resolution) (fuel : Nat)
    (hfuel : areaFuel area ≤ fuel) :
    stanceCostQueueCounted t m state area fuel =
      some (collectedQueue t m state area, expectedSamples area) := by
  unfold areaFuel at hfuel
  have hx : sampleCount (area.min_x + state.c0) (area.max_x + state.c0) area.resolution < fuel := by
    rw [sampleCount_shift]
    omega
  have hy : sampleCount (area.min_y + state.c1) (area.max_y + state.c1) area.resolution < fuel := by
    rw [sampleCount_shift]
    omega
  unfold stanceCostQueueCounted collectedQueue
  simp only
  rw [forLoop_total _
    (fun y (p : List (Weight × Vertex) × Nat) =>
      ((loopValues (sampleCount (area.min_x + state.c0) (area.max_x + state.c0) area.resolution)
          (area.min_x + state.c0) area.resolution).foldl
        (fun q1 x => insertSample t m state y x q1) p.1,
       p.2 + sampleCount (area.min_x + state.c0) (area.max_x + state.c0) area.resolution))
    _ _ _ hres fuel _ _ hy]
  · rw [foldl_counted_rows
      (fun y q => (loopValues
          (sampleCount (area.min_x + state.c0) (area.max_x + state.c0) area.resolution)
          (area.min_x + state.c0) area.resolution).foldl
        (fun q1 x => insertSample t m state y x q1) q), length_loopValues, Nat.zero_add,
      sampleCount_shift, sampleCount_shift, sampleCount_mul_eq_expected]
  · intro y p
    rw [forLoop_total _
      (fun x (p1 : List (Weight × Vertex) × Nat) => (insertSample t m state y x p1.1, p1.2 + 1))
      (fun x p1 => by rw [sampleCell_eq, Option.map_some']) _ _ hres fuel _ _ hx]
    obtain ⟨q, n⟩ := p
    rw [foldl_counted (fun x q1 => insertSample t m state y x q1), length_loopValues]

theorem visitedUntilBlocked_le {α : Type} (blocked : α → Bool) :
    ∀ xs : List α, visitedUntilBlocked blocked xs ≤ xs.length := by
  intro xs
  induction xs with
  | nil => exact Nat.le_refl 0
  | cons p rest ih =>
    rw [visitedUntilBlocked, List.length_cons]
    split_ifs
    · omega
    · omega

theorem visitedUntilBlocked_eq {α : Type} (blocked : α → Bool) :
    ∀ xs : List α, visitedUntilBlocked blocked xs =
      if xs.any blocked then (xs.takeWhile (fun p => !blocked p)).length + 1 else xs.length := by
  intro xs
  induction xs with
  | nil => rfl
  | cons p rest ih =>
    rw [visitedUntilBlocked, List.any_cons, List.takeWhile_cons]
    cases hb : blocked p with
    | true => simp
    | false =>
      simp only [Bool.false_eq_true, if_false, Bool.false_or, Bool.not_false, if_true,
        List.length_cons, ih]
      split_ifs <;> rfl

theorem visitedUntilBlocked_append {α : Type} (blocked : α → Bool) :
    ∀ xs ys : List α, visitedUntilBlocked blocked (xs ++ ys) =
      if xs.any blocked then visitedUntilBlocked blocked xs
      else xs.length + visitedUntilBlocked blocked ys := by
  intro xs ys
  induction xs with
  | nil => simp
  | cons p rest ih =>
    rw [List.cons_append, visitedUntilBlocked, visitedUntilBlocked, List.any_cons, ih]
    cases hb : blocked p with
    | true => simp
    | false =>
      simp only [Bool.false_eq_true, if_false, Bool.false_or, List.length_cons]
      split_ifs
      · rfl
      · omega

theorem visitedUntilBlocked_map {α β : Type} (blocked : β → Bool) (f : α → β) :
    ∀ xs : List α, visitedUntilBlocked blocked (xs.map f) =
      visitedUntilBlocked (fun x => blocked (f x)) xs := by
  intro xs
  induction xs with
  | nil => rfl
  | cons p rest ih => rw [List.map_cons, visitedUntilBlocked, visitedUntilBlocked, ih]

theorem scanRowCounted_fst (t : TerrainMap) (m : Libm) (current : Vector3d) (hi step y : ℚ) :
    ∀ (fuel : Nat) (x : ℚ) (n : Nat),
      (scanRowCounted t m current hi step y fuel x n).map Prod.fst =
        scanRow t m current hi step y fuel x := by
  intro fuel
  induction fuel with
  | zero => intro x n; rfl
  | succ fuel ih =>
    intro x n
    unfold scanRowCounted scanRow
    simp only
    split_ifs
    · rfl
    · exact ih _ _
    · rfl

theorem scanRowsCounted_fst (t : TerrainMap) (m : Libm) (current : Vector3d)
    (lo0 hi0 hi1 step : ℚ) (fuel0 : Nat) :
    ∀ (fuel : Nat) (y : ℚ) (n : Nat),
      (scanRowsCounted t m current lo0 hi0 hi1 step fuel0 fuel y n).map Prod.fst =
        scanRows t m current lo0 hi0 hi1 step fuel0 fuel y := by
  intro fuel
  induction fuel with
  | zero => intro y n; rfl
  | succ fuel ih =>
    intro y n
    unfold scanRowsCounted scanRows
    by_cases hy : y ≤ hi1
    · rw [if_pos hy, if_pos hy, ← scanRowCounted_fst t m current hi0 step y fuel0 lo0 n]
      cases hr : scanRowCounted t m current hi0 step y fuel0 lo0 n with
      | none => rfl
      | some r =>
        obtain ⟨found, k⟩ := r
        simp only [Option.some_bind, Option.map_some']
        cases found with
        | true => rfl
        | false => exact ih _ _
    · rw [if_neg hy, if_neg hy]
      rfl

theorem scanRowCounted_eq (t : TerrainMap) (m : Libm) (current : Vector3d) (hi step y : ℚ)
    (hstep : 0 < step) :
    ∀ (fuel : Nat) (x : ℚ) (n : Nat), sampleCount x hi step < fuel →
      scanRowCounted t m current hi step y fuel x n =
        some ((loopValues (sampleCount x hi step) x step).any
            (fun x2 => t.isBlocked
              (t.getObstacleSpaceModel.coordToVertex (rotatedPoint m current x2 y))),
          n + visitedUntilBlocked
            (fun x2 => t.isBlocked
              (t.getObstacleSpaceModel.coordToVertex (rotatedPoint m current x2 y)))
            (loopValues (sampleCount x hi step) x step)) := by
  intro fuel
  induction fuel with
  | zero => intro x n h; omega
  | succ fuel ih =>
    intro x n h
    unfold scanRowCounted
    by_cases hx : x ≤ hi
    · have hc := sampleCount_step hstep hx
      rw [if_pos hx, hc]
      simp only [loopValues, List.any_cons, visitedUntilBlocked]
      by_cases hb : t.isBlocked
          (t.getObstacleSpaceModel.coordToVertex (rotatedPoint m current x y)) = true
      · rw [if_pos hb, if_pos hb, hb, Bool.true_or]
      · rw [if_neg hb, if_neg hb, Bool.not_eq_true _ |>.mp hb, Bool.false_or,
          ih (x + step) (n + 1) (by omega)]
        congr 2
        omega
    · have h0 : sampleCount x hi step = 0 := by
        unfold sampleCount
        rw [if_neg hx]
      rw [if_neg hx, h0]
      rfl

theorem gridSamples_step (lo0 hi0 hi1 : ℚ) {step y : ℚ} (hstep : 0 < step) (hy : y ≤ hi1) :
    gridSamples lo0 hi0 y hi1 step =
      (loopValues (sampleCount lo0 hi0 step) lo0 step).map (fun x => (x, y)) ++
        gridSamples lo0 hi0 (y + step) hi1 step := by
  unfold gridSamples
  rw [sampleCount_step hstep hy, loopValues, List.flatMap_cons]

theorem gridSamples_end (lo0 hi0 hi1 step : ℚ) {y : ℚ} (hy : ¬ y ≤ hi1) :
    gridSamples lo0 hi0 y hi1 step = [] := by
  unfold gridSamples sampleCount
  rw [if_neg hy]
  rfl

theorem any_row (blocked : ℚ × ℚ → Bool) (y : ℚ) :
    ∀ xs : List ℚ, (xs.map (fun x => (x, y))).any blocked = xs.any (fun x => blocked (x, y)) := by
  intro xs
  induction xs with
  | nil => rfl
  | cons x rest ih => rw [List.map_cons, List.any_cons, List.any_cons, ih]

theorem scanRowsCounted_eq (t : TerrainMap) (m : Libm) (current : Vector3d)
    (lo0 hi0 hi1 step : ℚ) (fuel0 : Nat) (hstep : 0 < step)
    (hfuel0 : sampleCount lo0 hi0 step < fuel0) :
    ∀ (fuel : Nat) (y : ℚ) (n : Nat), sampleCount y hi1 step < fuel →
      scanRowsCounted t m current lo0 hi0 hi1 step fuel0 fuel y n =
        some ((gridSamples lo0 hi0 y hi1 step).any
            (fun p => t.isBlocked
              (t.getObstacleSpaceModel.coordToVertex (rotatedPoint m current p.1 p.2))),
          n + visitedUntilBlocked
            (fun p => t.isBlocked
              (t.getObstacleSpaceModel.coordToVertex (rotatedPoint m current p.1 p.2)))
            (gridSamples lo0 hi0 y hi1 step)) := by
  intro fuel
  induction fuel with
  | zero => intro y n h; omega
  | succ fuel ih =>
    intro y n h
    unfold scanRowsCounted
    by_cases hy : y ≤ hi1
    · have hc := sampleCount_step hstep hy
      rw [if_pos hy, scanRowCounted_eq t m current hi0 step y hstep fuel0 lo0 n hfuel0,
        Option.some_bind, gridSamples_step lo0 hi0 hi1 hstep hy, List.any_append,
        visitedUntilBlocked_append, any_row, visitedUntilBlocked_map, List.length_map,
        length_loopValues]
      by_cases hb : (loopValues (sampleCount lo0 hi0 step) lo0 step).any
          (fun x2 => t.isBlocked
            (t.getObstacleSpaceModel.coordToVertex (rotatedPoint m current x2 y))) = true
      · rw [hb]
        simp only [if_true, Bool.true_or]
      · have hb2 := (Bool.not_eq_true _).mp hb
        have hv : visitedUntilBlocked
            (fun x2 => t.isBlocked
              (t.getObstacleSpaceModel.coordToVertex (rotatedPoint m current x2 y)))
            (loopValues (sampleCount lo0 hi0 step) lo0 step) = sampleCount lo0 hi0 step := by
          rw [visitedUntilBlocked_eq, hb2, if_neg (by decide), length_loopValues]
        rw [hb2, hv]
        simp only [Bool.false_eq_true, if_false, Bool.false_or]
        rw [ih (y + step) _ (by omega), Nat.add_assoc]
    · rw [if_neg hy, gridSamples_end lo0 hi0 hi1 step hy]
      rfl

theorem bodyScanCounted_fst (l : LatticeBasedBodyAdjacency) (fuel : Nat) (v : Vertex)
    (state_representation : TypeOfState) (hinfo : l.terrain_.isObstacleInformation = true) :
    l.isFreeOfObstacle fuel v state_representation true =
      (l.bodyScanCounted fuel v state_representation).map (fun r => !r.1) := by
  have h := scanRowsCounted_fst l.terrain_ l.libm (l.scanPose v state_representation)
    (l.robot_.getPredefinedBodyWorkspace.min_x + (l.scanPose v state_representation).c0)
    (l.robot_.getPredefinedBodyWorkspace.max_x + (l.scanPose v state_representation).c0)
    (l.robot_.getPredefinedBodyWorkspace.max_y + (l.scanPose v state_representation).c1)
    l.obstacleStep fuel fuel
    (l.robot_.getPredefinedBodyWorkspace.min_y + (l.scanPose v state_representation).c1) 0
  have h1 : l.isFreeOfObstacle fuel v state_representation true =
      Option.map (fun found => !found)
        (scanRows l.terrain_ l.libm (l.scanPose v state_representation)
          (l.robot_.getPredefinedBodyWorkspace.min_x + (l.scanPose v state_representation).c0)
          (l.robot_.getPredefinedBodyWorkspace.max_x + (l.scanPose v state_representation).c0)
          (l.robot_.getPredefinedBodyWorkspace.max_y + (l.scanPose v state_representation).c1)
          l.obstacleStep fuel fuel
          (l.robot_.getPredefinedBodyWorkspace.min_y +
            (l.scanPose v state_representation).c1)) := by
    unfold LatticeBasedBodyAdjacency.isFreeOfObstacle
    simp only [hinfo, if_true]
    rfl
  rw [h1, ← h, Option.map_map]
  rfl

theorem length_scanSamples (l : LatticeBasedBodyAdjacency) (current : Vector3d) :
    (l.scanSamples current).length = expectedSamples l.scannedWorkspace := by
  unfold LatticeBasedBodyAdjacency.scanSamples
  rw [length_gridSamples, sampleCount_shift, sampleCount_shift,
    ← sampleCount_mul_eq_expected l.scannedWorkspace]
  rfl

theorem bodyScanCounted_eq (l : LatticeBasedBodyAdjacency) (fuel : Nat) (v : Vertex)
    (state_representation : TypeOfState)
    (hstep : 0 < l.obstacleStep) (hfuel : areaFuel l.scannedWorkspace ≤ fuel) :
    l.bodyScanCounted fuel v state_representation =
      some ((l.scanSamples (l.scanPose v state_representation)).any
          (l.sampleBlocked (l.scanPose v state_representation)),
        visitedUntilBlocked (l.sampleBlocked (l.scanPose v state_representation))
          (l.scanSamples (l.scanPose v state_representation))) := by
  unfold areaFuel LatticeBasedBodyAdjacency.scannedWorkspace at hfuel
  simp only at hfuel
  have hx : sampleCount
      (l.robot_.getPredefinedBodyWorkspace.min_x + (l.scanPose v state_representation).c0)
      (l.robot_.getPredefinedBodyWorkspace.max_x + (l.scanPose v state_representation).c0)
      l.obstacleStep < fuel := by
    rw [sampleCount_shift]
    omega
  have hy : sampleCount
      (l.robot_.getPredefinedBodyWorkspace.min_y + (l.scanPose v state_representation).c1)
      (l.robot_.getPredefinedBodyWorkspace.max_y + (l.scanPose v state_representation).c1)
      l.obstacleStep < fuel := by
    rw [sampleCount_shift]
    omega
  unfold LatticeBasedBodyAdjacency.bodyScanCounted
  simp only
  rw [scanRowsCounted_eq l.terrain_ l.libm _ _ _ _ _ fuel hstep hx fuel _ 0 hy, Nat.zero_add]
  rfl

theorem laneLattice_step (s : Bool) :
    0 < (laneLattice s).obstacleStep ∧ areaFuel (laneLattice s).scannedWorkspace ≤ 4 ∧
      expectedSamples (laneLattice s).scannedWorkspace = 9 := by
  refine ⟨?_, ?_, ?_⟩ <;>
  norm_num [LatticeBasedBodyAdjacency.obstacleStep, LatticeBasedBodyAdjacency.scannedWorkspace,
    areaFuel, sampleCount, expectedSamples, laneLattice, laneRobot, laneTerrain, unitTerrain,
    show Int.toNat 2 = 2 from rfl]

theorem unitSpaceModel_decode (x y yaw : Int) :
    unitSpaceModel.vertexToState (poseVertex x y yaw) = ⟨(x : ℚ), (y : ℚ), (yaw : ℚ)⟩ := by
  simp only [unitSpaceModel, poseVertex, cellVertex, Nat.unpair_pair, encodeIndex_decode]

theorem unitSpaceModel_coordToVertex (c : Vector2d) :
    unitSpaceModel.coordToVertex c = cellVertex ⌊c.c0⌋ ⌊c.c1⌋ := rfl

theorem scanRowsCounted_first_blocked (t : TerrainMap) (m : Libm) (current : Vector3d)
    (lo0 hi0 hi1 step y : ℚ) (fuel0 fuel n : Nat) (hy : y ≤ hi1) (hx : lo0 ≤ hi0)
    (hb : t.isBlocked (t.getObstacleSpaceModel.coordToVertex (rotatedPoint m current lo0 y)) =
      true) :
    scanRowsCounted t m current lo0 hi0 hi1 step (fuel0 + 1) (fuel + 1) y n =
      some (true, n + 1) := by
  rw [scanRowsCounted, if_pos hy, scanRowCounted, if_pos hx]
  simp only [hb, if_true, Option.some_bind]

theorem laneLattice_corner_blocked (s : Bool) :
    (laneLattice s).bodyScanCounted 4 (poseVertex 3 1 0) TypeOfState.XY_Y = some (true, 1) := by
  unfold LatticeBasedBodyAdjacency.bodyScanCounted
  rw [scanPose_XY_Y]
  refine scanRowsCounted_first_blocked _ _ _ _ _ _ _ _ 3 3 0 ?_ ?_ ?_
  · norm_num [laneLattice, laneRobot]
  · norm_num [laneLattice, laneRobot]
  · have hsm : (laneLattice s).terrain_.getObstacleSpaceModel = unitSpaceModel := rfl
    rw [hsm, unitSpaceModel_decode, unitSpaceModel_coordToVertex]
    norm_num [rotatedPoint, TerrainMap.isBlocked, TerrainMap.findObstacle, laneLattice,
      laneRobot, laneTerrain, unitTerrain, yawZeroLibm, cellVertex, encodeIndex_inj]

/-- C29 (counterexample): on the lane terrain the body workspace `[-1,1] x [-1,1]`
with step 1 has `min ≤ max` on both axes and 9 samples by the formula of the claim,
but for the body placed on `(3,1)` the first sample, the corner `(2,0)`, is blocked
and `isFreeOfObstacle` returns false after this one sample. -/
theorem bodyScan_visits_counterexample :
    0 < (laneLattice true).obstacleStep ∧
    expectedSamples (laneLattice true).scannedWorkspace = 9 ∧
    (laneLattice true).bodyScanCounted 4 (poseVertex 3 1 0) TypeOfState.XY_Y =
      some (true, 1) ∧
    (laneLattice true).isFreeOfObstacle 4 (poseVertex 3 1 0) TypeOfState.XY_Y true =
      some false := by
  refine ⟨(laneLattice_step true).1, (laneLattice_step true).2.2,
    laneLattice_corner_blocked true, ?_⟩
  rw [bodyScanCounted_fst _ _ _ _ rfl, laneLattice_corner_blocked]
  rfl

/-- C29 (amended): over exact arithmetic and for a positive sampling step, every
sufficient fuel makes the sampling loops end. The loops of `computeBodyCost` over a
stance area visit exactly `expectedSamples area` samples, that is
`(floor((max_y - min_y) / step) + 1) * (floor((max_x - min_x) / step) + 1)` samples
when `min ≤ max` on both axes and none otherwise, whatever the body state. The body
scan of `isFreeOfObstacle` visits the samples of the body workspace in the same
order and stops right after the first blocked one: it visits at most that number of
samples, exactly that number when no sample is blocked, and the samples up to and
including the first blocked one otherwise. -/
theorem sampling_loops_visit_counts (t : TerrainMap) (m : Libm) (state : Vector3d)
    (area : SearchArea) (l : LatticeBasedBodyAdjacency) (state_vertex : Vertex)
    (state_representation : TypeOfState) (fuel : Nat)
    (hres : 0 < area.resolution) (hfuel : areaFuel area ≤ fuel)
    (hinfo : l.terrain_.isObstacleInformation = true)
    (hstep : 0 < l.obstacleStep) (hscan : areaFuel l.scannedWorkspace ≤ fuel) :
    stanceCostQueueCounted t m state area fuel =
      some (collectedQueue t m state area, expectedSamples area) ∧
    stanceCostQueue t m state area fuel = some (collectedQueue t m state area) ∧
    ∃ (hit : Bool) (visited : Nat),
      l.bodyScanCounted fuel state_vertex state_representation = some (hit, visited) ∧
      l.isFreeOfObstacle fuel state_vertex state_representation true = some (!hit) ∧
      visited ≤ expectedSamples l.scannedWorkspace ∧
      (hit = false → visited = expectedSamples l.scannedWorkspace) ∧
      (hit = true → visited =
        ((l.scanSamples (l.scanPose state_vertex state_representation)).takeWhile
          (fun p => !l.sampleBlocked (l.scanPose state_vertex state_representation) p)).length
          + 1) := by
  refine ⟨stanceCostQueueCounted_eq t m state area hres fuel hfuel,
    stanceCostQueue_eq t m state area hres fuel hfuel, _, _,
    bodyScanCounted_eq l fuel state_vertex state_representation hstep hscan, ?_, ?_, ?_, ?_⟩
  · rw [bodyScanCounted_fst l fuel _ _ hinfo,
      bodyScanCounted_eq l fuel state_vertex state_representation hstep hscan]
    rfl
  · rw [← length_scanSamples l (l.scanPose state_vertex state_representation)]
    exact visitedUntilBlocked_le _ _
  · intro h
    rw [visitedUntilBlocked_eq, h, if_neg (by decide), length_scanSamples]
  · intro h
    rw [visitedUntilBlocked_eq, h, if_pos rfl]

/-- Witness of the amended C29 on the row area (8 samples) and on the lane lattice
with the body placed on `(5,0)`, where no sample is blocked (9 samples). -/
theorem sampling_loops_visit_counts_witness :
    stanceCostQueueCounted rowTerrain yawZeroLibm ⟨0, 0, 0⟩ rowArea 9 =
      some (collectedQueue rowTerrain yawZeroLibm ⟨0, 0, 0⟩ rowArea, 8) ∧
    (laneLattice true).bodyScanCounted 9 (poseVertex 5 0 0) TypeOfState.XY_Y =
      some (false, 9) := by
  have hrow : areaFuel rowArea ≤ 9 ∧ expectedSamples rowArea = 8 := by
    constructor <;>
    norm_num [areaFuel, sampleCount, expectedSamples, rowArea, show Int.toNat 7 = 7 from rfl]
  have hscan : areaFuel (laneLattice true).scannedWorkspace ≤ 9 :=
    le_trans (laneLattice_step true).2.1 (by decide)
  obtain ⟨h1, _, hit, visited, hb, hres, _, hfree, _⟩ :=
    sampling_loops_visit_counts rowTerrain yawZeroLibm ⟨0, 0, 0⟩ rowArea
      (laneLattice true) (poseVertex 5 0 0) TypeOfState.XY_Y 9 (by norm_num [rowArea]) hrow.1
      rfl (laneLattice_step true).1 hscan
  have hfreeScan := isFreeOfObstacle_scan (laneLattice true) 9 (poseVertex 5 0 0)
    TypeOfState.XY_Y rfl (laneLattice_step true).1 hscan
  rw [(laneLattice_footprint true).2, hres] at hfreeScan
  have hhit : hit = false := by
    cases hit with
    | false => rfl
    | true => exact absurd (Option.some.inj hfreeScan) (by decide)
  refine ⟨by rw [h1, hrow.2], ?_⟩
  rw [hb, hhit, hfree hhit, (laneLattice_step true).2.2]

/-! ## Composition of the body cost -/

theorem stanceCost_eq_contribution (t : TerrainMap) (m : Libm) (n : Int) (uf : ℚ)
    (state : Vector3d) (area : SearchArea) (fuel : Nat) (hres : 0 < area.resolution)
    (hfuel : areaFuel area ≤ fuel) :
    stanceCost t m n uf state area fuel = some (areaContribution t m n uf state area) := by
  unfold stanceCost areaContribution
  rw [stanceCostQueue_eq t m state area hres fuel hfuel, Option.map_some']

theorem sumStanceCosts_eq (t : TerrainMap) (m : Libm) (n : Int) (uf : ℚ)
    (state : Vector3d) (fuel : Nat) :
    ∀ (areas : List SearchArea) (acc : ℚ),
      (∀ a ∈ areas, 0 < a.resolution) → areasFuel areas ≤ fuel →
      sumStanceCosts t m n uf state fuel areas acc =
        some (acc + (areas.map (areaContribution t m n uf state)).sum) := by
  intro areas
  induction areas with
  | nil =>
    intro acc _ _
    rw [sumStanceCosts, List.map_nil, List.sum_nil, add_zero]
  | cons a rest ih =>
    intro acc hres hfuel
    have ha := List.mem_cons_self a rest
    unfold areasFuel at hfuel
    rw [sumStanceCosts,
      stanceCost_eq_contribution t m n uf state a fuel (hres a ha)
        (le_trans (le_max_left _ _) hfuel),
      Option.some_bind,
      ih _ (fun b hb => hres b (List.mem_cons_of_mem a hb)) (le_trans (le_max_right _ _) hfuel),
      List.map_cons, List.sum_cons, add_assoc]

theorem addFeatureCosts_eq (info : RobotAndTerrain) :
    ∀ (features : List Feature) (cost : ℚ),
      addFeatureCosts features info cost =
        cost + (features.map (fun f => f.getWeight * f.computeCost info)).sum := by
  intro features
  induction features with
  | nil =>
    intro cost
    simp [addFeatureCosts]
  | cons f rest ih =>
    intro cost
    unfold addFeatureCosts at ih ⊢
    rw [List.foldl_cons, ih, List.map_cons, List.sum_cons, add_assoc]

theorem meanStanceCost_eq (t : TerrainMap) (m : Libm) (n : Int) (uf : ℚ)
    (state : Vector3d) (areas : List SearchArea) (fuel : Nat)
    (hres : ∀ a ∈ areas, 0 < a.resolution) (hfuel : areasFuel areas ≤ fuel) :
    meanStanceCost t m n uf state areas fuel =
      some ((areas.map (areaContribution t m n uf state)).sum / (areas.length : ℚ)) := by
  unfold meanStanceCost
  rw [sumStanceCosts_eq t m n uf state fuel areas 0 hres hfuel, Option.map_some', zero_add]

/-- C21: for every body state, every list of stance areas of positive resolution,
every feature list and every sufficient fuel, the grid and the lattice
`computeBodyCost` return the arithmetic mean over all stance areas of the per-area
contributions (each the value of `stanceCost` on its area) plus the sum over the
features of `weight(f) * f.computeCost(context)`; the context carries the body
action `(1, 0, 0)` in the grid model and `current_action_` in the lattice model. -/
theorem computeBodyCost_mean_plus_features (g : GridBasedBodyAdjacency)
    (l : LatticeBasedBodyAdjacency) (state_vertex : Vertex) (state : Vector3d) (fuel : Nat)
    (hg_res : ∀ a ∈ g.stance_areas_, 0 < a.resolution)
    (hg_fuel : areasFuel g.stance_areas_ ≤ fuel)
    (hl_res : ∀ a ∈ l.robot_.getFootstepSearchAreas l.current_action_, 0 < a.resolution)
    (hl_fuel : areasFuel (l.robot_.getFootstepSearchAreas l.current_action_) ≤ fuel) :
    (∀ a ∈ g.stance_areas_,
      stanceCost g.terrain_ g.libm g.number_top_cost_ g.uncertainty_factor_
          (g.terrain_.getTerrainSpaceModel.vertexToState state_vertex) a fuel =
        some (areaContribution g.terrain_ g.libm g.number_top_cost_ g.uncertainty_factor_
          (g.terrain_.getTerrainSpaceModel.vertexToState state_vertex) a)) ∧
    g.computeBodyCost fuel state_vertex =
      some (meanPlusFeatures
        (g.stance_areas_.map
          (areaContribution g.terrain_ g.libm g.number_top_cost_ g.uncertainty_factor_
            (g.terrain_.getTerrainSpaceModel.vertexToState state_vertex)))
        g.features_
        { body_action := ⟨1, 0, 0⟩,
          pose :=
            { position := (g.terrain_.getTerrainSpaceModel.vertexToState state_vertex).head2,
              orientation := (g.terrain_.getTerrainSpaceModel.vertexToState state_vertex).c2 },
          height_map := g.terrain_.getTerrainHeightMap,
          resolution := g.terrain_.getResolution true }) ∧
    (∀ a ∈ l.robot_.getFootstepSearchAreas l.current_action_,
      stanceCost l.terrain_ l.libm l.number_top_cost_ l.uncertainty_factor_ state a fuel =
        some (areaContribution l.terrain_ l.libm l.number_top_cost_ l.uncertainty_factor_
          state a)) ∧
    (l.computeBodyCost fuel state).map Prod.snd =
      some (meanPlusFeatures
        ((l.robot_.getFootstepSearchAreas l.current_action_).map
          (areaContribution l.terrain_ l.libm l.number_top_cost_ l.uncertainty_factor_ state))
        l.features_
        { body_action := l.current_action_,
          pose := { position := state.head2, orientation := state.c2 },
          height_map := l.terrain_.getTerrainHeightMap,
          resolution := l.terrain_.getResolution true }) := by
  refine ⟨?_, ?_, ?_, ?_⟩
  · intro a ha
    exact stanceCost_eq_contribution _ _ _ _ _ a fuel (hg_res a ha)
      (le_trans (areaFuel_le_areasFuel ha) hg_fuel)
  · unfold GridBasedBodyAdjacency.computeBodyCost meanPlusFeatures
    simp only
    rw [meanStanceCost_eq _ _ _ _ _ _ fuel hg_res hg_fuel, Option.map_some', addFeatureCosts_eq,
      List.length_map]
  · intro a ha
    exact stanceCost_eq_contribution _ _ _ _ _ a fuel (hl_res a ha)
      (le_trans (areaFuel_le_areasFuel ha) hl_fuel)
  · unfold LatticeBasedBodyAdjacency.computeBodyCost meanPlusFeatures
    simp only
    rw [meanStanceCost_eq _ _ _ _ _ _ fuel hl_res hl_fuel, Option.map_some', Option.map_some',
      addFeatureCosts_eq, List.length_map]

theorem rowTerrain_contributions :
    areaContribution rowTerrain yawZeroLibm 5 (115 / 100) ⟨0, 0, 0⟩ rowArea = 3 ∧
    areaContribution rowTerrain yawZeroLibm 5 (115 / 100) ⟨0, 0, 0⟩ pointArea = 1 := by
  constructor <;>
  norm_num [areaContribution, collectedQueue, sampleCount, loopValues, insertSample,
    rotatedPoint, setInsert, pair_first_less, averageLowest, toUnsigned, sumLowest,
    rowArea, pointArea, yawZeroLibm, rowTerrain, unitTerrain, unitSpaceModel, cellVertex,
    TerrainMap.find, encodeIndex_inj, show Int.toNat 7 = 7 from rfl,
    show Int.toNat 5 = 5 from rfl]

/-- Witness of C21 on the row terrain: two stance areas with the contributions 3 and
1 (mean 2) and one feature of weight 1/2 and cost 2 give the cost 3 in both
models. -/
theorem computeBodyCost_mean_plus_features_witness :
    featureGrid.computeBodyCost 9 (poseVertex 0 0 0) = some 3 ∧
    (featureLattice.computeBodyCost 9 ⟨0, 0, 0⟩).map Prod.snd = some 3 := by
  have hres : ∀ a ∈ [rowArea, pointArea], 0 < a.resolution := by
    intro a ha
    simp only [List.mem_cons, List.mem_singleton, List.not_mem_nil, or_false] at ha
    rcases ha with rfl | rfl <;> norm_num [rowArea, pointArea]
  have hfuel : areasFuel [rowArea, pointArea] ≤ 9 := by
    norm_num [areasFuel, areaFuel, sampleCount, rowArea, pointArea,
      show Int.toNat 7 = 7 from rfl]
  obtain ⟨_, hg, _, hl⟩ := computeBodyCost_mean_plus_features featureGrid featureLattice
    (poseVertex 0 0 0) ⟨0, 0, 0⟩ 9 hres hfuel hres hfuel
  have hstate : featureGrid.terrain_.getTerrainSpaceModel.vertexToState (poseVertex 0 0 0) =
      ⟨0, 0, 0⟩ := by
    have hsm : featureGrid.terrain_.getTerrainSpaceModel = unitSpaceModel := rfl
    rw [hsm, unitSpaceModel_decode]
    norm_num
  rw [hstate] at hg
  have hvalue : meanPlusFeatures
      ([rowArea, pointArea].map (areaContribution rowTerrain yawZeroLibm 5 (115 / 100) ⟨0, 0, 0⟩))
      [⟨fun _ => 2, 1 / 2⟩]
      = fun _ => 3 := by
    funext info
    rw [List.map_cons, List.map_cons, List.map_nil, rowTerrain_contributions.1,
      rowTerrain_contributions.2]
    norm_num [meanPlusFeatures]
  constructor
  · rw [hg]
    exact congrArg some (congrFun hvalue _)
  · rw [hl]
    exact congrArg some (congrFun hvalue _)

/-- C28: for every state vertex, when the grid and the lattice adjacency are bound to
the same terrain and library, have the same `number_top_cost` and
`uncertainty_factor`, no feature is registered, and the stance areas cached in the
grid object are those that the robot returns to the lattice object, the grid
`computeBodyCost` on the state vertex and the lattice `computeBodyCost` on the
decoded state give the same outcome for every fuel: the same cost, or no return for
either. -/
theorem computeBodyCost_grid_lattice_agree (g : GridBasedBodyAdjacency)
    (l : LatticeBasedBodyAdjacency) (state_vertex : Vertex) (fuel : Nat)
    (hterrain : g.terrain_ = l.terrain_) (hlibm : g.libm = l.libm)
    (hnumber : g.number_top_cost_ = l.number_top_cost_)
    (hfactor : g.uncertainty_factor_ = l.uncertainty_factor_)
    (hareas : g.stance_areas_ = l.robot_.getFootstepSearchAreas l.current_action_)
    (hg_features : g.features_ = []) (hl_features : l.features_ = []) :
    g.computeBodyCost fuel state_vertex =
      (l.computeBodyCost fuel
        (l.terrain_.getTerrainSpaceModel.vertexToState state_vertex)).map Prod.snd := by
  unfold GridBasedBodyAdjacency.computeBodyCost LatticeBasedBodyAdjacency.computeBodyCost
  simp only [hterrain, hlibm, hnumber, hfactor, hareas, hg_features, hl_features, Option.map_map]
  rfl

/-- Witness of C28 on the row terrain: the grid and the lattice object with the row
area agree, on the cost 3. -/
theorem computeBodyCost_grid_lattice_agree_witness :
    rowGrid.computeBodyCost 9 (poseVertex 0 0 0) =
      (rowLattice.computeBodyCost 9
        (rowLattice.terrain_.getTerrainSpaceModel.vertexToState (poseVertex 0 0 0))).map
        Prod.snd ∧
    rowGrid.computeBodyCost 9 (poseVertex 0 0 0) = some 3 :=
  ⟨computeBodyCost_grid_lattice_agree rowGrid rowLattice (poseVertex 0 0 0) 9 rfl rfl rfl rfl rfl
    rfl rfl, rowGrid_computeBodyCost⟩

/-! ## Monotonicity of the top-N mean -/

theorem sum_le_length_mul (c : ℚ) : ∀ l : List ℚ, (∀ x ∈ l, x ≤ c) → l.sum ≤ (l.length : ℚ) * c := by
  intro l
  induction l with
  | nil => intro _; simp
  | cons a rest ih =>
    intro h
    have h1 := h a (List.mem_cons_self _ _)
    have h2 := ih (fun x hx => h x (List.mem_cons_of_mem _ hx))
    rw [List.sum_cons, List.length_cons]
    push_cast
    linarith

theorem take_succ_sorted (cs : List ℚ) (hs : cs.Pairwise (fun a b => a ≤ b)) (k : Nat)
    (hk : k < cs.length) :
    ∃ c : ℚ, cs.take (k + 1) = cs.take k ++ [c] ∧ ∀ x ∈ cs.take k, x ≤ c := by
  refine ⟨cs[k], ?_, ?_⟩
  · rw [List.take_succ, List.getElem?_eq_getElem hk]
    rfl
  · intro x hx
    have hsplit : cs = cs.take k ++ cs.drop k := (List.take_append_drop k cs).symm
    rw [hsplit] at hs
    have hmem : cs[k] ∈ cs.drop k := by
      rw [List.drop_eq_getElem_cons hk]
      exact List.mem_cons_self _ _
    exact (List.pairwise_append.mp hs).2.2 x hx _ hmem

theorem prefixMean_step (cs : List ℚ) (hs : cs.Pairwise (fun a b => a ≤ b)) (k : Nat)
    (h1 : 1 ≤ k) (hk : k < cs.length) :
    (cs.take k).sum / (k : ℚ) ≤ (cs.take (k + 1)).sum / ((k + 1 : Nat) : ℚ) := by
  obtain ⟨c, htake, hle⟩ := take_succ_sorted cs hs k hk
  have hsum := sum_le_length_mul c (cs.take k) hle
  rw [List.length_take, min_eq_left (le_of_lt hk)] at hsum
  rw [htake, List.sum_append, List.sum_singleton]
  have hk0 : (0 : ℚ) < (k : ℚ) := by exact_mod_cast h1
  have hk1 : (0 : ℚ) < ((k + 1 : Nat) : ℚ) := by positivity
  rw [div_le_div_iff₀ hk0 hk1]
  push_cast
  nlinarith

theorem prefixMean_mono (cs : List ℚ) (hs : cs.Pairwise (fun a b => a ≤ b)) (k : Nat)
    (h1 : 1 ≤ k) :
    ∀ k2 : Nat, k ≤ k2 → k2 ≤ cs.length →
      (cs.take k).sum / (k : ℚ) ≤ (cs.take k2).sum / (k2 : ℚ) := by
  intro k2 hk2
  induction k2, hk2 using Nat.le_induction with
  | base => intro _; exact le_rfl
  | succ n hn ih =>
    intro hlen
    exact le_trans (ih (by omega)) (prefixMean_step cs hs n (by omega) (by omega))

theorem averageLowest_mono (n n2 : Int) (uf avg : ℚ) (q : List (Weight × Vertex))
    (hs : q.Pairwise (fun a b => a.1 < b.1)) (hq : q ≠ [])
    (h1 : 1 ≤ n) (h2 : n ≤ n2) (h3 : n2 < 2 ^ 31) :
    averageLowest n uf avg q ≤ averageLowest n2 uf avg q ∧
    (q.map Prod.fst).head? = some ((q.take 1).map Prod.fst).sum ∧
    ((q.take 1).map Prod.fst).sum ≤ averageLowest n uf avg q ∧
    averageLowest n uf avg q ≤ (q.map Prod.fst).sum / (q.length : ℚ) := by
  have hsorted : (q.map Prod.fst).Pairwise (fun a b => a ≤ b) := by
    rw [List.pairwise_map]
    exact hs.imp (fun h => le_of_lt h)
  have hlen : 0 < q.length := List.length_pos.mpr hq
  have hlen2 : (q.map Prod.fst).length = q.length := List.length_map _ _
  rw [averageLowest_eq n uf avg q h1 (by omega) hq, averageLowest_eq n2 uf avg q (by omega) h3 hq,
    List.map_take, List.map_take, List.map_take]
  refine ⟨?_, ?_, ?_, ?_⟩
  · exact prefixMean_mono _ hsorted _ (by omega) _ (by omega) (by omega)
  · cases q with
    | nil => exact absurd rfl hq
    | cons a rest => simp
  · have h := prefixMean_mono _ hsorted 1 (le_refl 1) (min n.toNat q.length) (by omega) (by omega)
    simpa using h
  · have h := prefixMean_mono _ hsorted (min n.toNat q.length) (by omega) q.length (by omega)
      (by omega)
    rw [← hlen2, List.take_length, hlen2] at h
    exact h

theorem setInsert_mem_old (e : Weight × Vertex) :
    ∀ (q : List (Weight × Vertex)) (a : Weight × Vertex), a ∈ q → a ∈ setInsert q e := by
  intro q
  induction q with
  | nil => intro a ha; exact absurd ha (List.not_mem_nil a)
  | cons h rest ih =>
    intro a ha
    unfold setInsert
    split_ifs
    · exact List.mem_cons_of_mem _ ha
    · rcases List.mem_cons.mp ha with rfl | ha
      · exact List.mem_cons_self _ _
      · exact List.mem_cons_of_mem _ (ih a ha)
    · exact ha

theorem setInsert_cost_mem (e : Weight × Vertex) :
    ∀ q : List (Weight × Vertex), ∃ b ∈ setInsert q e, b.1 = e.1 := by
  intro q
  induction q with
  | nil => exact ⟨e, by simp [setInsert], rfl⟩
  | cons h rest ih =>
    unfold setInsert
    split_ifs with h1 h2
    · exact ⟨e, List.mem_cons_self _ _, rfl⟩
    · obtain ⟨b, hb, hbe⟩ := ih
      exact ⟨b, List.mem_cons_of_mem _ hb, hbe⟩
    · have h1a : ¬ e.1 < h.1 := by simpa [pair_first_less] using h1
      have h2a : ¬ h.1 < e.1 := by simpa [pair_first_less] using h2
      exact ⟨h, List.mem_cons_self _ _, le_antisymm (not_lt.mp h1a) (not_lt.mp h2a)⟩

theorem setInsert_mem_cases (e : Weight × Vertex) :
    ∀ (q : List (Weight × Vertex)) (b : Weight × Vertex), b ∈ setInsert q e → b ∈ q ∨ b = e := by
  intro q
  induction q with
  | nil =>
    intro b hb
    rw [setInsert, List.mem_singleton] at hb
    exact Or.inr hb
  | cons h rest ih =>
    intro b hb
    unfold setInsert at hb
    split_ifs at hb
    · rcases List.mem_cons.mp hb with rfl | hb
      · exact Or.inr rfl
      · exact Or.inl hb
    · rcases List.mem_cons.mp hb with rfl | hb
      · exact Or.inl (List.mem_cons_self _ _)
      · rcases ih b hb with hb | hb
        · exact Or.inl (List.mem_cons_of_mem _ hb)
        · exact Or.inr hb
    · exact Or.inl hb

theorem insertSample_mem_old (t : TerrainMap) (m : Libm) (state : Vector3d) (y x : ℚ)
    (q : List (Weight × Vertex)) (a : Weight × Vertex) (ha : a ∈ q) :
    a ∈ insertSample t m state y x q := by
  unfold insertSample
  split
  · exact setInsert_mem_old _ q a ha
  · exact ha

theorem insertSample_cost_mem (t : TerrainMap) (m : Libm) (state : Vector3d) (y x : ℚ)
    (q : List (Weight × Vertex)) (c : ℚ)
    (hc : t.getTerrainCost (t.getTerrainSpaceModel.coordToVertex (rotatedPoint m state x y)) =
      some c) :
    ∃ b ∈ insertSample t m state y x q, b.1 = c := by
  unfold TerrainMap.getTerrainCost at hc
  obtain ⟨d, hd, rfl⟩ := Option.map_eq_some'.mp hc
  unfold insertSample
  rw [hd]
  exact setInsert_cost_mem _ q

theorem insertSample_mem_cases (t : TerrainMap) (m : Libm) (state : Vector3d) (y x : ℚ)
    (q : List (Weight × Vertex)) (b : Weight × Vertex)
    (hb : b ∈ insertSample t m state y x q) :
    b ∈ q ∨
      t.getTerrainCost (t.getTerrainSpaceModel.coordToVertex (rotatedPoint m state x y)) =
        some b.1 := by
  unfold insertSample at hb
  unfold TerrainMap.getTerrainCost
  split at hb
  · rename_i d hd
    rcases setInsert_mem_cases _ q b hb with hb | hb
    · exact Or.inl hb
    · right
      rw [hd, hb]
      rfl
  · exact Or.inl hb

theorem collectedQueue_from_samples (t : TerrainMap) (m : Libm) (state : Vector3d)
    (area : SearchArea) :
    ∀ b ∈ collectedQueue t m state area,
      ∃ y ∈ loopValues
          (sampleCount (area.min_y + state.c1) (area.max_y + state.c1) area.resolution)
          (area.min_y + state.c1) area.resolution,
        ∃ x ∈ loopValues
            (sampleCount (area.min_x + state.c0) (area.max_x + state.c0) area.resolution)
            (area.min_x + state.c0) area.resolution,
          t.getTerrainCost (t.getTerrainSpaceModel.coordToVertex (rotatedPoint m state x y)) =
            some b.1 := by
  unfold collectedQueue
  refine foldl_invariant_mem
    (fun q : List (Weight × Vertex) => ∀ b ∈ q,
      ∃ y ∈ loopValues
          (sampleCount (area.min_y + state.c1) (area.max_y + state.c1) area.resolution)
          (area.min_y + state.c1) area.resolution,
        ∃ x ∈ loopValues
            (sampleCount (area.min_x + state.c0) (area.max_x + state.c0) area.resolution)
            (area.min_x + state.c0) area.resolution,
          t.getTerrainCost (t.getTerrainSpaceModel.coordToVertex (rotatedPoint m state x y)) =
            some b.1) _ _ _ ?_ (fun b hb => absurd hb (List.not_mem_nil b))
  intro q y hy hq
  refine foldl_invariant_mem
    (fun q : List (Weight × Vertex) => ∀ b ∈ q,
      ∃ y ∈ loopValues
          (sampleCount (area.min_y + state.c1) (area.max_y + state.c1) area.resolution)
          (area.min_y + state.c1) area.resolution,
        ∃ x ∈ loopValues
            (sampleCount (area.min_x + state.c0) (area.max_x + state.c0) area.resolution)
            (area.min_x + state.c0) area.resolution,
          t.getTerrainCost (t.getTerrainSpaceModel.coordToVertex (rotatedPoint m state x y)) =
            some b.1) _ _ _ ?_ hq
  intro q1 x hx hq1 b hb
  rcases insertSample_mem_cases t m state y x q1 b hb with hb | hb
  · exact hq1 b hb
  · exact ⟨y, hy, x, hx, hb⟩

theorem collectedQueue_holds_sample (t : TerrainMap) (m : Libm) (state : Vector3d)
    (area : SearchArea) (y x c : ℚ)
    (hy : y ∈ loopValues
      (sampleCount (area.min_y + state.c1) (area.max_y + state.c1) area.resolution)
      (area.min_y + state.c1) area.resolution)
    (hx : x ∈ loopValues
      (sampleCount (area.min_x + state.c0) (area.max_x + state.c0) area.resolution)
      (area.min_x + state.c0) area.resolution)
    (hc : t.getTerrainCost (t.getTerrainSpaceModel.coordToVertex (rotatedPoint m state x y)) =
      some c) :
    ∃ b ∈ collectedQueue t m state area, b.1 = c := by
  unfold collectedQueue
  have keep : ∀ (y2 x2 : ℚ) (q1 : List (Weight × Vertex)),
      (∃ b ∈ q1, b.1 = c) → ∃ b ∈ insertSample t m state y2 x2 q1, b.1 = c := by
    rintro y2 x2 q1 ⟨b, hb, hbc⟩
    exact ⟨b, insertSample_mem_old t m state y2 x2 q1 b hb, hbc⟩
  refine foldl_reaches (fun q : List (Weight × Vertex) => ∃ b ∈ q, b.1 = c) _ ?_ y ?_ _ _ hy
  · intro q y2 hq
    exact foldl_invariant (fun q : List (Weight × Vertex) => ∃ b ∈ q, b.1 = c) _
      (fun q1 x2 hq1 => keep y2 x2 q1 hq1) _ _ hq
  · intro q
    exact foldl_reaches (fun q : List (Weight × Vertex) => ∃ b ∈ q, b.1 = c) _
      (fun q1 x2 hq1 => keep y x2 q1 hq1) x
      (fun q1 => insertSample_cost_mem t m state y x q1 c hc) _ _ hx

/-- C27: for a body state, a stance area of positive resolution with at least one
sample on a cell of the terrain data map, and window sizes `1 ≤ N ≤ N'` (values of
an `int`), every sufficient fuel makes `computeBodyCost` obtain the contributions
`cN` and `cN'` of the area for `number_top_cost = N` and `N'`, with `cN ≤ cN'`.
Moreover `cN` lies between the minimum sampled cost (`lowest`: the cost of a sampled
cell, not above the cost of any sampled cell) and the mean of all the costs
collected in the queue. -/
theorem stanceCost_monotone_in_window (t : TerrainMap) (m : Libm) (uncertainty_factor : ℚ)
    (state : Vector3d) (area : SearchArea) (y x : ℚ) (fuel : Nat) (N N2 : Int)
    (hres : 0 < area.resolution) (h1 : 1 ≤ N) (h2 : N ≤ N2) (h3 : N2 < 2 ^ 31)
    (hy : y ∈ loopValues
      (sampleCount (area.min_y + state.c1) (area.max_y + state.c1) area.resolution)
      (area.min_y + state.c1) area.resolution)
    (hx : x ∈ loopValues
      (sampleCount (area.min_x + state.c0) (area.max_x + state.c0) area.resolution)
      (area.min_x + state.c0) area.resolution)
    (hcell : t.count (t.getTerrainSpaceModel.coordToVertex (rotatedPoint m state x y)) > 0)
    (hfuel : areaFuel area ≤ fuel) :
    ∃ cN cN2 lowest : ℚ,
      stanceCost t m N uncertainty_factor state area fuel = some cN ∧
      stanceCost t m N2 uncertainty_factor state area fuel = some cN2 ∧
      cN ≤ cN2 ∧
      (∃ y2 ∈ loopValues
          (sampleCount (area.min_y + state.c1) (area.max_y + state.c1) area.resolution)
          (area.min_y + state.c1) area.resolution,
        ∃ x2 ∈ loopValues
            (sampleCount (area.min_x + state.c0) (area.max_x + state.c0) area.resolution)
            (area.min_x + state.c0) area.resolution,
          t.getTerrainCost
            (t.getTerrainSpaceModel.coordToVertex (rotatedPoint m state x2 y2)) =
              some lowest) ∧
      (∀ y2 ∈ loopValues
          (sampleCount (area.min_y + state.c1) (area.max_y + state.c1) area.resolution)
          (area.min_y + state.c1) area.resolution,
        ∀ x2 ∈ loopValues
            (sampleCount (area.min_x + state.c0) (area.max_x + state.c0) area.resolution)
            (area.min_x + state.c0) area.resolution,
          ∀ c : ℚ,
            t.getTerrainCost
              (t.getTerrainSpaceModel.coordToVertex (rotatedPoint m state x2 y2)) = some c →
            lowest ≤ c) ∧
      lowest ≤ cN ∧
      cN ≤ ((collectedQueue t m state area).map Prod.fst).sum /
        ((collectedQueue t m state area).length : ℚ) := by
  have hq := stanceCostQueue_eq t m state area hres fuel hfuel
  have hne := collectedQueue_ne_nil t m state area y x hy hx hcell
  have hs := collectedQueue_sorted t m state area
  have hfrom := collectedQueue_from_samples t m state area
  have hholds := collectedQueue_holds_sample t m state area
  obtain ⟨hmono, _, hlow, hhigh⟩ :=
    averageLowest_mono N N2 uncertainty_factor t.getAverageCostOfTerrain
      (collectedQueue t m state area) hs hne h1 h2 h3
  cases hqe : collectedQueue t m state area with
  | nil => exact absurd hqe hne
  | cons a rest =>
    rw [hqe] at hs hfrom hlow hhigh hmono
    refine ⟨averageLowest N uncertainty_factor t.getAverageCostOfTerrain (a :: rest),
      averageLowest N2 uncertainty_factor t.getAverageCostOfTerrain (a :: rest), a.1,
      ?_, ?_, hmono, hfrom a (List.mem_cons_self _ _), ?_, ?_, hhigh⟩
    · unfold stanceCost
      rw [hq, hqe, Option.map_some']
    · unfold stanceCost
      rw [hq, hqe, Option.map_some']
    · intro y2 hy2 x2 hx2 c hc
      obtain ⟨b, hb, hbc⟩ := hholds y2 x2 c hy2 hx2 hc
      rw [hqe] at hb
      rw [← hbc]
      rcases List.mem_cons.mp hb with rfl | hb
      · exact le_rfl
      · exact le_of_lt ((List.pairwise_cons.mp hs).1 b hb)
    · simpa using hlow

/-- Witness of C27 on the row terrain (sampled costs `1, ..., 8`) with the windows
`N = 2` and `N' = 5`. -/
theorem stanceCost_monotone_in_window_witness :
    ∃ cN cN2 lowest : ℚ,
      stanceCost rowTerrain yawZeroLibm 2 (115 / 100) ⟨0, 0, 0⟩ rowArea 9 = some cN ∧
      stanceCost rowTerrain yawZeroLibm 5 (115 / 100) ⟨0, 0, 0⟩ rowArea 9 = some cN2 ∧
      cN ≤ cN2 ∧ lowest ≤ cN ∧
      cN ≤ ((collectedQueue rowTerrain yawZeroLibm ⟨0, 0, 0⟩ rowArea).map Prod.fst).sum /
        ((collectedQueue rowTerrain yawZeroLibm ⟨0, 0, 0⟩ rowArea).length : ℚ) := by
  obtain ⟨cN, cN2, lowest, hN, hN2, hle, _, _, hlow, hhigh⟩ :=
    stanceCost_monotone_in_window rowTerrain yawZeroLibm (115 / 100) ⟨0, 0, 0⟩ rowArea 0 0 9 2 5
      (by norm_num [rowArea]) (by norm_num) (by norm_num) (by norm_num)
      (by norm_num [sampleCount, loopValues, rowArea])
      (by norm_num [sampleCount, loopValues, rowArea])
      rowTerrain_sample
      (by norm_num [areaFuel, sampleCount, rowArea, show Int.toNat 7 = 7 from rfl])
  exact ⟨cN, cN2, lowest, hN, hN2, hle, hlow, hhigh⟩

/-! ## Snapping of an endpoint that is a key of the terrain -/

theorem presenceLoop_target_present (source target : Vertex) :
    ∀ (entries : List (Vertex × TerrainData)) (st : PresenceState),
      (st.is_there_goal_vertex = true → st.closest_target = target) →
      (target ∈ entries.map Prod.fst ∨ st.is_there_goal_vertex = true) →
      match presenceLoop source target entries st with
      | Sum.inr out => out.2 = target
      | Sum.inl st2 => st2.is_there_goal_vertex = true ∧ st2.closest_target = target := by
  intro entries
  induction entries with
  | nil =>
    intro st hinv h
    rcases h with h | h
    · exact absurd h (List.not_mem_nil _)
    · exact ⟨h, hinv h⟩
  | cons e rest ih =>
    intro st hinv h
    have hrest : target ≠ e.1 →
        target ∈ rest.map Prod.fst ∨ st.is_there_goal_vertex = true := by
      intro hne
      rcases h with h | h
      · rcases List.mem_cons.mp h with h | h
        · exact absurd h hne
        · exact Or.inl h
      · exact Or.inr h
    unfold presenceLoop
    simp only
    split_ifs with ht hs hboth hboth hs hboth hboth
    · exact ht.symm
    · exact ih _ (fun _ => ht.symm) (Or.inr rfl)
    · exact ht.symm
    · exact ih _ (fun _ => ht.symm) (Or.inr rfl)
    · simp only [Bool.and_eq_true] at hboth
      exact hinv hboth.2
    · exact ih _ hinv (hrest ht)
    · simp only [Bool.and_eq_true] at hboth
      exact hinv hboth.2
    · exact ih _ hinv (hrest ht)

theorem presenceLoop_source_present (source target : Vertex) :
    ∀ (entries : List (Vertex × TerrainData)) (st : PresenceState),
      (st.is_there_start_vertex = true → st.closest_source = source) →
      (source ∈ entries.map Prod.fst ∨ st.is_there_start_vertex = true) →
      match presenceLoop source target entries st with
      | Sum.inr out => out.1 = source
      | Sum.inl st2 => st2.is_there_start_vertex = true ∧ st2.closest_source = source := by
  intro entries
  induction entries with
  | nil =>
    intro st hinv h
    rcases h with h | h
    · exact absurd h (List.not_mem_nil _)
    · exact ⟨h, hinv h⟩
  | cons e rest ih =>
    intro st hinv h
    have hrest : source ≠ e.1 →
        source ∈ rest.map Prod.fst ∨ st.is_there_start_vertex = true := by
      intro hne
      rcases h with h | h
      · rcases List.mem_cons.mp h with h | h
        · exact absurd h hne
        · exact Or.inl h
      · exact Or.inr h
    unfold presenceLoop
    simp only
    split_ifs with ht hs hboth hboth hs hboth hboth
    · exact hs.symm
    · exact ih _ (fun _ => hs.symm) (Or.inr rfl)
    · simp only [Bool.and_eq_true] at hboth
      exact hinv hboth.1
    · exact ih _ hinv (hrest hs)
    · exact hs.symm
    · exact ih _ (fun _ => hs.symm) (Or.inr rfl)
    · simp only [Bool.and_eq_true] at hboth
      exact hinv hboth.1
    · exact ih _ hinv (hrest hs)

theorem closest_target_present (g : GridBasedBodyAdjacency) (start_flag0 : Bool)
    (closest_source0 closest_target0 source target : Vertex)
    (hinfo : g.terrain_.isTerrainInformation = true)
    (htarget : target ∈ g.terrain_.getTerrainDataMap.map Prod.fst) :
    (g.getTheClosestStartAndGoalVertex start_flag0 closest_source0 closest_target0 source
      target).2 = target := by
  have h := presenceLoop_target_present source target g.terrain_.getTerrainDataMap
    { is_there_start_vertex := start_flag0, is_there_goal_vertex := false,
      closest_source := closest_source0, closest_target := closest_target0, vertex_map := [] }
    (fun h => absurd h Bool.false_ne_true) (Or.inl htarget)
  unfold GridBasedBodyAdjacency.getTheClosestStartAndGoalVertex
  rw [if_pos hinfo]
  cases hp : presenceLoop source target g.terrain_.getTerrainDataMap
    { is_there_start_vertex := start_flag0, is_there_goal_vertex := false,
      closest_source := closest_source0, closest_target := closest_target0, vertex_map := [] } with
  | inr out =>
    rw [hp] at h
    exact h
  | inl st =>
    rw [hp] at h
    simp only [h.1, Bool.not_true, Bool.and_false, Bool.false_eq_true, if_false]
    split_ifs
    · exact h.2
    · exact h.2

theorem closest_source_present (g : GridBasedBodyAdjacency)
    (closest_source0 closest_target0 source target : Vertex)
    (hinfo : g.terrain_.isTerrainInformation = true)
    (hsource : source ∈ g.terrain_.getTerrainDataMap.map Prod.fst) :
    (g.getTheClosestStartAndGoalVertex false closest_source0 closest_target0 source
      target).1 = source := by
  have h := presenceLoop_source_present source target g.terrain_.getTerrainDataMap
    { is_there_start_vertex := false, is_there_goal_vertex := false,
      closest_source := closest_source0, closest_target := closest_target0, vertex_map := [] }
    (fun h => absurd h Bool.false_ne_true) (Or.inl hsource)
  unfold GridBasedBodyAdjacency.getTheClosestStartAndGoalVertex
  rw [if_pos hinfo]
  cases hp : presenceLoop source target g.terrain_.getTerrainDataMap
    { is_there_start_vertex := false, is_there_goal_vertex := false,
      closest_source := closest_source0, closest_target := closest_target0, vertex_map := [] } with
  | inr out =>
    rw [hp] at h
    exact h
  | inl st =>
    rw [hp] at h
    simp only [h.1, Bool.not_true, Bool.false_and, Bool.false_eq_true, if_false]
    split_ifs
    · exact h.2
    · exact h.2

/-- C25 (evaluation at the failing input): on the two-cell terrain both the source,
the key `(1,0)`, and the target, the key `(0,0)`, are keys of the terrain data map,
and the map lists the target first. When the uninitialised flag
`is_there_start_vertex` reads as false, the snapping returns the source and the
target themselves and no edge is stored under the source. When the flag reads as
true, the loop returns at the entry of the target, before the source is met:
`closest_source` keeps the value it held on entry (here 7) and `computeAdjacencyMap`
stores the zero-weight edge to that value under the source. -/
theorem snapping_of_present_source_defect :
    cellVertex 1 0 ∈ twoCellGrid.terrain_.getTerrainDataMap.map Prod.fst ∧
    cellVertex 0 0 ∈ twoCellGrid.terrain_.getTerrainDataMap.map Prod.fst ∧
    twoCellGrid.getTheClosestStartAndGoalVertex false 7 7 (cellVertex 1 0) (cellVertex 0 0) =
      (cellVertex 1 0, cellVertex 0 0) ∧
    twoCellGrid.getTheClosestStartAndGoalVertex true 7 7 (cellVertex 1 0) (cellVertex 0 0) =
      (7, cellVertex 0 0) ∧
    cellVertex 1 0 ≠ 7 ∧
    (twoCellGrid.computeAdjacencyMap 0 false 7 7 [] (cellVertex 1 0) (cellVertex 0 0)).map
        (fun r => edgesOf r.2 (cellVertex 1 0)) = some [] ∧
    (twoCellGrid.computeAdjacencyMap 0 true 7 7 [] (cellVertex 1 0) (cellVertex 0 0)).map
        (fun r => edgesOf r.2 (cellVertex 1 0)) = some [(7, 0)] := by
  refine ⟨?_, ?_, ?_, ?_, ?_, ?_, ?_⟩
  · simp [twoCellGrid, GridBasedBodyAdjacency.reset, twoCellTerrain, unitTerrain]
  · simp [twoCellGrid, GridBasedBodyAdjacency.reset, twoCellTerrain, unitTerrain]
  · norm_num [GridBasedBodyAdjacency.getTheClosestStartAndGoalVertex, presenceLoop,
      twoCellGrid, GridBasedBodyAdjacency.reset, twoCellTerrain, unitTerrain, cellVertex,
      encodeIndex_values, Nat.pair]
  · norm_num [GridBasedBodyAdjacency.getTheClosestStartAndGoalVertex, presenceLoop,
      twoCellGrid, GridBasedBodyAdjacency.reset, twoCellTerrain, unitTerrain, cellVertex,
      encodeIndex_values, Nat.pair]
  · norm_num [cellVertex, encodeIndex_values, Nat.pair]
  · norm_num [GridBasedBodyAdjacency.computeAdjacencyMap,
      GridBasedBodyAdjacency.getTheClosestStartAndGoalVertex, presenceLoop, closestLoop,
      closerThan, squaredDistance, edgesOf,
      GridBasedBodyAdjacency.terrainLoop, pushNeighborEdges, adjacencyPushBack, cellStateVertex,
      sourceYaw, GridBasedBodyAdjacency.isStanceAdjacency,
      GridBasedBodyAdjacency.searchNeighbors, twoCellGrid, GridBasedBodyAdjacency.reset,
      twoCellTerrain, unitTerrain, unitSpaceModel, poseVertex, cellVertex, rings, searchRing,
      probeFrom, directions, probeDirection, TerrainMap.count, TerrainMap.find, searchingKey,
      neighborStateVertex, encodeIndex_values, decodeIndex_values, Nat.pair, Nat.unpair,
      List.range_succ]
  · norm_num [GridBasedBodyAdjacency.computeAdjacencyMap,
      GridBasedBodyAdjacency.getTheClosestStartAndGoalVertex, presenceLoop, closestLoop,
      closerThan, squaredDistance, edgesOf,
      GridBasedBodyAdjacency.terrainLoop, pushNeighborEdges, adjacencyPushBack, cellStateVertex,
      sourceYaw, GridBasedBodyAdjacency.isStanceAdjacency,
      GridBasedBodyAdjacency.searchNeighbors, twoCellGrid, GridBasedBodyAdjacency.reset,
      twoCellTerrain, unitTerrain, unitSpaceModel, poseVertex, cellVertex, rings, searchRing,
      probeFrom, directions, probeDirection, TerrainMap.count, TerrainMap.find, searchingKey,
      neighborStateVertex, encodeIndex_values, decodeIndex_values, Nat.pair, Nat.unpair,
      List.range_succ]

/-! ## Snapping on an empty terrain data map -/

theorem closest_of_empty_terrain (g : GridBasedBodyAdjacency)
    (closest_source0 closest_target0 source target : Vertex)
    (hinfo : g.terrain_.isTerrainInformation = true)
    (hempty : g.terrain_.getTerrainDataMap = []) :
    g.getTheClosestStartAndGoalVertex false closest_source0 closest_target0 source target =
      (0, 0) ∧
    g.getTheClosestStartAndGoalVertex true closest_source0 closest_target0 source target =
      (closest_source0, 0) := by
  unfold GridBasedBodyAdjacency.getTheClosestStartAndGoalVertex
  rw [if_pos hinfo, if_pos hinfo, hempty]
  exact ⟨rfl, rfl⟩

theorem computeAdjacencyMap_of_empty_terrain (g : GridBasedBodyAdjacency) (fuel : Nat)
    (start_flag0 : Bool) (closest_source0 closest_target0 : Vertex)
    (adjacency_map : AdjacencyMap) (source target : Vertex)
    (hinfo : g.terrain_.isTerrainInformation = true)
    (hempty : g.terrain_.getTerrainDataMap = []) (htarget : target ≠ 0) :
    (g.computeAdjacencyMap fuel start_flag0 closest_source0 closest_target0 adjacency_map source
        target).map Prod.snd =
      some (adjacencyPushBack
        (if (if start_flag0 then closest_source0 else 0) ≠ source then
          adjacencyPushBack adjacency_map source ((if start_flag0 then closest_source0 else 0), 0)
        else adjacency_map) 0 (target, 0)) := by
  have hc := closest_of_empty_terrain
    { g with stance_areas_ := g.robot_.getFootstepSearchAreas Vector3d.zero }
    closest_source0 closest_target0 source target hinfo hempty
  unfold GridBasedBodyAdjacency.computeAdjacencyMap
  simp only [hinfo, if_true, hempty, GridBasedBodyAdjacency.terrainLoop, Option.map_some']
  cases start_flag0 with
  | false =>
    rw [hc.1]
    simp only [Bool.false_eq_true, if_false, if_pos (show (0 : Vertex) ≠ target from htarget.symm)]
  | true =>
    rw [hc.2]
    simp only [if_true, if_pos (show (0 : Vertex) ≠ target from htarget.symm)]

/-- C30 (evaluation at the failing input): the terrain reports terrain information
and its data map is empty; source and target are the state vertices of `(1,0,0)` and
`(2,0,0)`, both other than 0, and the adjacency map is empty. When the uninitialised
flag `is_there_start_vertex` reads as false, `computeAdjacencyMap` stores exactly
the edge `(0, 0)` under the source and the edge `(target, 0)` under the vertex 0.
When the flag reads as true, the branch that assigns `closest_source` is skipped:
the edge under the source goes to the value that `closest_source` held on entry
(here 7), and no edge leaves the source when that value is the source itself. -/
theorem snapping_on_empty_terrain_defect :
    emptyGrid.terrain_.isTerrainInformation = true ∧
    emptyGrid.terrain_.getTerrainDataMap = [] ∧
    poseVertex 1 0 0 ≠ 0 ∧ poseVertex 2 0 0 ≠ 0 ∧ poseVertex 1 0 0 ≠ 7 ∧
    (emptyGrid.computeAdjacencyMap 0 false 7 7 [] (poseVertex 1 0 0) (poseVertex 2 0 0)).map
        Prod.snd =
      some [(poseVertex 1 0 0, [(0, 0)]), (0, [(poseVertex 2 0 0, 0)])] ∧
    (emptyGrid.computeAdjacencyMap 0 true 7 7 [] (poseVertex 1 0 0) (poseVertex 2 0 0)).map
        Prod.snd =
      some [(poseVertex 1 0 0, [(7, 0)]), (0, [(poseVertex 2 0 0, 0)])] ∧
    (emptyGrid.computeAdjacencyMap 0 true (poseVertex 1 0 0) 7 [] (poseVertex 1 0 0)
        (poseVertex 2 0 0)).map Prod.snd =
      some [(0, [(poseVertex 2 0 0, 0)])] := by
  have h1 : poseVertex 1 0 0 ≠ 0 := by
    norm_num [poseVertex, cellVertex, encodeIndex_values, Nat.pair]
  have h2 : poseVertex 2 0 0 ≠ 0 := by
    norm_num [poseVertex, cellVertex, encodeIndex_values, Nat.pair]
  have h7 : poseVertex 1 0 0 ≠ 7 := by
    norm_num [poseVertex, cellVertex, encodeIndex_values, Nat.pair]
  refine ⟨rfl, rfl, h1, h2, h7, ?_, ?_, ?_⟩
  · rw [computeAdjacencyMap_of_empty_terrain emptyGrid 0 false 7 7 [] _ _ rfl rfl h2]
    simp only [Bool.false_eq_true, if_false, if_pos (Ne.symm h1), adjacencyPushBack,
      if_neg h1]
  · rw [computeAdjacencyMap_of_empty_terrain emptyGrid 0 true 7 7 [] _ _ rfl rfl h2]
    simp only [if_true, if_pos (Ne.symm h7), adjacencyPushBack, if_neg h1]
  · rw [computeAdjacencyMap_of_empty_terrain emptyGrid 0 true _ 7 [] _ _ rfl rfl h2]
    simp only [if_true, ne_eq, not_true_eq_false, if_false, adjacencyPushBack]

/-! ## Materialised map and on-demand expansion -/

theorem edgesOf_pushNeighborEdges (sv : Vertex) (c : Weight) (k : Vertex) :
    ∀ (ns : List Vertex) (m : AdjacencyMap),
      edgesOf (pushNeighborEdges sv c ns m) k =
        edgesOf m k ++ List.replicate (ns.count k) (sv, c) := by
  intro ns
  induction ns with
  | nil =>
    intro m
    simp [pushNeighborEdges]
  | cons n rest ih =>
    intro m
    rw [pushNeighborEdges, ih]
    by_cases hk : n = k
    · subst hk
      rw [edgesOf_pushBack_same, List.count_cons_self, List.replicate_succ, List.append_assoc,
        List.singleton_append]
    · rw [edgesOf_pushBack_other m n k (sv, c) (fun h => hk h.symm),
        List.count_cons_of_ne (fun h => hk h.symm)]

theorem terrainLoop_edges (g : GridBasedBodyAdjacency) (fuel : Nat) (yaw : ℚ) (k : Vertex)
    (h : samplingEnds g.is_stance_adjacency_ g.stance_areas_ fuel) :
    ∀ (entries : List (Vertex × TerrainData)) (m : AdjacencyMap),
      ∃ m2, g.terrainLoop fuel yaw entries m = some m2 ∧
        edgesOf m2 k = edgesOf m k ++ entries.flatMap (fun e =>
          List.replicate
            ((g.searchNeighbors []
              (cellStateVertex g.terrain_.getTerrainSpaceModel yaw e.1)).count k)
            (cellStateVertex g.terrain_.getTerrainSpaceModel yaw e.1,
              (cellCost g fuel e
                (cellStateVertex g.terrain_.getTerrainSpaceModel yaw e.1)).getD 0)) := by
  intro entries
  induction entries with
  | nil =>
    intro m
    exact ⟨m, rfl, by simp⟩
  | cons e rest ih =>
    intro m
    obtain ⟨c, hc⟩ := cellCost_isSome g fuel e
      (cellStateVertex g.terrain_.getTerrainSpaceModel yaw e.1) h
    obtain ⟨m2, h1, h2⟩ := ih
      (pushNeighborEdges (cellStateVertex g.terrain_.getTerrainSpaceModel yaw e.1) c
        (g.searchNeighbors [] (cellStateVertex g.terrain_.getTerrainSpaceModel yaw e.1)) m)
    refine ⟨m2, by rw [terrainLoop_step g fuel yaw e rest m c hc]; exact h1, ?_⟩
    rw [h2, edgesOf_pushNeighborEdges, List.flatMap_cons, hc, Option.getD_some,
      List.append_assoc]

theorem grid_successorsLoop_closed (g : GridBasedBodyAdjacency) (fuel : Nat) (w : Vertex → ℚ) :
    ∀ (ns : List Vertex) (successors : List Edge),
      (∀ n ∈ ns,
        (if !g.isStanceAdjacency then
          g.terrain_.getTerrainCost
            (g.terrain_.getTerrainSpaceModel.stateVertexToEnvironmentVertex n TypeOfState.XY_Y)
        else g.computeBodyCost fuel n) = some (w n)) →
      g.successorsLoop fuel ns successors = some (successors ++ ns.map (fun n => (n, w n))) := by
  intro ns
  induction ns with
  | nil =>
    intro successors _
    simp [GridBasedBodyAdjacency.successorsLoop]
  | cons n rest ih =>
    intro successors hw
    have hn := hw n (List.mem_cons_self _ _)
    rw [GridBasedBodyAdjacency.successorsLoop]
    by_cases hs : (!g.isStanceAdjacency) = true
    · rw [if_pos hs] at hn
      simp only [if_pos hs, hn, Option.some_bind]
      rw [ih _ (fun n2 hn2 => hw n2 (List.mem_cons_of_mem _ hn2)), List.map_cons,
        List.append_assoc, List.singleton_append]
    · rw [if_neg hs] at hn
      simp only [if_neg hs, hn, Option.some_bind]
      rw [ih _ (fun n2 hn2 => hw n2 (List.mem_cons_of_mem _ hn2)), List.map_cons,
        List.append_assoc, List.singleton_append]

theorem searchNeighbors_nodup (g : GridBasedBodyAdjacency) (v : Vertex)
    (hlaw : g.terrain_.getTerrainSpaceModel.RoundTrip) : (g.searchNeighbors [] v).Nodup := by
  cases hinfo : g.terrain_.isTerrainInformation with
  | false =>
    rw [searchNeighbors_no_info g [] v hinfo]
    exact List.nodup_nil
  | true =>
    rw [(searchNeighbors_perm g v hinfo).nodup_iff, List.nodup_flatMap]
    constructor
    · intro d _
      rcases directionNeighbors_cases g v d with h | ⟨r, _, _, _, h⟩ <;> simp [h]
    · have hnd : directions.Nodup := by decide
      refine hnd.pairwise_of_forall_ne ?_
      intro a ha b hb hne
      show List.Disjoint (directionNeighbors g v a) (directionNeighbors g v b)
      intro n hna hnb
      obtain ⟨r, hr, _, _, hn⟩ := mem_directionNeighbors g v a n hna
      obtain ⟨r2, hr2, _, _, hn2⟩ := mem_directionNeighbors g v b n hnb
      have hk := congrArg (terrainKeyOf g.terrain_.getTerrainSpaceModel) (hn.symm.trans hn2)
      rw [terrainKeyOf_neighborStateVertex hlaw, terrainKeyOf_neighborStateVertex hlaw] at hk
      exact hne (ray_injective _ ha hb hr hr2 hk).1

theorem searchNeighbors_back (g : GridBasedBodyAdjacency) (key_yaw : Int) (keyA : Key)
    (n : Vertex)
    (hlaw : g.terrain_.getTerrainSpaceModel.RoundTrip)
    (hinfo : g.terrain_.isTerrainInformation = true)
    (hA : g.terrain_.count (g.terrain_.getTerrainSpaceModel.keyToVertex keyA true) > 0)
    (hn : n ∈ g.searchNeighbors []
      (neighborStateVertex g.terrain_.getTerrainSpaceModel key_yaw keyA)) :
    ∃ keyB : Key,
      n = neighborStateVertex g.terrain_.getTerrainSpaceModel key_yaw keyB ∧
      g.terrain_.count (g.terrain_.getTerrainSpaceModel.keyToVertex keyB true) > 0 ∧
      neighborStateVertex g.terrain_.getTerrainSpaceModel key_yaw keyA ∈
        g.searchNeighbors [] n := by
  rw [(searchNeighbors_perm g _ hinfo).mem_iff, List.mem_flatMap] at hn
  obtain ⟨d, hd, hnd⟩ := hn
  rcases directionNeighbors_cases g
    (neighborStateVertex g.terrain_.getTerrainSpaceModel key_yaw keyA) d with h | ⟨r, h1, h2, hnear, h⟩
  · rw [h] at hnd
    exact absurd hnd (List.not_mem_nil n)
  · rw [h, List.mem_singleton, terrainKeyOf_neighborStateVertex hlaw,
      yawKeyOf_neighborStateVertex hlaw] at hnd
    rw [terrainKeyOf_neighborStateVertex hlaw] at hnear
    have hcellB : hasCell g.terrain_ keyA d r = true := ((isNearestRing_iff _ _ _ _).mp hnear).1
    have hback : isNearestRing g.terrain_ (searchingKey keyA r d) (oppositeDirection d) r
        = true := by
      rw [isNearestRing_iff] at hnear ⊢
      constructor
      · unfold hasCell
        rw [searchingKey_back, sub_self, searchingKey_zero]
        simpa using hA
      · intro r2 h3 h4
        have := hnear.2 (r - r2) (by omega) (by omega)
        unfold hasCell at this ⊢
        rw [searchingKey_back]
        exact this
    have hdir : directionNeighbors g
          (neighborStateVertex g.terrain_.getTerrainSpaceModel key_yaw (searchingKey keyA r d))
          (oppositeDirection d)
        = [neighborStateVertex g.terrain_.getTerrainSpaceModel key_yaw keyA] := by
      rw [directionNeighbors_of_nearest g _ (oppositeDirection d) r h1 h2
        (by rw [terrainKeyOf_neighborStateVertex hlaw]; exact hback)]
      rw [terrainKeyOf_neighborStateVertex hlaw, yawKeyOf_neighborStateVertex hlaw,
        searchingKey_back, sub_self, searchingKey_zero]
    refine ⟨searchingKey keyA r d, hnd, by simpa [hasCell] using hcellB, ?_⟩
    rw [hnd]
    exact mem_searchNeighbors_of_direction g _ _ (oppositeDirection d) hinfo
      (oppositeDirection_mem hd) (by rw [hdir]; simp)

theorem cellStateVertex_eq (sm : SpaceModel) (source v : Vertex)
    (hcoord : ∀ k : Key,
      sm.vertexToCoord (sm.keyToVertex k true) = ⟨sm.keyToState k.x true, sm.keyToState k.y true⟩)
    (hv : sm.keyToVertex (sm.vertexToKey v true) true = v) :
    cellStateVertex sm (sourceYaw sm source) v =
      neighborStateVertex sm (sm.stateToKey (sm.vertexToState source).c2 false)
        (sm.vertexToKey v true) := by
  unfold cellStateVertex neighborStateVertex sourceYaw
  simp only
  rw [← hv, hcoord, hv]

theorem find_of_mem_nodup (t : TerrainMap) (e : Vertex × TerrainData)
    (hkeys : (t.getTerrainDataMap.map Prod.fst).Nodup) (he : e ∈ t.getTerrainDataMap) :
    t.find e.1 = some e.2 := by
  unfold TerrainMap.find
  generalize t.getTerrainDataMap = l at hkeys he
  induction l with
  | nil => exact absurd he (List.not_mem_nil e)
  | cons a rest ih =>
    rw [List.map_cons, List.nodup_cons] at hkeys
    rcases List.mem_cons.mp he with rfl | he
    · simp
    · have hne : a.1 ≠ e.1 := by
        intro h
        exact hkeys.1 (by rw [h]; exact List.mem_map_of_mem Prod.fst he)
      rw [List.find?_cons_of_neg _ (by simpa using hne)]
      exact ih hkeys.2 he

theorem successorWeight_isSome (g : GridBasedBodyAdjacency) (fuel : Nat) (n : Vertex)
    (hends : samplingEnds g.is_stance_adjacency_ g.stance_areas_ fuel)
    (hn : g.terrain_.getTerrainSpaceModel.stateVertexToEnvironmentVertex n TypeOfState.XY_Y ∈
      g.terrain_.getTerrainDataMap.map Prod.fst) :
    ∃ c, successorWeight g fuel n = some c := by
  unfold successorWeight GridBasedBodyAdjacency.isStanceAdjacency
  by_cases hs : g.is_stance_adjacency_ = true
  · rcases hends with h | ⟨h1, h2⟩
    · rw [h] at hs
      exact absurd hs Bool.false_ne_true
    · simp only [hs, Bool.not_true, Bool.false_eq_true, if_false]
      exact computeBodyCost_isSome g fuel n h1 h2
  · simp only [(Bool.not_eq_true _).mp hs, Bool.not_false, if_true]
    exact getTerrainCost_of_mem _ _ hn

theorem cellCost_eq_successorWeight (g : GridBasedBodyAdjacency) (fuel : Nat)
    (e : Vertex × TerrainData) (sv : Vertex)
    (hkeys : (g.terrain_.getTerrainDataMap.map Prod.fst).Nodup)
    (he : e ∈ g.terrain_.getTerrainDataMap)
    (hsv : g.terrain_.getTerrainSpaceModel.stateVertexToEnvironmentVertex sv TypeOfState.XY_Y
      = e.1) :
    cellCost g fuel e sv = successorWeight g fuel sv := by
  unfold cellCost successorWeight
  by_cases hs : (!g.isStanceAdjacency) = true
  · rw [if_pos hs, if_pos hs, hsv]
    unfold TerrainMap.getTerrainCost
    rw [find_of_mem_nodup _ e hkeys he]
    rfl
  · rw [if_neg hs, if_neg hs]

theorem grid_getSuccessors_closed (g : GridBasedBodyAdjacency) (fuel : Nat) (sv : Vertex)
    (successors : List Edge)
    (hlaw : g.terrain_.getTerrainSpaceModel.RoundTrip)
    (hinfo : g.terrain_.isTerrainInformation = true)
    (hends : samplingEnds g.is_stance_adjacency_ g.stance_areas_ fuel) :
    g.getSuccessors fuel successors sv =
      some (successors ++ (g.searchNeighbors [] sv).map
        (fun n => (n, (successorWeight g fuel n).getD 0))) := by
  unfold GridBasedBodyAdjacency.getSuccessors
  simp only [hinfo, if_true]
  rw [grid_successorsLoop_closed g fuel (fun n => (successorWeight g fuel n).getD 0)
    (g.searchNeighbors [] sv) successors]
  · intro n hn
    obtain ⟨c, hc⟩ := successorWeight_isSome g fuel n hends
      (searchNeighbors_projects_to_key g sv n hlaw hn)
    have hc2 := hc
    unfold successorWeight at hc2
    rw [hc2, hc]
    rfl

theorem stored_perm_appended (g : GridBasedBodyAdjacency) (key_yaw : Int)
    (sv : Vertex × TerrainData → Vertex) (c : Vertex × TerrainData → ℚ) (w : Vertex → ℚ)
    (hlaw : g.terrain_.getTerrainSpaceModel.RoundTrip)
    (hinfo : g.terrain_.isTerrainInformation = true)
    (hvertex : ∀ e ∈ g.terrain_.getTerrainDataMap,
      g.terrain_.getTerrainSpaceModel.keyToVertex
        (g.terrain_.getTerrainSpaceModel.vertexToKey e.1 true) true = e.1)
    (hkeys : (g.terrain_.getTerrainDataMap.map Prod.fst).Nodup)
    (hsv : ∀ e ∈ g.terrain_.getTerrainDataMap,
      sv e = neighborStateVertex g.terrain_.getTerrainSpaceModel key_yaw
        (g.terrain_.getTerrainSpaceModel.vertexToKey e.1 true))
    (hc : ∀ e ∈ g.terrain_.getTerrainDataMap, c e = w (sv e))
    (e0 : Vertex × TerrainData) (he0 : e0 ∈ g.terrain_.getTerrainDataMap) :
    (g.terrain_.getTerrainDataMap.flatMap (fun e =>
        List.replicate ((g.searchNeighbors [] (sv e)).count (sv e0)) (sv e, c e))).Perm
      ((g.searchNeighbors [] (sv e0)).map (fun n => (n, w n))) := by
  have henv : ∀ e ∈ g.terrain_.getTerrainDataMap,
      g.terrain_.getTerrainSpaceModel.stateVertexToEnvironmentVertex (sv e) TypeOfState.XY_Y
        = e.1 := by
    intro e he
    rw [hsv e he, project_neighborStateVertex hlaw, hvertex e he]
  have hcount : ∀ e ∈ g.terrain_.getTerrainDataMap,
      g.terrain_.count (g.terrain_.getTerrainSpaceModel.keyToVertex
        (g.terrain_.getTerrainSpaceModel.vertexToKey e.1 true) true) > 0 := by
    intro e he
    rw [hvertex e he, count_pos_iff]
    exact List.mem_map_of_mem Prod.fst he
  rw [List.perm_ext_iff_of_nodup]
  · intro x
    rw [List.mem_flatMap, List.mem_map]
    constructor
    · rintro ⟨e, he, hx⟩
      rw [List.mem_replicate] at hx
      obtain ⟨hcnt, rfl⟩ := hx
      have hmem : sv e0 ∈ g.searchNeighbors [] (sv e) := List.count_pos_iff.mp (by omega)
      rw [hsv e he] at hmem
      obtain ⟨_, _, _, hback⟩ := searchNeighbors_back g key_yaw _ _ hlaw hinfo (hcount e he) hmem
      rw [← hsv e he] at hback
      exact ⟨sv e, hback, by rw [hc e he]⟩
    · rintro ⟨n, hn, rfl⟩
      rw [hsv e0 he0] at hn
      obtain ⟨keyB, hnB, hB, hback⟩ :=
        searchNeighbors_back g key_yaw _ _ hlaw hinfo (hcount e0 he0) hn
      rw [count_pos_iff] at hB
      obtain ⟨e, he, hek⟩ := List.mem_map.mp hB
      have hsve : sv e = n := by
        rw [hsv e he, hek, hlaw.key_vertex, hnB]
      refine ⟨e, he, ?_⟩
      rw [List.mem_replicate, hsve]
      refine ⟨?_, by rw [hc e he, hsve]⟩
      rw [← hsv e0 he0] at hback
      exact Nat.pos_iff_ne_zero.mp (List.count_pos_iff.mpr hback)
  · rw [List.nodup_flatMap]
    constructor
    · intro e _
      rw [List.nodup_replicate]
      exact List.nodup_iff_count_le_one.mp (searchNeighbors_nodup g (sv e) hlaw) (sv e0)
    · refine (List.Nodup.of_map Prod.fst hkeys).pairwise_of_forall_ne ?_
      intro a ha b hb hne
      show List.Disjoint (List.replicate _ _) (List.replicate _ _)
      intro x hxa hxb
      rw [List.mem_replicate] at hxa hxb
      have h1 : sv a = sv b := congrArg Prod.fst (hxa.2.symm.trans hxb.2)
      have h2 := congrArg (fun v =>
        g.terrain_.getTerrainSpaceModel.stateVertexToEnvironmentVertex v TypeOfState.XY_Y) h1
      simp only [henv a ha, henv b hb] at h2
      exact hne (List.inj_on_of_nodup_map hkeys ha hb h2)
  · refine List.Nodup.of_map Prod.fst ?_
    rw [List.map_map]
    have : (Prod.fst ∘ fun n => (n, w n)) = id := rfl
    rw [this, List.map_id]
    exact searchNeighbors_nodup g (sv e0) hlaw

theorem unitSpaceModel_coord_of_key (k : Key) :
    unitSpaceModel.vertexToCoord (unitSpaceModel.keyToVertex k true) =
      ⟨unitSpaceModel.keyToState k.x true, unitSpaceModel.keyToState k.y true⟩ := by
  show (⟨(decodeIndex (Nat.unpair (Nat.pair (encodeIndex k.x) (encodeIndex k.y))).1 : ℚ),
    (decodeIndex (Nat.unpair (Nat.pair (encodeIndex k.x) (encodeIndex k.y))).2 : ℚ)⟩ : Vector2d)
      = ⟨(k.x : ℚ), (k.y : ℚ)⟩
  rw [Nat.unpair_pair, encodeIndex_decode, encodeIndex_decode]

theorem unitSpaceModel_vertex_of_key (x y : Int) :
    unitSpaceModel.keyToVertex (unitSpaceModel.vertexToKey (cellVertex x y) true) true =
      cellVertex x y := by
  show Nat.pair
      (encodeIndex (decodeIndex (Nat.unpair (Nat.pair (encodeIndex x) (encodeIndex y))).1))
      (encodeIndex (decodeIndex (Nat.unpair (Nat.pair (encodeIndex x) (encodeIndex y))).2))
    = Nat.pair (encodeIndex x) (encodeIndex y)
  rw [Nat.unpair_pair, encodeIndex_decode, encodeIndex_decode]

theorem terrainLoop_agrees (g : GridBasedBodyAdjacency) (fuel : Nat) (source : Vertex)
    (m0 : AdjacencyMap)
    (hlaw : g.terrain_.getTerrainSpaceModel.RoundTrip)
    (hcoord : ∀ k : Key,
      g.terrain_.getTerrainSpaceModel.vertexToCoord
          (g.terrain_.getTerrainSpaceModel.keyToVertex k true) =
        ⟨g.terrain_.getTerrainSpaceModel.keyToState k.x true,
         g.terrain_.getTerrainSpaceModel.keyToState k.y true⟩)
    (hvertex : ∀ e ∈ g.terrain_.getTerrainDataMap,
      g.terrain_.getTerrainSpaceModel.keyToVertex
        (g.terrain_.getTerrainSpaceModel.vertexToKey e.1 true) true = e.1)
    (hkeys : (g.terrain_.getTerrainDataMap.map Prod.fst).Nodup)
    (hinfo : g.terrain_.isTerrainInformation = true)
    (hends : samplingEnds g.is_stance_adjacency_ g.stance_areas_ fuel) :
    ∃ m : AdjacencyMap,
      g.terrainLoop fuel (sourceYaw g.terrain_.getTerrainSpaceModel source)
        g.terrain_.getTerrainDataMap m0 = some m ∧
      ∀ e ∈ g.terrain_.getTerrainDataMap,
        ∃ stored appended : List Edge,
          edgesOf m (cellStateVertex g.terrain_.getTerrainSpaceModel
              (sourceYaw g.terrain_.getTerrainSpaceModel source) e.1) =
            edgesOf m0 (cellStateVertex g.terrain_.getTerrainSpaceModel
              (sourceYaw g.terrain_.getTerrainSpaceModel source) e.1) ++ stored ∧
          (∀ successors : List Edge,
            g.getSuccessors fuel successors
              (cellStateVertex g.terrain_.getTerrainSpaceModel
                (sourceYaw g.terrain_.getTerrainSpaceModel source) e.1) =
              some (successors ++ appended)) ∧
          stored.Perm appended := by
  obtain ⟨m, hm, _⟩ := terrainLoop_edges g fuel
    (sourceYaw g.terrain_.getTerrainSpaceModel source) 0 hends g.terrain_.getTerrainDataMap m0
  refine ⟨m, hm, ?_⟩
  intro e0 he0
  obtain ⟨m2, hm2, hedges⟩ := terrainLoop_edges g fuel
    (sourceYaw g.terrain_.getTerrainSpaceModel source)
    (cellStateVertex g.terrain_.getTerrainSpaceModel
      (sourceYaw g.terrain_.getTerrainSpaceModel source) e0.1)
    hends g.terrain_.getTerrainDataMap m0
  have hmm : m2 = m := Option.some.inj (hm2.symm.trans hm)
  rw [hmm] at hedges
  have hsv : ∀ e ∈ g.terrain_.getTerrainDataMap,
      cellStateVertex g.terrain_.getTerrainSpaceModel
          (sourceYaw g.terrain_.getTerrainSpaceModel source) e.1 =
        neighborStateVertex g.terrain_.getTerrainSpaceModel
          (g.terrain_.getTerrainSpaceModel.stateToKey
            (g.terrain_.getTerrainSpaceModel.vertexToState source).c2 false)
          (g.terrain_.getTerrainSpaceModel.vertexToKey e.1 true) :=
    fun e he => cellStateVertex_eq _ source e.1 hcoord (hvertex e he)
  refine ⟨_, _, hedges, fun successors =>
    grid_getSuccessors_closed g fuel _ successors hlaw hinfo hends, ?_⟩
  refine stored_perm_appended g _
    (fun e => cellStateVertex g.terrain_.getTerrainSpaceModel
      (sourceYaw g.terrain_.getTerrainSpaceModel source) e.1)
    (fun e => (cellCost g fuel e (cellStateVertex g.terrain_.getTerrainSpaceModel
      (sourceYaw g.terrain_.getTerrainSpaceModel source) e.1)).getD 0)
    (fun n => (successorWeight g fuel n).getD 0)
    hlaw hinfo hvertex hkeys hsv ?_ e0 he0
  intro e he
  show (cellCost g fuel e _).getD 0 = (successorWeight g fuel _).getD 0
  rw [cellCost_eq_successorWeight g fuel e _ hkeys he]
  rw [hsv e he, project_neighborStateVertex hlaw, hvertex e he]

theorem edgesOf_pushBack (m : AdjacencyMap) (k k2 : Vertex) (x : Edge) :
    edgesOf (adjacencyPushBack m k x) k2 = edgesOf m k2 ++ (if k = k2 then [x] else []) := by
  by_cases h : k = k2
  · subst h
    rw [edgesOf_pushBack_same, if_pos rfl]
  · rw [edgesOf_pushBack_other m k k2 x (fun h2 => h h2.symm), if_neg h, List.append_nil]

theorem edgesOf_snappingMap (closest : Vertex × Vertex) (adjacency_map : AdjacencyMap)
    (source target v : Vertex) :
    edgesOf (snappingMap closest adjacency_map source target) v =
      edgesOf adjacency_map v ++ snappingEdges closest source target v := by
  have step : ∀ (c : Prop) [Decidable c] (m : AdjacencyMap) (k : Vertex) (x : Edge),
      edgesOf (if c then adjacencyPushBack m k x else m) v =
        edgesOf m v ++ (if c ∧ k = v then [x] else []) := by
    intro c _ m k x
    by_cases hc : c
    · rw [if_pos hc, edgesOf_pushBack]
      by_cases hk : k = v
      · rw [if_pos hk, if_pos ⟨hc, hk⟩]
      · rw [if_neg hk, if_neg (fun h => hk h.2)]
    · rw [if_neg hc, if_neg (fun h => hc h.1), List.append_nil]
  unfold snappingMap snappingEdges
  simp only []
  rw [step, step, List.append_assoc]

theorem computeAdjacencyMap_eq (g : GridBasedBodyAdjacency) (fuel : Nat)
    (start_flag0 : Bool) (closest_source0 closest_target0 : Vertex)
    (adjacency_map : AdjacencyMap) (source target : Vertex)
    (hinfo : g.terrain_.isTerrainInformation = true) :
    g.computeAdjacencyMap fuel start_flag0 closest_source0 closest_target0 adjacency_map
        source target =
      (GridBasedBodyAdjacency.terrainLoop
          { g with stance_areas_ := g.robot_.getFootstepSearchAreas Vector3d.zero } fuel
          (sourceYaw g.terrain_.getTerrainSpaceModel source) g.terrain_.getTerrainDataMap
          (snappingMap
            (g.getTheClosestStartAndGoalVertex start_flag0 closest_source0 closest_target0
              source target)
            adjacency_map source target)).map
        (fun m =>
          ({ g with stance_areas_ := g.robot_.getFootstepSearchAreas Vector3d.zero }, m)) := by
  unfold GridBasedBodyAdjacency.computeAdjacencyMap
  simp only [hinfo, if_true]
  rfl

theorem twoCellGrid_vertices :
    ∀ e ∈ twoCellGrid.terrain_.getTerrainDataMap,
      twoCellGrid.terrain_.getTerrainSpaceModel.keyToVertex
        (twoCellGrid.terrain_.getTerrainSpaceModel.vertexToKey e.1 true) true = e.1 := by
  intro e he
  have he2 : e ∈ [(cellVertex 0 0, (⟨1, 0⟩ : TerrainData)), (cellVertex 1 0, ⟨2, 0⟩)] := he
  rw [List.mem_cons, List.mem_singleton] at he2
  rcases he2 with h | h
  · rw [h]
    exact unitSpaceModel_vertex_of_key 0 0
  · rw [h]
    exact unitSpaceModel_vertex_of_key 1 0

theorem twoCellGrid_keys : (twoCellGrid.terrain_.getTerrainDataMap.map Prod.fst).Nodup := by
  show [cellVertex 0 0, cellVertex 1 0].Nodup
  norm_num [cellVertex, Nat.pair, encodeIndex_values]

/-- C26: whole-map materialisation agrees with on-demand expansion. With terrain
information present, a space model whose conversions round-trip (the laws of
`RoundTrip`, the coordinates of a plane vertex being the states of its key, and
every key of the terrain data map being the vertex of its own key), a terrain data
map with one entry per key, and sampling loops that end within the fuel:
`computeAdjacencyMap` started on the empty map returns, and for every terrain cell
the edge sequence stored under the state vertex of the cell (at the quantised yaw
of the source) is the zero-weight snapping edges of that vertex followed by a list
`stored` that is a permutation of the list `appended` of the edges that
`getSuccessors`, called afterwards on the same object, appends for that state
vertex to whatever list it is given. -/
theorem computeAdjacencyMap_agrees_with_getSuccessors (g : GridBasedBodyAdjacency)
    (fuel : Nat) (start_flag0 : Bool) (closest_source0 closest_target0 : Vertex)
    (source target : Vertex)
    (hlaw : g.terrain_.getTerrainSpaceModel.RoundTrip)
    (hcoord : ∀ k : Key,
      g.terrain_.getTerrainSpaceModel.vertexToCoord
          (g.terrain_.getTerrainSpaceModel.keyToVertex k true) =
        ⟨g.terrain_.getTerrainSpaceModel.keyToState k.x true,
         g.terrain_.getTerrainSpaceModel.keyToState k.y true⟩)
    (hvertex : ∀ e ∈ g.terrain_.getTerrainDataMap,
      g.terrain_.getTerrainSpaceModel.keyToVertex
        (g.terrain_.getTerrainSpaceModel.vertexToKey e.1 true) true = e.1)
    (hkeys : (g.terrain_.getTerrainDataMap.map Prod.fst).Nodup)
    (hinfo : g.terrain_.isTerrainInformation = true)
    (hends : samplingEnds g.is_stance_adjacency_
      (g.robot_.getFootstepSearchAreas Vector3d.zero) fuel) :
    ∃ (g1 : GridBasedBodyAdjacency) (m : AdjacencyMap),
      g.computeAdjacencyMap fuel start_flag0 closest_source0 closest_target0 []
          source target = some (g1, m) ∧
      g1 = { g with stance_areas_ := g.robot_.getFootstepSearchAreas Vector3d.zero } ∧
      ∀ e ∈ g.terrain_.getTerrainDataMap,
        ∃ stored appended : List Edge,
          edgesOf m (cellStateVertex g.terrain_.getTerrainSpaceModel
              (sourceYaw g.terrain_.getTerrainSpaceModel source) e.1) =
            snappingEdges
              (g.getTheClosestStartAndGoalVertex start_flag0 closest_source0 closest_target0
                source target)
              source target
              (cellStateVertex g.terrain_.getTerrainSpaceModel
                (sourceYaw g.terrain_.getTerrainSpaceModel source) e.1) ++ stored ∧
          (∀ successors : List Edge,
            g1.getSuccessors fuel successors
              (cellStateVertex g.terrain_.getTerrainSpaceModel
                (sourceYaw g.terrain_.getTerrainSpaceModel source) e.1) =
              some (successors ++ appended)) ∧
          stored.Perm appended := by
  rw [computeAdjacencyMap_eq g fuel start_flag0 closest_source0 closest_target0 [] source
    target hinfo]
  obtain ⟨m, hm, h⟩ := terrainLoop_agrees
    { g with stance_areas_ := g.robot_.getFootstepSearchAreas Vector3d.zero } fuel source
    (snappingMap
      (g.getTheClosestStartAndGoalVertex start_flag0 closest_source0 closest_target0
        source target) [] source target)
    hlaw hcoord hvertex hkeys hinfo hends
  refine ⟨_, m, by rw [hm]; rfl, rfl, ?_⟩
  intro e he
  obtain ⟨stored, appended, h1, h2, h3⟩ := h e he
  refine ⟨stored, appended, ?_, h2, h3⟩
  rw [h1, edgesOf_snappingMap]
  rfl

/-- Witness of C26 on the two-cell terrain: source at the cell `(0,0)`, target at
the cell `(1,0)`, stance adjacency disabled. -/
theorem computeAdjacencyMap_agrees_with_getSuccessors_witness :
    ∃ (g1 : GridBasedBodyAdjacency) (m : AdjacencyMap),
      twoCellGrid.computeAdjacencyMap 0 false 0 0 [] (poseVertex 0 0 0) (poseVertex 1 0 0)
        = some (g1, m) ∧
      g1 = { twoCellGrid with
        stance_areas_ := twoCellGrid.robot_.getFootstepSearchAreas Vector3d.zero } ∧
      ∀ e ∈ twoCellGrid.terrain_.getTerrainDataMap,
        ∃ stored appended : List Edge,
          edgesOf m (cellStateVertex twoCellGrid.terrain_.getTerrainSpaceModel
              (sourceYaw twoCellGrid.terrain_.getTerrainSpaceModel (poseVertex 0 0 0)) e.1) =
            snappingEdges
              (twoCellGrid.getTheClosestStartAndGoalVertex false 0 0
                (poseVertex 0 0 0) (poseVertex 1 0 0))
              (poseVertex 0 0 0) (poseVertex 1 0 0)
              (cellStateVertex twoCellGrid.terrain_.getTerrainSpaceModel
                (sourceYaw twoCellGrid.terrain_.getTerrainSpaceModel (poseVertex 0 0 0)) e.1)
              ++ stored ∧
          (∀ successors : List Edge,
            g1.getSuccessors 0 successors
              (cellStateVertex twoCellGrid.terrain_.getTerrainSpaceModel
                (sourceYaw twoCellGrid.terrain_.getTerrainSpaceModel (poseVertex 0 0 0)) e.1) =
              some (successors ++ appended)) ∧
          stored.Perm appended :=
  computeAdjacencyMap_agrees_with_getSuccessors twoCellGrid 0 false 0 0 (poseVertex 0 0 0)
    (poseVertex 1 0 0) unitSpaceModel_roundTrip unitSpaceModel_coord_of_key
    twoCellGrid_vertices twoCellGrid_keys rfl (Or.inl rfl)

/-! ## Finite edge weights, the division kept on doubles -/

/-- C8 (evaluation at the failing inputs). First input: the two-cell terrain (cells
`(0,0)` and `(1,0)`), source the state vertex of `(0,0,0)`, target the state vertex
of `(2,0,0)`, which is not a key of the terrain data map. The cell `(1,0)` is
nearer to the target than the cell `(0,0)` (squared distances 1 and 4, with the
coordinates `vertexToCoord` gives for the keys), but the snapping decodes the keys
with `vertexToState`, which reads the key of `(1,0)` as the position `(-1,0)`: for
both readings of the uninitialised flag the target is snapped to the key of
`(0,0)`, and the zero-weight edge to the target is stored under that key, none
under the state vertex of the nearest cell. Second input: the terrain with the
single cell `(2,2)`, target the state vertex of `(1,1,0)`: the zero-weight edge to
the target is stored under the key of the cell, which is another vertex than the
state vertex of the cell, and no edge at all is stored under that state vertex. -/
theorem computeAdjacencyMap_target_snapping_defect :
    poseVertex 2 0 0 ∉ twoCellGrid.terrain_.getTerrainDataMap.map Prod.fst ∧
    unitSpaceModel.vertexToCoord (cellVertex 0 0) = ⟨0, 0⟩ ∧
    unitSpaceModel.vertexToCoord (cellVertex 1 0) = ⟨1, 0⟩ ∧
    (unitSpaceModel.vertexToState (poseVertex 2 0 0)).head2 = ⟨2, 0⟩ ∧
    squaredDistance ⟨2, 0⟩ ⟨1, 0⟩ < squaredDistance ⟨2, 0⟩ ⟨0, 0⟩ ∧
    decodedPosition unitSpaceModel (cellVertex 1 0) = ⟨-1, 0⟩ ∧
    (∀ flag : Bool,
      (twoCellGrid.getTheClosestStartAndGoalVertex flag 0 0 (poseVertex 0 0 0)
        (poseVertex 2 0 0)).2 = cellVertex 0 0) ∧
    (∀ flag : Bool,
      (twoCellGrid.computeAdjacencyMap 0 flag 0 0 [] (poseVertex 0 0 0) (poseVertex 2 0 0)).map
          Prod.snd =
        some [(cellVertex 0 0, [(poseVertex 2 0 0, 0), (poseVertex 1 0 0, 2)]),
          (poseVertex 1 0 0, [(poseVertex 0 0 0, 1)])]) ∧
    poseVertex 1 1 0 ∉ farCellGrid.terrain_.getTerrainDataMap.map Prod.fst ∧
    cellStateVertex unitSpaceModel (sourceYaw unitSpaceModel (poseVertex 0 0 0)) (cellVertex 2 2)
      = poseVertex 2 2 0 ∧
    cellVertex 2 2 ≠ poseVertex 2 2 0 ∧
    (farCellGrid.computeAdjacencyMap 0 false 0 0 [] (poseVertex 0 0 0) (poseVertex 1 1 0)).map
        Prod.snd =
      some [(poseVertex 0 0 0, [(cellVertex 2 2, 0)]), (cellVertex 2 2, [(poseVertex 1 1 0, 0)])] ∧
    (farCellGrid.computeAdjacencyMap 0 false 0 0 [] (poseVertex 0 0 0) (poseVertex 1 1 0)).map
        (fun r => edgesOf r.2 (poseVertex 2 2 0)) = some [] := by
  refine ⟨?_, ?_, ?_, ?_, ?_, ?_, ?_, ?_, ?_, ?_, ?_, ?_, ?_⟩
  · norm_num [twoCellGrid, GridBasedBodyAdjacency.reset, twoCellTerrain, unitTerrain,
      poseVertex, cellVertex, encodeIndex_values, Nat.pair]
  · norm_num [unitSpaceModel, cellVertex, Nat.unpair_pair, encodeIndex_decode]
  · norm_num [unitSpaceModel, cellVertex, Nat.unpair_pair, encodeIndex_decode]
  · rw [unitSpaceModel_decode]
    norm_num [Vector3d.head2]
  · norm_num [squaredDistance]
  · norm_num [decodedPosition, Vector3d.head2, unitSpaceModel, cellVertex, encodeIndex_values,
      decodeIndex_values, Nat.pair, Nat.unpair]
  · intro flag
    cases flag <;>
    norm_num [GridBasedBodyAdjacency.getTheClosestStartAndGoalVertex, presenceLoop,
      closestLoop, closerThan, squaredDistance, Vector3d.head2,
      twoCellGrid, GridBasedBodyAdjacency.reset, twoCellTerrain, unitTerrain, unitSpaceModel,
      poseVertex, cellVertex, encodeIndex_values, decodeIndex_values, Nat.pair, Nat.unpair]
  · intro flag
    cases flag <;>
    norm_num [GridBasedBodyAdjacency.computeAdjacencyMap,
      GridBasedBodyAdjacency.getTheClosestStartAndGoalVertex, presenceLoop, closestLoop,
      closerThan, squaredDistance, Vector3d.head2,
      GridBasedBodyAdjacency.terrainLoop, pushNeighborEdges, adjacencyPushBack, cellStateVertex,
      sourceYaw, GridBasedBodyAdjacency.isStanceAdjacency,
      GridBasedBodyAdjacency.searchNeighbors, twoCellGrid, GridBasedBodyAdjacency.reset,
      twoCellTerrain, unitTerrain, unitSpaceModel, poseVertex, cellVertex, rings, searchRing,
      probeFrom, directions, probeDirection, TerrainMap.count, TerrainMap.find, searchingKey,
      neighborStateVertex, encodeIndex_values, decodeIndex_values, Nat.pair, Nat.unpair,
      List.range_succ]
  · norm_num [farCellGrid, GridBasedBodyAdjacency.reset, farCellTerrain, unitTerrain,
      poseVertex, cellVertex, encodeIndex_values, Nat.pair]
  · norm_num [cellStateVertex, sourceYaw, unitSpaceModel, poseVertex, cellVertex,
      Nat.unpair_pair, encodeIndex_decode]
  · norm_num [poseVertex, cellVertex, encodeIndex_values, Nat.pair]
  · norm_num [GridBasedBodyAdjacency.computeAdjacencyMap,
      GridBasedBodyAdjacency.getTheClosestStartAndGoalVertex, presenceLoop, closestLoop,
      closerThan, squaredDistance,
      GridBasedBodyAdjacency.terrainLoop, pushNeighborEdges, adjacencyPushBack, cellStateVertex,
      sourceYaw, GridBasedBodyAdjacency.isStanceAdjacency,
      GridBasedBodyAdjacency.searchNeighbors, farCellGrid, GridBasedBodyAdjacency.reset,
      farCellTerrain, unitTerrain, unitSpaceModel, poseVertex, cellVertex, rings, searchRing,
      probeFrom, directions, probeDirection, TerrainMap.count, TerrainMap.find, searchingKey,
      neighborStateVertex, encodeIndex_values, decodeIndex_values, Nat.pair, Nat.unpair,
      List.range_succ]
  · norm_num [GridBasedBodyAdjacency.computeAdjacencyMap,
      GridBasedBodyAdjacency.getTheClosestStartAndGoalVertex, presenceLoop, closestLoop,
      closerThan, squaredDistance, edgesOf,
      GridBasedBodyAdjacency.terrainLoop, pushNeighborEdges, adjacencyPushBack, cellStateVertex,
      sourceYaw, GridBasedBodyAdjacency.isStanceAdjacency,
      GridBasedBodyAdjacency.searchNeighbors, farCellGrid, GridBasedBodyAdjacency.reset,
      farCellTerrain, unitTerrain, unitSpaceModel, poseVertex, cellVertex, rings, searchRing,
      probeFrom, directions, probeDirection, TerrainMap.count, TerrainMap.find, searchingKey,
      neighborStateVertex, encodeIndex_values, decodeIndex_values, Nat.pair, Nat.unpair,
      List.range_succ]

end dwl
